import Mathlib

/-!
# kubernetes-metrics-api: a shallow embedding of the request path

The development embeds the Go code of `internal/handlers/handlers.go`,
`internal/middleware/auth.go` and the wiring of `cmd/main.go`.

Modelling conventions.
* A Go `string` is a Lean `String`; `strings.Split` works on the character list.
* A Go `map[K]V` and a Prometheus `GaugeVec` are association lists read by first match
  (`List.lookup`); an update rewrites the first entry of the key or appends a new one.
  Go leaves the iteration order of a map unspecified; every statement below is about
  lookups and key membership, which do not depend on that order.
* A finite `float64` is the rational (`ℚ`) it denotes. The conversion of an `int64`
  quantity, the quotient by 1000 and the additions of the running totals round to the
  nearest `float64`, ties to even (`roundFloat64`). The length of a listing, an `int32`
  and the steps of `Inc` are kept as they stand: they are exact in `float64` below `2^53`.
  Overflow to infinity is not represented; it would take magnitudes of `2^1024`, which
  sums of `int64` quantities over a listing do not reach.
* `int`, `int32`, `int64` values are `Nat`/`Int`: the code performs no arithmetic on them
  besides counting list elements.
* Handlers are state passing functions: they receive the response writer, the request
  and the state of the world and return the new writer and world, together with a flag
  that tells whether the goroutine panicked.
-/

namespace K8sMetricsAPI

/-! ## Go maps as association lists -/

/-- The statement `m[k] = f(m[k])` of Go, a missing key reading as `zero`. -/
def mapModify {κ ν : Type} [DecidableEq κ] (k : κ) (f : ν → ν) (zero : ν) :
    List (κ × ν) → List (κ × ν)
  | [] => [(k, f zero)]
  | (k', v') :: rest =>
    if k' = k then (k, f v') :: rest else (k', v') :: mapModify k f zero rest

/-- The keys of a map. -/
def mapKeys {κ ν : Type} (m : List (κ × ν)) : List κ := m.map Prod.fst

/-- The sum of the values of a `map[string]int`. -/
def mapSum {κ : Type} (m : List (κ × Nat)) : Nat := (m.map Prod.snd).sum

/-! ## Prometheus gauges -/

/-- A `prometheus.GaugeVec`: the series of the family, keyed by their label values. -/
abbrev GaugeVec := List (List String × ℚ)

namespace GaugeVec

/-- The method `Reset` deletes every series of the family. -/
def Reset (_g : GaugeVec) : GaugeVec := []

/-- The call `g.WithLabelValues(lvs...)` alone: the series is created with the value
zero when the family does not have it yet. -/
def WithLabelValues (lvs : List String) (g : GaugeVec) : GaugeVec :=
  mapModify lvs (fun x => x) 0 g

/-- The call `g.WithLabelValues(lvs...).Set(v)`. -/
def Set (lvs : List String) (v : ℚ) (g : GaugeVec) : GaugeVec :=
  mapModify lvs (fun _ => v) 0 g

/-- The call `g.WithLabelValues(lvs...).Inc()`: a new series starts at zero. -/
def Inc (lvs : List String) (g : GaugeVec) : GaugeVec :=
  mapModify lvs (fun x => x + 1) 0 g

/-- The value of the series with label values `lvs`, if the family has one. -/
def value? (g : GaugeVec) (lvs : List String) : Option ℚ := List.lookup lvs g

/-- The label tuples of the series of the family. -/
def labels (g : GaugeVec) : List (List String) := mapKeys g

end GaugeVec

/-- The struct `metrics.PrometheusMetrics`: five scalar gauges and eleven families. -/
structure PrometheusMetrics where
  NodeCount : ℚ
  PodCount : ℚ
  DeploymentCount : ℚ
  ServiceCount : ℚ
  NamespaceCount : ℚ
  NodeReady : GaugeVec
  PodStatus : GaugeVec
  DeploymentDesired : GaugeVec
  DeploymentAvailable : GaugeVec
  ContainerRestarts : GaugeVec
  CPUAllocatable : GaugeVec
  MemoryAllocatable : GaugeVec
  CPURequests : GaugeVec
  MemoryRequests : GaugeVec
  CPULimits : GaugeVec
  MemoryLimits : GaugeVec
  deriving DecidableEq

/-! ## The objects listed by the Kubernetes API -/

/-- What the code reads of a `resource.Quantity`: `MilliValue()` and `Value()`. -/
structure Quantity where
  MilliValue : Int
  Value : Int
  deriving DecidableEq

/-- A `corev1.ResourceList`, a map from resource name to quantity. -/
abbrev ResourceList := List (String × Quantity)

/-- The constant `corev1.ResourceCPU`. -/
def ResourceCPU : String := "cpu"

/-- The constant `corev1.ResourceMemory`. -/
def ResourceMemory : String := "memory"

/-- The zero `Quantity` returned for a resource that the list does not hold. -/
def Quantity.zero : Quantity := ⟨0, 0⟩

/-- The method `ResourceList.Cpu`. -/
def ResourceList.Cpu (l : ResourceList) : Quantity :=
  (List.lookup ResourceCPU l).getD Quantity.zero

/-- The method `ResourceList.Memory`. -/
def ResourceList.Memory (l : ResourceList) : Quantity :=
  (List.lookup ResourceMemory l).getD Quantity.zero

/-- A `corev1.NodeCondition`, with the two fields the code reads (`Type_` is `Type`). -/
structure NodeCondition where
  Type_ : String
  Status : String
  deriving DecidableEq

/-- The constant `corev1.NodeReady`. -/
def NodeReady : String := "Ready"

/-- The constant `corev1.ConditionTrue`. -/
def ConditionTrue : String := "True"

/-- A `corev1.Node`. -/
structure Node where
  Name : String
  Conditions : List NodeCondition
  Allocatable : ResourceList
  deriving DecidableEq

/-- A `corev1.Container` of a pod spec. -/
structure Container where
  Name : String
  Requests : ResourceList
  Limits : ResourceList
  deriving DecidableEq

/-- A `corev1.ContainerStatus`. -/
structure ContainerStatus where
  Name : String
  RestartCount : Int
  deriving DecidableEq

/-- A `corev1.Pod`. -/
structure Pod where
  Namespace : String
  Name : String
  Phase : String
  Containers : List Container
  ContainerStatuses : List ContainerStatus
  deriving DecidableEq

/-- An `appsv1.Deployment`; `Replicas` is the pointer field `Spec.Replicas`. -/
structure Deployment where
  Namespace : String
  Name : String
  Replicas : Option Int
  AvailableReplicas : Int
  deriving DecidableEq

/-- A `corev1.Service`. -/
structure Service where
  Namespace : String
  Name : String
  deriving DecidableEq

/-- A `corev1.Namespace`. -/
structure Namespace where
  Name : String
  deriving DecidableEq

/-- The five resource kinds, in the order in which the handler lists them. -/
inductive Kind where
  | nodes
  | pods
  | namespaces
  | deployments
  | services
  deriving DecidableEq, Repr

/-- The answers of the API server to the five `List` calls: the items or an error text. -/
structure Cluster where
  nodes : Except String (List Node)
  pods : Except String (List Pod)
  namespaces : Except String (List Namespace)
  deployments : Except String (List Deployment)
  services : Except String (List Service)

/-! ## HTTP requests and response writers -/

/-- An `http.Header`: canonical header names with their values. -/
abbrev Header := List (String × List String)

/-- The method `Header.Get`: the first value of the header, or the empty string. -/
def Header.Get (h : Header) (key : String) : String :=
  match List.lookup key h with
  | some (v :: _) => v
  | _ => ""

/-- The parts of an `http.Request` that the code reads. -/
structure Request where
  Method : String
  Path : String
  Header : Header
  deriving DecidableEq

/-- The snapshot `ClusterMetrics` of the JSON answer; `Timestamp` is in nanoseconds. -/
structure ClusterMetrics where
  NodeCount : Nat
  PodCount : Nat
  DeploymentCount : Nat
  ServiceCount : Nat
  NamespaceCount : Nat
  PodPhases : List (String × Nat)
  Timestamp : Int
  deriving DecidableEq

/-- One write to the body of a response: `text s` is text written as it stands,
`jsonMetrics v` and `jsonMap v` are the line that `json.NewEncoder(w).Encode(v)` writes
for a `ClusterMetrics` value and for a `map[string]string`. -/
inductive Chunk where
  | text (s : String)
  | jsonMetrics (v : ClusterMetrics)
  | jsonMap (v : List (String × String))
  deriving DecidableEq

/-- An `http.ResponseWriter`, observed the way `httptest.ResponseRecorder` records it. -/
structure ResponseWriter where
  HeaderMap : List (String × String)
  wroteHeader : Bool
  Code : Nat
  Body : List Chunk
  deriving DecidableEq

/-- The function `httptest.NewRecorder`: nothing written yet, the status defaults to 200. -/
def NewRecorder : ResponseWriter := ⟨[], false, 200, []⟩

namespace ResponseWriter

/-- The call `w.Header().Set(key, value)`. -/
def SetHeader (key value : String) (w : ResponseWriter) : ResponseWriter :=
  { w with HeaderMap := mapModify key (fun _ => value) "" w.HeaderMap }

/-- The call `w.Header().Del(key)`. -/
def DelHeader (key : String) (w : ResponseWriter) : ResponseWriter :=
  { w with HeaderMap := w.HeaderMap.filter (fun kv => kv.1 ≠ key) }

/-- The method `WriteHeader`: only the first call commits the status code. -/
def WriteHeader (code : Nat) (w : ResponseWriter) : ResponseWriter :=
  if w.wroteHeader then w else { w with wroteHeader := true, Code := code }

/-- The method `Write`: commits status 200 if no header was written, then appends. -/
def Write (c : Chunk) (w : ResponseWriter) : ResponseWriter :=
  let w1 := w.WriteHeader 200
  { w1 with Body := w1.Body ++ [c] }

end ResponseWriter

/-- The function `http.Error` of the standard library: it drops `Content-Length`, sets
the two headers, commits the status code and prints the text with a newline. -/
def httpError (w : ResponseWriter) (error : String) (code : Nat) : ResponseWriter :=
  let w1 := w.DelHeader "Content-Length"
  let w2 := w1.SetHeader "Content-Type" "text/plain; charset=utf-8"
  let w3 := w2.SetHeader "X-Content-Type-Options" "nosniff"
  let w4 := w3.WriteHeader code
  w4.Write (Chunk.text (error ++ "\n"))

/-- What a handler leaves behind: the writer, the world, and whether it panicked. -/
structure Result (σ : Type) where
  w : ResponseWriter
  s : σ
  panicked : Bool

/-- An `http.HandlerFunc` over a world of type `σ`. -/
abbrev HandlerFunc (σ : Type) := ResponseWriter → Request → σ → Result σ

/-- A record written by a `slog.Logger`. -/
structure LogRecord where
  level : String
  msg : String
  attrs : List (String × String)
  deriving DecidableEq

/-- A `*slog.Logger`: writing a record changes the world. -/
structure Logger (σ : Type) where
  write : LogRecord → σ → σ

/-- The method `Logger.Warn`. -/
def Logger.Warn {σ : Type} (l : Logger σ) (msg : String) (attrs : List (String × String))
    (s : σ) : σ :=
  l.write ⟨"WARN", msg, attrs⟩ s

/-! ## `internal/middleware/auth.go` -/

/-- The pieces between the occurrences of `sep`, as `strings.Split` cuts them. -/
def splitChars (sep : Char) : List Char → List (List Char)
  | [] => [[]]
  | c :: cs =>
    if c = sep then [] :: splitChars sep cs
    else
      match splitChars sep cs with
      | [] => [[c]]
      | p :: ps => (c :: p) :: ps

/-- The call `strings.Split(s, " ")`. -/
def stringsSplitSpace (s : String) : List String :=
  (splitChars ' ' s.data).map String.mk

/-- The function `strings.ToLower`, on the letters A to Z. No other character has a
lower case among the letters of "bearer", so the comparison with "bearer" is decided
as in Go. -/
def stringsToLower (s : String) : String := String.mk (s.data.map Char.toLower)

/-- The condition of the `if` of `AuthMiddleware` under which the request is refused. -/
def authRejects (expectedToken : String) (auth : String) : Bool :=
  let parts := stringsSplitSpace auth
  parts.length != 2 || stringsToLower (parts.getD 0 "") != "bearer"
    || parts.getD 1 "" != expectedToken

/-- The function `AuthMiddleware` validates the bearer token. -/
def AuthMiddleware {σ : Type} (expectedToken : String) (logger : Logger σ)
    (next : HandlerFunc σ) : HandlerFunc σ :=
  fun w r s =>
    let auth := r.Header.Get "Authorization"
    if authRejects expectedToken auth then
      let s1 := logger.Warn "Acesso não autorizado" [("path", r.Path)] s
      ⟨httpError w "unauthorized" 401, s1, false⟩
    else
      next w r s

/-! ## `float64` -/

/-- The integer nearest to `y`, the even one when two integers are equally near. -/
def roundHalfEven (y : ℚ) : ℤ :=
  if y - ⌊y⌋ < 1 / 2 then ⌊y⌋
  else if 1 / 2 < y - ⌊y⌋ then ⌊y⌋ + 1
  else if ⌊y⌋ % 2 = 0 then ⌊y⌋
  else ⌊y⌋ + 1

/-- The `float64` nearest to the rational `x`, ties going to the even significand (the
rounding of IEEE 754 binary64, which Go applies to every conversion and arithmetic
operation): with `2 ^ e ≤ |x| < 2 ^ (e + 1)` the unit in the last place is `2 ^ (e - 52)`,
and `2 ^ (-1074)` below the normal range. A finite `float64` is represented by the
rational it denotes. -/
def roundFloat64 (x : ℚ) : ℚ :=
  let ulp : ℚ := 2 ^ (max (Int.log 2 |x|) (-1022) - 52)
  (roundHalfEven (x / ulp) : ℚ) * ulp

/-- The conversion `float64(i)` of an `int64`. -/
def float64 (i : Int) : ℚ := roundFloat64 (i : ℚ)

/-- The quotient `a / b` of two `float64` values. -/
def float64Div (a b : ℚ) : ℚ := roundFloat64 (a / b)

/-- The sum `a + b` of two `float64` values. -/
def float64Add (a b : ℚ) : ℚ := roundFloat64 (a + b)

/-! ## `internal/handlers/handlers.go` -/

/-- The world a request runs in: the API server, the process-wide gauges behind `h.m`,
the `List` calls issued so far, the clock read by `time.Now`, and the log output. -/
structure World where
  cluster : Cluster
  m : PrometheusMetrics
  calls : List Kind
  now : Int
  stdout : List LogRecord

/-- The function `boolToFloat`. -/
def boolToFloat (b : Bool) : ℚ := if b then 1 else 0

/-- The inner loop over `n.Status.Conditions`: `ready` becomes true at the first
condition of type `Ready` and status `True`, where the loop breaks. -/
def readyLoop : List NodeCondition → Bool
  | [] => false
  | c :: cs => if c.Type_ = NodeReady ∧ c.Status = ConditionTrue then true else readyLoop cs

/-- The body of the loop over `nodes.Items`. -/
def nodeStep (m : PrometheusMetrics) (n : Node) : PrometheusMetrics :=
  let ready := readyLoop n.Conditions
  let m1 := { m with NodeReady := m.NodeReady.Set [n.Name] (boolToFloat ready) }
  let m2 := { m1 with CPUAllocatable :=
    m1.CPUAllocatable.Set [n.Name] (float64Div (float64 n.Allocatable.Cpu.MilliValue) 1000) }
  { m2 with MemoryAllocatable :=
    m2.MemoryAllocatable.Set [n.Name] (float64 n.Allocatable.Memory.Value) }

/-- Lines 51 to 64: what the handler does with a successful node listing. -/
def nodesUpdate (nodes : List Node) (m : PrometheusMetrics) : PrometheusMetrics :=
  let m1 := { m with NodeCount := (nodes.length : ℚ) }
  let m2 := { m1 with NodeReady := m1.NodeReady.Reset }
  nodes.foldl nodeStep m2

/-- The variables of the loop over `pods.Items`: the gauges and the five local maps. -/
structure PodLoop where
  m : PrometheusMetrics
  podPhases : List (String × Nat)
  cpuReq : List (String × ℚ)
  memReq : List (String × ℚ)
  cpuLim : List (String × ℚ)
  memLim : List (String × ℚ)

/-- The statement `acc[ns] += v` on a `map[string]float64`: the sum is a `float64`. -/
def addTo (ns : String) (v : ℚ) (acc : List (String × ℚ)) : List (String × ℚ) :=
  mapModify ns (fun x => float64Add x v) 0 acc

/-- The body of the loop over `p.Status.ContainerStatuses`. -/
def containerStatusStep (p : Pod) (m : PrometheusMetrics) (cs : ContainerStatus) :
    PrometheusMetrics :=
  { m with ContainerRestarts :=
    m.ContainerRestarts.Set [p.Namespace, p.Name, cs.Name] (cs.RestartCount : ℚ) }

/-- The body of the loop over `p.Spec.Containers`. -/
def containerStep (p : Pod) (l : PodLoop) (c : Container) : PodLoop :=
  let l1 := match List.lookup ResourceCPU c.Requests with
    | some q =>
      { l with cpuReq := addTo p.Namespace (float64Div (float64 q.MilliValue) 1000) l.cpuReq }
    | none => l
  let l2 := match List.lookup ResourceMemory c.Requests with
    | some q => { l1 with memReq := addTo p.Namespace (float64 q.Value) l1.memReq }
    | none => l1
  let l3 := match List.lookup ResourceCPU c.Limits with
    | some q =>
      { l2 with cpuLim := addTo p.Namespace (float64Div (float64 q.MilliValue) 1000) l2.cpuLim }
    | none => l2
  match List.lookup ResourceMemory c.Limits with
  | some q => { l3 with memLim := addTo p.Namespace (float64 q.Value) l3.memLim }
  | none => l3

/-- The body of the loop over `pods.Items`. -/
def podStep (l : PodLoop) (p : Pod) : PodLoop :=
  let phase := p.Phase
  let l1 := { l with podPhases := mapModify phase (fun x => x + 1) 0 l.podPhases }
  let l2 := { l1 with m := { l1.m with PodStatus := l1.m.PodStatus.Inc [p.Namespace, phase] } }
  let l3 := { l2 with m := p.ContainerStatuses.foldl (containerStatusStep p) l2.m }
  p.Containers.foldl (containerStep p) l3

/-- A loop `for ns, v := range acc { g.WithLabelValues(ns).Set(v) }`. -/
def setAll (acc : List (String × ℚ)) (g : GaugeVec) : GaugeVec :=
  acc.foldl (fun g kv => g.Set [kv.1] kv.2) g

/-- Lines 71 to 116: what the handler does with a successful pod listing; the result
carries the local map `podPhases` with the gauges. -/
def podsUpdate (pods : List Pod) (m : PrometheusMetrics) : PodLoop :=
  let m1 := { m with PodCount := (pods.length : ℚ) }
  let m2 := { m1 with PodStatus := m1.PodStatus.Reset }
  let m3 := { m2 with ContainerRestarts := m2.ContainerRestarts.Reset }
  let l := pods.foldl podStep ⟨m3, [], [], [], [], []⟩
  let m4 := { l.m with CPURequests := l.m.CPURequests.Reset }
  let m5 := { m4 with MemoryRequests := m4.MemoryRequests.Reset }
  let m6 := { m5 with CPULimits := m5.CPULimits.Reset }
  let m7 := { m6 with MemoryLimits := m6.MemoryLimits.Reset }
  let m8 := { m7 with CPURequests := setAll l.cpuReq m7.CPURequests }
  let m9 := { m8 with MemoryRequests := setAll l.memReq m8.MemoryRequests }
  let m10 := { m9 with CPULimits := setAll l.cpuLim m9.CPULimits }
  let m11 := { m10 with MemoryLimits := setAll l.memLim m10.MemoryLimits }
  { l with m := m11 }

/-- Line 123: what the handler does with a successful namespace listing. -/
def namespacesUpdate (namespaces : List Namespace) (m : PrometheusMetrics) :
    PrometheusMetrics :=
  { m with NamespaceCount := (namespaces.length : ℚ) }

/-- The loop over `deployments.Items`: `*d.Spec.Replicas` panics on a nil pointer, which
ends the loop and the handler; the flag of the result tells whether that happened. Go
evaluates the receiver `h.m.DeploymentDesired.WithLabelValues(d.Namespace, d.Name)` before
the argument of `Set`, so the series exists, with the value zero if it is new, when the
dereference panics. -/
def deploymentsLoop : List Deployment → PrometheusMetrics → PrometheusMetrics × Bool
  | [], m => (m, false)
  | d :: ds, m =>
    match d.Replicas with
    | none =>
      ({ m with DeploymentDesired :=
          m.DeploymentDesired.WithLabelValues [d.Namespace, d.Name] }, true)
    | some replicas =>
      let m1 := { m with DeploymentDesired :=
        m.DeploymentDesired.Set [d.Namespace, d.Name] (replicas : ℚ) }
      let m2 := { m1 with DeploymentAvailable :=
        m1.DeploymentAvailable.Set [d.Namespace, d.Name] (d.AvailableReplicas : ℚ) }
      deploymentsLoop ds m2

/-- Lines 130 to 136: what the handler does with a successful deployment listing. -/
def deploymentsUpdate (deployments : List Deployment) (m : PrometheusMetrics) :
    PrometheusMetrics × Bool :=
  let m1 := { m with DeploymentCount := (deployments.length : ℚ) }
  let m2 := { m1 with DeploymentDesired := m1.DeploymentDesired.Reset }
  let m3 := { m2 with DeploymentAvailable := m2.DeploymentAvailable.Reset }
  deploymentsLoop deployments m3

/-- Line 143: what the handler does with a successful service listing. -/
def servicesUpdate (services : List Service) (m : PrometheusMetrics) : PrometheusMetrics :=
  { m with ServiceCount := (services.length : ℚ) }

/-- A `List` call on the clientset: the call is counted on the Cluster Reader. -/
def issue (k : Kind) (s : World) : World := { s with calls := s.calls ++ [k] }

/-- The method `Handler.MetricsJSONHandler` collects the metrics and answers with them. -/
def Handler.MetricsJSONHandler : HandlerFunc World := fun w _r s =>
  let s := issue Kind.nodes s
  match s.cluster.nodes with
  | .error err => ⟨httpError w err 500, s, false⟩
  | .ok nodes =>
    let s := { s with m := nodesUpdate nodes s.m }
    let s := issue Kind.pods s
    match s.cluster.pods with
    | .error err => ⟨httpError w err 500, s, false⟩
    | .ok pods =>
      let l := podsUpdate pods s.m
      let s := { s with m := l.m }
      let s := issue Kind.namespaces s
      match s.cluster.namespaces with
      | .error err => ⟨httpError w err 500, s, false⟩
      | .ok namespaces =>
        let s := { s with m := namespacesUpdate namespaces s.m }
        let s := issue Kind.deployments s
        match s.cluster.deployments with
        | .error err => ⟨httpError w err 500, s, false⟩
        | .ok deployments =>
          match deploymentsUpdate deployments s.m with
          | (m, true) => ⟨w, { s with m := m }, true⟩
          | (m, false) =>
            let s := { s with m := m }
            let s := issue Kind.services s
            match s.cluster.services with
            | .error err => ⟨httpError w err 500, s, false⟩
            | .ok services =>
              let s := { s with m := servicesUpdate services s.m }
              let resp : ClusterMetrics :=
                { NodeCount := nodes.length, PodCount := pods.length,
                  DeploymentCount := deployments.length, ServiceCount := services.length,
                  NamespaceCount := namespaces.length, PodPhases := l.podPhases,
                  Timestamp := s.now }
              let w1 := w.SetHeader "Content-Type" "application/json"
              ⟨w1.Write (Chunk.jsonMetrics resp), s, false⟩

/-! ## `cmd/main.go` -/

/-- The logger of `config.New`: a JSON handler that writes to the standard output. -/
def stdoutLogger : Logger World :=
  ⟨fun rec s => { s with stdout := s.stdout ++ [rec] }⟩

/-- The route `/metrics` of `main`: `authMw(h.MetricsJSONHandler)`. -/
def metricsRoute (expectedAuthToken : String) : HandlerFunc World :=
  AuthMiddleware expectedAuthToken stdoutLogger Handler.MetricsJSONHandler

/-- The method `Logger.Info`. -/
def Logger.Info {σ : Type} (l : Logger σ) (msg : String) (attrs : List (String × String))
    (s : σ) : σ :=
  l.write ⟨"INFO", msg, attrs⟩ s

/-! ## `internal/metrics/prometheus.go` -/

/-- A collector made by `prometheus.NewGauge` or `prometheus.NewGaugeVec`: the identity of
the Go object and its descriptor (name, help, label names; no constant labels, as for
every collector of this repository). -/
structure Collector where
  ptr : Nat
  fqName : String
  help : String
  labelNames : List String
  deriving DecidableEq

/-- The two errors of `Register`: the same descriptor is already registered, or a
descriptor of the same name with other label names or another help string is. -/
inductive RegisterError where
  | alreadyRegistered
  | inconsistent
  deriving DecidableEq

/-- The process-wide registry `prometheus.DefaultRegisterer`, observed as the collectors it
holds and the next free object identity of the process. -/
structure MetricsWorld where
  registry : List Collector
  nextPtr : Nat
  stdout : List LogRecord

/-- The function `prometheus.Register`: a collector whose name is already registered is
refused and the registry is left as it is; otherwise the collector is added. -/
def Register (c : Collector) (registry : List Collector) :
    Except RegisterError (List Collector) :=
  if registry.any (fun c2 => c2.fqName = c.fqName ∧ c2.help = c.help
      ∧ c2.labelNames = c.labelNames) then .error .alreadyRegistered
  else if registry.any (fun c2 => c2.fqName = c.fqName) then .error .inconsistent
  else .ok (registry ++ [c])

/-- The struct `metrics.PrometheusMetrics` as the pointers it holds; `none` is `nil`. -/
structure PrometheusMetricsPtrs where
  NodeCount : Option Collector
  PodCount : Option Collector
  DeploymentCount : Option Collector
  ServiceCount : Option Collector
  NamespaceCount : Option Collector
  NodeReady : Option Collector
  PodStatus : Option Collector
  DeploymentDesired : Option Collector
  DeploymentAvailable : Option Collector
  ContainerRestarts : Option Collector
  CPUAllocatable : Option Collector
  MemoryAllocatable : Option Collector
  CPURequests : Option Collector
  MemoryRequests : Option Collector
  CPULimits : Option Collector
  MemoryLimits : Option Collector
  deriving DecidableEq

/-- The body of the loop `for _, c := range collectors { _ = prometheus.Register(c) }`:
the error of `Register` is discarded. -/
def registerIgnoringError (s : MetricsWorld) (c : Collector) : MetricsWorld :=
  match Register c s.registry with
  | .ok registry => { s with registry := registry }
  | .error _ => s

/-- The function `NewPrometheusMetrics` creates the sixteen collectors and registers them. -/
def NewPrometheusMetrics (logger : Logger MetricsWorld) (s : MetricsWorld) :
    PrometheusMetricsPtrs × MetricsWorld :=
  let p := s.nextPtr
  let c0 : Collector := ⟨p + 0, "k8s_nodes_total", "Total de nós", []⟩
  let c1 : Collector := ⟨p + 1, "k8s_pods_total", "Total de pods", []⟩
  let c2 : Collector := ⟨p + 2, "k8s_deployments_total", "Total de deployments", []⟩
  let c3 : Collector := ⟨p + 3, "k8s_services_total", "Total de services", []⟩
  let c4 : Collector := ⟨p + 4, "k8s_namespaces_total", "Total de namespaces", []⟩
  let c5 : Collector := ⟨p + 5, "k8s_node_status_ready", "1 se Ready", ["node"]⟩
  let c6 : Collector := ⟨p + 6, "k8s_pod_status_phase", "Status por fase", ["namespace", "phase"]⟩
  let c7 : Collector := ⟨p + 7, "k8s_deployment_replicas_desired", "Replicas desejadas", ["namespace", "deployment"]⟩
  let c8 : Collector := ⟨p + 8, "k8s_deployment_replicas_available", "Replicas disponíveis", ["namespace", "deployment"]⟩
  let c9 : Collector := ⟨p + 9, "k8s_container_restarts_total", "Restart count", ["namespace", "pod", "container"]⟩
  let c10 : Collector := ⟨p + 10, "k8s_node_cpu_allocatable_cores", "CPU allocatable", ["node"]⟩
  let c11 : Collector := ⟨p + 11, "k8s_node_memory_allocatable_bytes", "Memória allocatable", ["node"]⟩
  let c12 : Collector := ⟨p + 12, "k8s_namespace_cpu_requests_cores", "Soma CPU requests", ["namespace"]⟩
  let c13 : Collector := ⟨p + 13, "k8s_namespace_memory_requests_bytes", "Soma memória requests", ["namespace"]⟩
  let c14 : Collector := ⟨p + 14, "k8s_namespace_cpu_limits_cores", "Soma CPU limits", ["namespace"]⟩
  let c15 : Collector := ⟨p + 15, "k8s_namespace_memory_limits_bytes", "Soma memória limits", ["namespace"]⟩
  let m : PrometheusMetricsPtrs :=
    { NodeCount := some c0,
      PodCount := some c1,
      DeploymentCount := some c2,
      ServiceCount := some c3,
      NamespaceCount := some c4,
      NodeReady := some c5,
      PodStatus := some c6,
      DeploymentDesired := some c7,
      DeploymentAvailable := some c8,
      ContainerRestarts := some c9,
      CPUAllocatable := some c10,
      MemoryAllocatable := some c11,
      CPURequests := some c12,
      MemoryRequests := some c13,
      CPULimits := some c14,
      MemoryLimits := some c15 }
  let collectors := [c0, c1, c2, c3, c4, c5, c6, c7, c8, c9, c10, c11, c12, c13, c14, c15]
  let s1 := { s with nextPtr := p + 16 }
  let s2 := collectors.foldl registerIgnoringError s1
  (m, logger.Info "Métricas Prometheus registradas" [] s2)

/-- The sixteen metric names of `NewPrometheusMetrics`. -/
def metricNames : List String :=
  ["k8s_nodes_total",
    "k8s_pods_total",
    "k8s_deployments_total",
    "k8s_services_total",
    "k8s_namespaces_total",
    "k8s_node_status_ready",
    "k8s_pod_status_phase",
    "k8s_deployment_replicas_desired",
    "k8s_deployment_replicas_available",
    "k8s_container_restarts_total",
    "k8s_node_cpu_allocatable_cores",
    "k8s_node_memory_allocatable_bytes",
    "k8s_namespace_cpu_requests_cores",
    "k8s_namespace_memory_requests_bytes",
    "k8s_namespace_cpu_limits_cores",
    "k8s_namespace_memory_limits_bytes"]

/-- The logger of the tests: a JSON handler that writes to the standard output. -/
def stdoutLoggerM : Logger MetricsWorld :=
  ⟨fun rec s => { s with stdout := s.stdout ++ [rec] }⟩

/-- A fresh process: nothing registered. -/
def freshMetricsWorld : MetricsWorld := ⟨[], 0, []⟩

/-! ## `internal/middleware/logging.go` -/

/-- A call that a handler makes on the `http.ResponseWriter` it was given:
`w.Header().Set(key, value)`, `w.WriteHeader(code)` or `w.Write(...)`. -/
inductive WriterCall where
  | setHeader (key value : String)
  | writeHeader (code : Nat)
  | write (c : Chunk)
  deriving DecidableEq

/-- What an `http.Handler` does with a request in a world: the calls it makes on its
writer, in order, the world it leaves, and whether it panicked. -/
structure Served (σ : Type) where
  calls : List WriterCall
  s : σ
  panicked : Bool

/-- An `http.Handler`, given by the calls it makes on whatever writer it receives. -/
abbrev HTTPHandler (σ : Type) := Request → σ → Served σ

/-- A call made directly on a response writer. -/
def ResponseWriter.call (w : ResponseWriter) : WriterCall → ResponseWriter
  | .setHeader key value => w.SetHeader key value
  | .writeHeader code => w.WriteHeader code
  | .write c => w.Write c

/-- The struct `respWriter`: the embedded writer and the recorded status. -/
structure respWriter where
  ResponseWriter : ResponseWriter
  status : Nat
  deriving DecidableEq

/-- The method `respWriter.WriteHeader`: it records the code, then passes it on. -/
def respWriter.WriteHeader (r : respWriter) (code : Nat) : respWriter :=
  { status := code, ResponseWriter := r.ResponseWriter.WriteHeader code }

/-- A call made on a `respWriter`: `WriteHeader` is its own method, `Header` and `Write`
are the promoted methods of the embedded writer. -/
def respWriter.call (r : respWriter) : WriterCall → respWriter
  | .setHeader key value => { r with ResponseWriter := r.ResponseWriter.SetHeader key value }
  | .writeHeader code => r.WriteHeader code
  | .write c => { r with ResponseWriter := r.ResponseWriter.Write c }

/-- The function `LoggingMiddleware` logs the requests; `now` reads the clock of the
world for `time.Now` and `time.Since`. A panic of the handler skips the log line. -/
def LoggingMiddleware {σ : Type} (logger : Logger σ) (now : σ → Int) (next : HTTPHandler σ) :
    HandlerFunc σ :=
  fun w r s =>
    let start := now s
    let rw : respWriter := { ResponseWriter := w, status := 200 }
    let served := next r s
    let rw1 := served.calls.foldl respWriter.call rw
    if served.panicked then ⟨rw1.ResponseWriter, served.s, true⟩
    else
      let s1 := logger.Info "http"
        [("method", r.Method), ("path", r.Path), ("status", toString rw1.status),
          ("dur", toString (now served.s - start))] served.s
      ⟨rw1.ResponseWriter, s1, false⟩

/-! ## `main.go`, the legacy entry point -/

/-- The method `Logger.Debug`. -/
def Logger.Debug {σ : Type} (l : Logger σ) (msg : String) (attrs : List (String × String))
    (s : σ) : σ :=
  l.write ⟨"DEBUG", msg, attrs⟩ s

/-- The legacy function `authMiddleware` of `main.go`. The globals `expectedAuthToken` and
`logger` are parameters; the attribute `remoteAddr` of the log records is left out. -/
def authMiddleware {σ : Type} (expectedAuthToken : String) (logger : Logger σ)
    (next : HandlerFunc σ) : HandlerFunc σ :=
  fun w r s =>
    let token := r.Header.Get "Authorization"
    if token = "" then
      let s1 := logger.Warn "Tentativa de acesso não autorizado: token não fornecido."
        [("path", r.Path)] s
      ⟨httpError w "Acesso não autorizado: token não fornecido" 401, s1, false⟩
    else
      let parts := stringsSplitSpace token
      if parts.length != 2 || stringsToLower (parts.getD 0 "") != "bearer" then
        let s1 := logger.Warn "Tentativa de acesso não autorizado: formato de token inválido."
          [("path", r.Path)] s
        ⟨httpError w "Acesso não autorizado: formato de token inválido" 401, s1, false⟩
      else
        let actualToken := parts.getD 1 ""
        if actualToken != expectedAuthToken then
          let s1 := logger.Warn "Tentativa de acesso não autorizado: token inválido."
            [("path", r.Path)] s
          ⟨httpError w "Acesso não autorizado: token inválido" 401, s1, false⟩
        else
          let s1 := logger.Debug "Acesso autorizado." [("path", r.Path)] s
          next w r s1

/-! ## `internal/config/config.go` -/

/-- The function `unicode.IsSpace`: the white space characters of Unicode. -/
def unicodeIsSpace (c : Char) : Bool :=
  c.toNat = 0x09 || c.toNat = 0x0A || c.toNat = 0x0B || c.toNat = 0x0C || c.toNat = 0x0D
    || c.toNat = 0x20 || c.toNat = 0x85 || c.toNat = 0xA0 || c.toNat = 0x1680
    || (0x2000 ≤ c.toNat && c.toNat ≤ 0x200A) || c.toNat = 0x2028 || c.toNat = 0x2029
    || c.toNat = 0x202F || c.toNat = 0x205F || c.toNat = 0x3000

/-- The function `strings.TrimSpace`: the text without its leading and trailing white
space. -/
def stringsTrimSpace (s : String) : String :=
  String.mk ((s.data.dropWhile unicodeIsSpace).reverse.dropWhile unicodeIsSpace).reverse

/-- The environment of the process: the variables that are set, with their values. -/
abbrev Env := List (String × String)

/-- The function `os.Getenv`: the value of the variable, or the empty string. -/
def Getenv (env : Env) (key : String) : String := (List.lookup key env).getD ""

/-- The struct `Config`; its logger is always the JSON logger on the standard output and
is not represented. -/
structure Config where
  Port : String
  ExpectedAuthToken : String
  deriving DecidableEq

/-- The struct `ConfigError`. -/
structure ConfigError where
  Msg : String
  deriving DecidableEq

/-- The variable `ErrMissingAuthToken`. -/
def ErrMissingAuthToken : ConfigError := ⟨"EXPECTED_AUTH_TOKEN não definido"⟩

/-- The function `config.New` loads the configuration from the environment. -/
def configNew (env : Env) : Except ConfigError Config :=
  let port := Getenv env "PORT"
  let port := if port = "" then "8080" else port
  let expectedToken := stringsTrimSpace (Getenv env "EXPECTED_AUTH_TOKEN")
  if expectedToken = "" then .error ErrMissingAuthToken
  else .ok { Port := port, ExpectedAuthToken := expectedToken }

/-! ## The functions of package `time` behind `Format(time.RFC3339)` and `time.Parse` -/

/-- The function `isLeap` of package `time`. -/
def isLeap (year : Nat) : Bool := year % 4 == 0 && (year % 100 != 0 || year % 400 == 0)

/-- The table `daysBefore`: the days of a non-leap year before each month starts. -/
def daysBefore : List Nat := [0, 31, 59, 90, 120, 151, 181, 212, 243, 273, 304, 334, 365]

/-- The function `daysIn` of package `time`; `m` is 1 for January. -/
def daysIn (m year : Nat) : Nat :=
  if m = 2 ∧ isLeap year then 29 else daysBefore.getD m 0 - daysBefore.getD (m - 1) 0

/-- The first half of `absDate`: the year and the day within the year (from 0) of the
day number `d`, counted here from 1 January of year 1, by cycles of 400, 100, 4 and 1
years; `n - n / 4` is the `n -= n >> 2` of the source. -/
def absYearDay (d : Nat) : Nat × Nat :=
  let n400 := d / 146097
  let d1 := d - 146097 * n400
  let n := d1 / 36524
  let n100 := n - n / 4
  let d2 := d1 - 36524 * n100
  let n4 := d2 / 1461
  let d3 := d2 - 1461 * n4
  let k := d3 / 365
  let n1 := k - k / 4
  (400 * n400 + 100 * n100 + 4 * n4 + n1 + 1, d3 - 365 * n1)

/-- The second half of `absDate`: month (1 for January) and day of the month from the
day within the year; the month is first estimated as if every month had 31 days. -/
def monthDay (year yday : Nat) : Nat × Nat :=
  if isLeap year ∧ yday = 59 then (2, 29)
  else
    let day := if isLeap year ∧ yday > 59 then yday - 1 else yday
    let month := day / 31
    let end_ := daysBefore.getD (month + 1) 0
    if day ≥ end_ then (month + 2, day - end_ + 1)
    else (month + 1, day - daysBefore.getD month 0 + 1)

/-- The decimal digit of the units of `n`, as a character. -/
def digit (n : Nat) : Char := Char.ofNat (48 + n % 10)

/-- The function `appendInt` of package `time` for a value that is not negative: `x` in
decimal, padded with zeros to `width` digits; the fields of two and of four digits are
written directly, as in the source. -/
def appendInt (x width : Nat) : List Char :=
  if width = 2 ∧ x < 100 then [digit (x / 10), digit x]
  else if width = 4 ∧ x < 10000 then [digit (x / 1000), digit (x / 100), digit (x / 10), digit x]
  else List.replicate (width - (Nat.toDigits 10 x).length) '0' ++ Nat.toDigits 10 x

/-- The text of `t.UTC().Format(time.RFC3339)` for the instant `unixNano` nanoseconds
after 1 January 1970 UTC, for instants from year 1 on: the date of `absDate`, the letter
`T`, the clock of `absClock`, and `Z` for the offset zero. -/
def formatRFC3339 (unixNano : Int) : String :=
  let abs := (unixNano / 1000000000 + 62135596800).toNat
  let yd := absYearDay (abs / 86400)
  let md := monthDay yd.1 yd.2
  let sec := abs % 86400
  String.mk (appendInt yd.1 4 ++ '-' :: appendInt md.1 2 ++ '-' :: appendInt md.2 2
    ++ 'T' :: appendInt (sec / 3600) 2 ++ ':' :: appendInt (sec % 3600 / 60) 2
    ++ ':' :: appendInt (sec % 60) 2 ++ ['Z'])

/-- The helper `parseUint` inside `parseRFC3339`: the characters are decimal digits and
their value lies between `min` and `max`. -/
def parseUint (cs : List Char) (min max : Nat) : Option Nat :=
  if cs.all (fun c => '0' ≤ c ∧ c ≤ '9') then
    let x := cs.foldl (fun x c => x * 10 + (c.toNat - 48)) 0
    if min ≤ x ∧ x ≤ max then some x else none
  else none

/-- The fields of date and time that `parseRFC3339` reads at fixed positions. -/
def parseDateTime (cs : List Char) : Option Unit := do
  let year ← parseUint (cs.take 4) 0 9999
  let month ← parseUint ((cs.drop 5).take 2) 1 12
  let _ ← parseUint ((cs.drop 8).take 2) 1 (daysIn month year)
  let _ ← parseUint ((cs.drop 11).take 2) 0 23
  let _ ← parseUint ((cs.drop 14).take 2) 0 59
  let _ ← parseUint ((cs.drop 17).take 2) 0 59
  pure ()

/-- What `parseRFC3339` skips after the seconds: a point followed by digits. -/
def skipFraction : List Char → List Char
  | '.' :: c :: rest =>
      if '0' ≤ c ∧ c ≤ '9' then rest.dropWhile (fun c => '0' ≤ c ∧ c ≤ '9')
      else '.' :: c :: rest
  | cs => cs

/-- The time zone that `parseRFC3339` accepts: `Z`, or a sign, hours and minutes. -/
def parseZone (cs : List Char) : Bool :=
  if cs = ['Z'] then true
  else if cs.length ≠ 6 then false
  else
    (parseUint ((cs.drop 1).take 2) 0 23).isSome && (parseUint ((cs.drop 4).take 2) 0 59).isSome
      && (cs.getD 0 ' ' = '-' || cs.getD 0 ' ' = '+') && cs.getD 3 ' ' = ':'

/-- Whether `parseRFC3339`, the path that `time.Parse` takes first for the layout
`time.RFC3339`, accepts the text; `time.Parse` then returns no error. A text that is
accepted holds ASCII characters only, so that bytes and characters coincide. -/
def parseRFC3339 (s : String) : Bool :=
  let cs := s.data
  if cs.length < 19 then false
  else if (parseDateTime cs).isNone then false
  else if ¬ (cs.getD 4 ' ' = '-' ∧ cs.getD 7 ' ' = '-' ∧ cs.getD 10 ' ' = 'T'
      ∧ cs.getD 13 ' ' = ':' ∧ cs.getD 16 ' ' = ':') then false
  else parseZone (skipFraction (cs.drop 19))

/-! ## `internal/handlers/handlers.go`: the health check -/

/-- The method `HealthCheckHandler`: it sets the content type and encodes a map of two
entries, the second being the clock reading in UTC formatted as RFC 3339; the error of
`Encode` is discarded. It reads neither the request nor the cluster. -/
def Handler.HealthCheckHandler : HandlerFunc World := fun w _ s =>
  let w1 := w.SetHeader "Content-Type" "application/json"
  ⟨w1.Write (Chunk.jsonMap [("status", "ok"), ("ts", formatRFC3339 s.now)]), s, false⟩

/-! ## Derived definitions used by the statements -/

/-- The gauges after a poll whose five listings succeed and whose deployment loop
completes. -/
def gaugesAfter (nodes : List Node) (pods : List Pod) (namespaces : List Namespace)
    (deployments : List Deployment) (services : List Service) (m : PrometheusMetrics) :
    PrometheusMetrics :=
  servicesUpdate services
    (deploymentsUpdate deployments
      (namespacesUpdate namespaces (podsUpdate pods (nodesUpdate nodes m)).m)).1

/-- The snapshot that a poll whose five listings succeed encodes. -/
def snapshotOf (nodes : List Node) (pods : List Pod) (namespaces : List Namespace)
    (deployments : List Deployment) (services : List Service) (m : PrometheusMetrics)
    (now : Int) : ClusterMetrics :=
  { NodeCount := nodes.length, PodCount := pods.length,
    DeploymentCount := deployments.length, ServiceCount := services.length,
    NamespaceCount := namespaces.length,
    PodPhases := (podsUpdate pods (nodesUpdate nodes m)).podPhases,
    Timestamp := now }

/-- The gauges derived from the node listing. -/
def nodeGauges (m : PrometheusMetrics) : ℚ × GaugeVec × GaugeVec × GaugeVec :=
  (m.NodeCount, m.NodeReady, m.CPUAllocatable, m.MemoryAllocatable)

/-- The gauges derived from the pod listing. -/
def podGauges (m : PrometheusMetrics) :
    ℚ × GaugeVec × GaugeVec × GaugeVec × GaugeVec × GaugeVec × GaugeVec :=
  (m.PodCount, m.PodStatus, m.ContainerRestarts, m.CPURequests, m.MemoryRequests,
    m.CPULimits, m.MemoryLimits)

/-- The gauge derived from the namespace listing. -/
def namespaceGauges (m : PrometheusMetrics) : ℚ := m.NamespaceCount

/-- The gauges derived from the deployment listing. -/
def deploymentGauges (m : PrometheusMetrics) : ℚ × GaugeVec × GaugeVec :=
  (m.DeploymentCount, m.DeploymentDesired, m.DeploymentAvailable)

/-- The gauge derived from the service listing. -/
def serviceGauges (m : PrometheusMetrics) : ℚ := m.ServiceCount

/-- A handler that records the request of each invocation before it runs `next`. -/
def traced {σ : Type} (next : HandlerFunc σ) : HandlerFunc (σ × List Request) :=
  fun w r s =>
    let res := next w r s.1
    ⟨res.w, (res.s, s.2 ++ [r]), res.panicked⟩

/-- The logger `l` in a world that also holds the record of invocations. -/
def Logger.withTrace {σ : Type} (l : Logger σ) : Logger (σ × List Request) :=
  ⟨fun rec s => (l.write rec s.1, s.2)⟩

/-- The position of a kind in the order nodes, pods, namespaces, deployments, services. -/
def Kind.index : Kind → Nat
  | .nodes => 0
  | .pods => 1
  | .namespaces => 2
  | .deployments => 3
  | .services => 4

/-- The kinds from the first one up to and including `k`, in that order. -/
def Kind.upTo : Kind → List Kind
  | .nodes => [.nodes]
  | .pods => [.nodes, .pods]
  | .namespaces => [.nodes, .pods, .namespaces]
  | .deployments => [.nodes, .pods, .namespaces, .deployments]
  | .services => [.nodes, .pods, .namespaces, .deployments, .services]

/-- Whether the five listings of the cluster succeed. -/
def Cluster.allSucceed (c : Cluster) : Bool :=
  c.nodes.toBool && c.pods.toBool && c.namespaces.toBool && c.deployments.toBool
    && c.services.toBool

/-- The first listing that fails in the order nodes, pods, namespaces, deployments,
services, with the text of its error. -/
def Cluster.firstFailure (c : Cluster) : Option (Kind × String) :=
  match c.nodes, c.pods, c.namespaces, c.deployments, c.services with
  | .error e, _, _, _, _ => some (.nodes, e)
  | .ok _, .error e, _, _, _ => some (.pods, e)
  | .ok _, .ok _, .error e, _, _ => some (.namespaces, e)
  | .ok _, .ok _, .ok _, .error e, _ => some (.deployments, e)
  | .ok _, .ok _, .ok _, .ok _, .error e => some (.services, e)
  | .ok _, .ok _, .ok _, .ok _, .ok _ => none

/-- Every deployment that the cluster lists has its desired-replica field set. -/
def Cluster.replicasSet (c : Cluster) : Prop :=
  ∀ ds, c.deployments = .ok ds → ∀ d ∈ ds, d.Replicas ≠ none

/-- The cluster `c` with the listing of kind `k` failing with the error text `e`. -/
def Cluster.failAt (c : Cluster) (k : Kind) (e : String) : Cluster :=
  match k with
  | .nodes => { c with nodes := .error e }
  | .pods => { c with pods := .error e }
  | .namespaces => { c with namespaces := .error e }
  | .deployments => { c with deployments := .error e }
  | .services => { c with services := .error e }

/-- The gauges derived from the listing of kind `k` have the same values in `m` and `m2`. -/
def sameGauges (k : Kind) (m m2 : PrometheusMetrics) : Prop :=
  match k with
  | .nodes => nodeGauges m = nodeGauges m2
  | .pods => podGauges m = podGauges m2
  | .namespaces => namespaceGauges m = namespaceGauges m2
  | .deployments => deploymentGauges m = deploymentGauges m2
  | .services => serviceGauges m = serviceGauges m2

/-- The clusters `c` and `c2` answer the listings before the one of kind `k` alike. -/
def agreeBefore (k : Kind) (c c2 : Cluster) : Prop :=
  (Kind.nodes.index < k.index → c2.nodes = c.nodes)
  ∧ (Kind.pods.index < k.index → c2.pods = c.pods)
  ∧ (Kind.namespaces.index < k.index → c2.namespaces = c.namespaces)
  ∧ (Kind.deployments.index < k.index → c2.deployments = c.deployments)

/-! ## Example data: the cluster of `TestMetricsJSONHandler`, with one deployment -/

/-- The node `node1`, ready. -/
def exNode : Node :=
  ⟨"node1", [⟨"MemoryPressure", "False"⟩, ⟨"Ready", "True"⟩],
    [("cpu", ⟨2000, 2⟩), ("memory", ⟨4294967296000, 4294967296⟩)]⟩

/-- The pod `pod1` of namespace `default`, running, with one container. -/
def exPod : Pod :=
  ⟨"default", "pod1", "Running", [⟨"container1", [("cpu", ⟨500, 1⟩)], []⟩],
    [⟨"container1", 3⟩]⟩

/-- A deployment whose replica field is set. -/
def exDeployment : Deployment := ⟨"default", "web", some 3, 2⟩

/-- A cluster whose five listings succeed. -/
def exCluster : Cluster :=
  ⟨.ok [exNode], .ok [exPod], .ok [⟨"default"⟩], .ok [exDeployment], .ok [⟨"default", "svc1"⟩]⟩

/-- A gauge set in which every gauge is zero and every family is empty. -/
def emptyGauges : PrometheusMetrics := ⟨0, 0, 0, 0, 0, [], [], [], [], [], [], [], [], [], [], []⟩

/-- A world with the example cluster and empty gauges. -/
def exWorld : World := ⟨exCluster, emptyGauges, [], 0, []⟩

/-- The example world with the listing of kind `k` failing with the error text `e`. -/
def exWorldFailing (k : Kind) (e : String) : World :=
  ⟨exCluster.failAt k e, emptyGauges, [], 0, []⟩

/-- The world of a poll that follows the poll of the example world, on the cluster `c`. -/
def exWorldNext (c : Cluster) : World :=
  { (Handler.MetricsJSONHandler NewRecorder ⟨"GET", "/metrics", []⟩ exWorld).s with
    cluster := c }

/-- The example cluster after its node was deleted. -/
def exClusterNoNode : Cluster := { exCluster with nodes := .ok [] }

/-- The example cluster after its pod exited. -/
def exClusterNoPod : Cluster := { exCluster with pods := .ok [] }

/-- A request to `/metrics` without any header. -/
def exRequest : Request := ⟨"GET", "/metrics", []⟩

/-- A request to `/metrics` that carries the given `Authorization` header. -/
def exRequestWith (auth : String) : Request := ⟨"GET", "/metrics", [("Authorization", [auth])]⟩

/-- The handler of `TestAuthMiddleware`: status 200 and the body `OK`. -/
def exHandler : HandlerFunc World :=
  fun w _r s => ⟨(w.WriteHeader 200).Write (Chunk.text "OK"), s, false⟩

/-! ## Example data for the later claims -/

/-- The world of a poll that follows the poll of the example world, on the same cluster,
when the clock reads `now`. -/
def exWorldAgainAt (now : Int) : World :=
  { (Handler.MetricsJSONHandler NewRecorder ⟨"GET", "/metrics", []⟩ exWorld).s with now := now }

/-- The node of the end-to-end scenario: ready, 2 cores and 4Gi allocatable. -/
def e2eNode : Node :=
  ⟨"node1", [⟨"Ready", "True"⟩], [("cpu", ⟨2000, 2⟩), ("memory", ⟨4294967296000, 4294967296⟩)]⟩

/-- The pod of the end-to-end scenario: namespace `default`, running, one container that
requests 500 milli-units of CPU and 512Mi of memory. -/
def e2ePod : Pod :=
  ⟨"default", "pod1", "Running",
    [⟨"container1", [("cpu", ⟨500, 1⟩), ("memory", ⟨536870912000, 536870912⟩)], []⟩], []⟩

/-- The cluster of the end-to-end scenario: one node, one pod, one service, one
namespace, no deployment. -/
def e2eCluster : Cluster :=
  ⟨.ok [e2eNode], .ok [e2ePod], .ok [⟨"default"⟩], .ok [], .ok [⟨"default", "svc1"⟩]⟩

/-- The empty cluster: the five listings succeed and are empty. -/
def emptyCluster : Cluster := ⟨.ok [], .ok [], .ok [], .ok [], .ok []⟩

/-- A deployment whose replica field is unset. -/
def exDeploymentNil : Deployment := ⟨"default", "broken", none, 0⟩

/-- The example world with a second deployment, whose replica field is unset. -/
def exWorldNilReplicas : World :=
  ⟨{ exCluster with deployments := .ok [exDeployment, exDeploymentNil] }, emptyGauges, [], 0, []⟩

/-! ## The namespace totals -/

/-- The CPU request that the container declares, in cores, as the `float64` of lines 87
to 89. -/
def cpuRequestOf (c : Container) : Option ℚ :=
  (List.lookup ResourceCPU c.Requests).map (fun q => float64Div (float64 q.MilliValue) 1000)

/-- The memory request that the container declares, in bytes, as the `float64` of lines
90 to 92. -/
def memRequestOf (c : Container) : Option ℚ :=
  (List.lookup ResourceMemory c.Requests).map (fun q => float64 q.Value)

/-- The CPU limit that the container declares, in cores, as the `float64` of lines 93 to
95. -/
def cpuLimitOf (c : Container) : Option ℚ :=
  (List.lookup ResourceCPU c.Limits).map (fun q => float64Div (float64 q.MilliValue) 1000)

/-- The memory limit that the container declares, in bytes, as the `float64` of lines 96
to 98. -/
def memLimitOf (c : Container) : Option ℚ :=
  (List.lookup ResourceMemory c.Limits).map (fun q => float64 q.Value)

/-- One `if q, ok := ...; ok { acc[ns] += ... }` of the container loop. -/
def accStep (quantity : Container → Option ℚ) (ns : String) (acc : List (String × ℚ))
    (c : Container) : List (String × ℚ) :=
  match quantity c with
  | some v => addTo ns v acc
  | none => acc

/-- The local map of one quantity after the loop over the pods and their containers. -/
def accPods (quantity : Container → Option ℚ) (pods : List Pod) (acc : List (String × ℚ)) :
    List (String × ℚ) :=
  pods.foldl (fun acc p => p.Containers.foldl (accStep quantity p.Namespace) acc) acc

/-- The values of a quantity that the containers of the pods of the namespace `ns`
declare, in the order of the listing; a container that does not declare it adds none. -/
def contributions (quantity : Container → Option ℚ) (ns : String) : List Pod → List ℚ
  | [] => []
  | p :: ps =>
    (if p.Namespace = ns then p.Containers.filterMap quantity else [])
      ++ contributions quantity ns ps

/-- The sum of a quantity over all containers of all pods of the namespace `ns`, taken in
`float64` in the order of the listing: every partial sum is rounded. -/
def namespaceTotal (quantity : Container → Option ℚ) (ns : String) (pods : List Pod) : ℚ :=
  (contributions quantity ns pods).foldl float64Add 0

/-- The same sum taken without any rounding. -/
def exactTotal (quantity : Container → Option ℚ) (ns : String) (pods : List Pod) : ℚ :=
  (contributions quantity ns pods).sum

/-- Some container of some pod of the namespace `ns` declares the quantity. -/
def declaredIn (quantity : Container → Option ℚ) (ns : String) (pods : List Pod) : Prop :=
  ∃ p ∈ pods, p.Namespace = ns ∧ ∃ c ∈ p.Containers, (quantity c).isSome = true

/-- The family `F` holds the totals of the quantity for the namespace `ns`: it has a
series for `ns` exactly when some container of a pod of `ns` declares the quantity, that
series holds the total of `ns`, and no two series of the family have the same labels. -/
def holdsNamespaceTotal (F : GaugeVec) (quantity : Container → Option ℚ) (pods : List Pod)
    (ns : String) : Prop :=
  ([ns] ∈ F.labels ↔ declaredIn quantity ns pods)
  ∧ (declaredIn quantity ns pods → F.value? [ns] = some (namespaceTotal quantity ns pods))
  ∧ (¬ declaredIn quantity ns pods → F.value? [ns] = none)
  ∧ F.labels.Nodup

/-- The world of the end-to-end scenario, with empty gauges. -/
def e2eWorld : World := ⟨e2eCluster, emptyGauges, [], 0, []⟩

/-- The sixteen fields of the metric set. -/
def PrometheusMetricsPtrs.fields (m : PrometheusMetricsPtrs) : List (Option Collector) :=
  [m.NodeCount,
    m.PodCount,
    m.DeploymentCount,
    m.ServiceCount,
    m.NamespaceCount,
    m.NodeReady,
    m.PodStatus,
    m.DeploymentDesired,
    m.DeploymentAvailable,
    m.ContainerRestarts,
    m.CPUAllocatable,
    m.MemoryAllocatable,
    m.CPURequests,
    m.MemoryRequests,
    m.CPULimits,
    m.MemoryLimits]

/-- The world after `NewPrometheusMetrics` ran once in a fresh process. -/
def onceRegistered : MetricsWorld := (NewPrometheusMetrics stdoutLoggerM freshMetricsWorld).2

/-- A handler that calls `WriteHeader(404)` and then `WriteHeader(500)`. -/
def exTwoHeaders : HTTPHandler World :=
  fun _ s => ⟨[.writeHeader 404, .writeHeader 500], s, false⟩

/-- A handler that writes its body and then calls `WriteHeader(500)`. -/
def exLateHeader : HTTPHandler World :=
  fun _ s => ⟨[.write (Chunk.text "OK"), .writeHeader 500], s, false⟩

/-- A handler that writes its body and never calls `WriteHeader`. -/
def exNoHeader : HTTPHandler World :=
  fun _ s => ⟨[.write (Chunk.text "OK")], s, false⟩

/-- The status that the last log record of the world holds. -/
def loggedStatus (s : World) : Option String :=
  s.stdout.getLast?.bind (fun rec => List.lookup "status" rec.attrs)

/-- An environment with a padded token and no `PORT`. -/
def exEnv : Env := [("EXPECTED_AUTH_TOKEN", "  valid-token-123\n")]

/-- The number of listed pods of the namespace `ns` whose phase is `phase`. -/
def podsIn (ns phase : String) (pods : List Pod) : Nat :=
  (pods.filter (fun p => p.Namespace = ns ∧ p.Phase = phase)).length

/-- The sum, over all namespaces, of the values that the pod phase family holds for the
phase: the second label of a series is its phase. -/
def phaseTotal (F : GaugeVec) (phase : String) : ℚ :=
  ((F.filter (fun e => e.1.getD 1 "" = phase)).map Prod.snd).sum

/-! ## The collector objects and the exposition of the registry -/

/-- The collector objects of the process: the series that the object of each identity
holds. A scalar gauge holds one series, without labels. -/
abbrev Heap := Nat → GaugeVec

/-- Any write through the collector `c`: its object takes the given series. -/
def Heap.write (heap : Heap) (c : Collector) (series : GaugeVec) : Heap :=
  fun p => if p = c.ptr then series else heap p

/-- What `promhttp.Handler` exposes: each collector that the registry holds, under its
name, with the series its object holds. -/
def exposition (registry : List Collector) (heap : Heap) : List (String × GaugeVec) :=
  registry.map (fun c => (c.fqName, heap c.ptr))

/-- The series of the sixteen gauges with the given contents, in the order of the fields. -/
def seriesOf (contents : PrometheusMetrics) : List GaugeVec :=
  [[([], contents.NodeCount)],
    [([], contents.PodCount)],
    [([], contents.DeploymentCount)],
    [([], contents.ServiceCount)],
    [([], contents.NamespaceCount)],
    contents.NodeReady,
    contents.PodStatus,
    contents.DeploymentDesired,
    contents.DeploymentAvailable,
    contents.ContainerRestarts,
    contents.CPUAllocatable,
    contents.MemoryAllocatable,
    contents.CPURequests,
    contents.MemoryRequests,
    contents.CPULimits,
    contents.MemoryLimits]

/-- A sequence of writes, each through a field of a metric set; a nil field writes
nothing. -/
def puts (l : List (Option Collector × GaugeVec)) (heap : Heap) : Heap :=
  l.foldl (fun h fg =>
    match fg.1 with
    | some c => h.write c fg.2
    | none => h) heap

/-- The contents of the sixteen gauges written through the metric set `m`, as a poll of a
`Handler` built on `m` writes them. -/
def storeThrough (m : PrometheusMetricsPtrs) (contents : PrometheusMetrics) (heap : Heap) :
    Heap :=
  puts (m.fields.zip (seriesOf contents)) heap

/-- The sixteen collectors that `NewPrometheusMetrics` creates when the next free object
identity is `p`, in the order of the slice `collectors`. -/
def newCollectors (p : Nat) : List Collector :=
  [⟨p + 0, "k8s_nodes_total", "Total de nós", []⟩,
    ⟨p + 1, "k8s_pods_total", "Total de pods", []⟩,
    ⟨p + 2, "k8s_deployments_total", "Total de deployments", []⟩,
    ⟨p + 3, "k8s_services_total", "Total de services", []⟩,
    ⟨p + 4, "k8s_namespaces_total", "Total de namespaces", []⟩,
    ⟨p + 5, "k8s_node_status_ready", "1 se Ready", ["node"]⟩,
    ⟨p + 6, "k8s_pod_status_phase", "Status por fase", ["namespace", "phase"]⟩,
    ⟨p + 7, "k8s_deployment_replicas_desired", "Replicas desejadas", ["namespace", "deployment"]⟩,
    ⟨p + 8, "k8s_deployment_replicas_available", "Replicas disponíveis", ["namespace", "deployment"]⟩,
    ⟨p + 9, "k8s_container_restarts_total", "Restart count", ["namespace", "pod", "container"]⟩,
    ⟨p + 10, "k8s_node_cpu_allocatable_cores", "CPU allocatable", ["node"]⟩,
    ⟨p + 11, "k8s_node_memory_allocatable_bytes", "Memória allocatable", ["node"]⟩,
    ⟨p + 12, "k8s_namespace_cpu_requests_cores", "Soma CPU requests", ["namespace"]⟩,
    ⟨p + 13, "k8s_namespace_memory_requests_bytes", "Soma memória requests", ["namespace"]⟩,
    ⟨p + 14, "k8s_namespace_cpu_limits_cores", "Soma CPU limits", ["namespace"]⟩,
    ⟨p + 15, "k8s_namespace_memory_limits_bytes", "Soma memória limits", ["namespace"]⟩]

/-- The descriptor of a collector: its name, help text and label names. -/
def Collector.desc (c : Collector) : String × String × List String :=
  (c.fqName, c.help, c.labelNames)

/-- The gauge contents that the poll of the example world leaves. -/
def exContents : PrometheusMetrics :=
  (Handler.MetricsJSONHandler NewRecorder ⟨"GET", "/metrics", []⟩ exWorld).s.m

/-- Collector objects that hold no series yet. -/
def exHeap : Heap := fun _ => []

/-- A process in which the legacy entry point registered its node gauge. -/
def exLegacyWorld : MetricsWorld :=
  ⟨[⟨0, "k8s_metrics_api_nodes_total", "Total number of nodes in the cluster.", []⟩], 1, []⟩

/-- A world whose API server answers no listing, at 22:13:20 UTC on 14 November 2023. -/
def exUnreachableWorld : World :=
  ⟨⟨.error "connection refused", .error "connection refused", .error "connection refused",
    .error "connection refused", .error "connection refused"⟩, emptyGauges, [],
    1700000000000000000, []⟩

/-- A request to `/healthz`. -/
def exHealthRequest : Request := ⟨"GET", "/healthz", []⟩

/-! ## What one pass leaves in each group of gauges -/

/-- The series of the restart family that a pod listing determines: one per container
status of every pod, with the restart count of the status. -/
def restartEntries : List Pod → List (List String × ℚ)
  | [] => []
  | p :: ps =>
    p.ContainerStatuses.map
        (fun cs => ([p.Namespace, p.Name, cs.Name], (cs.RestartCount : ℚ)))
      ++ restartEntries ps

/-- The node gauges hold what the node listing determines: the count, one readiness
series per node with 1 for a node that has a condition `Ready` of status `True` and 0
otherwise, and for every node its allocatable CPU in cores and memory in bytes. -/
def holdsNodes (nodes : List Node) (m : PrometheusMetrics) : Prop :=
  m.NodeCount = (nodes.length : ℚ)
  ∧ (∀ lvs, lvs ∈ m.NodeReady.labels ↔ ∃ n ∈ nodes, lvs = [n.Name])
  ∧ ∀ n ∈ nodes,
      m.NodeReady.value? [n.Name]
        = some (if ∃ c ∈ n.Conditions, c.Type_ = "Ready" ∧ c.Status = "True" then 1 else 0)
      ∧ m.CPUAllocatable.value? [n.Name]
        = some (float64Div (float64 n.Allocatable.Cpu.MilliValue) 1000)
      ∧ m.MemoryAllocatable.value? [n.Name] = some (float64 n.Allocatable.Memory.Value)

/-- The pod gauges hold what the pod listing determines: the count, the number of pods
per namespace and phase, the restart count per container status, and the four totals per
namespace. -/
def holdsPods (pods : List Pod) (m : PrometheusMetrics) : Prop :=
  m.PodCount = (pods.length : ℚ)
  ∧ (∀ lvs, lvs ∈ m.PodStatus.labels ↔ ∃ p ∈ pods, lvs = [p.Namespace, p.Phase])
  ∧ (∀ ns phase, 0 < podsIn ns phase pods →
      m.PodStatus.value? [ns, phase] = some (podsIn ns phase pods : ℚ))
  ∧ (∀ lvs, lvs ∈ m.ContainerRestarts.labels ↔ lvs ∈ (restartEntries pods).map Prod.fst)
  ∧ (∀ e ∈ restartEntries pods, m.ContainerRestarts.value? e.1 = some e.2)
  ∧ ∀ ns, holdsNamespaceTotal m.CPURequests cpuRequestOf pods ns
      ∧ holdsNamespaceTotal m.MemoryRequests memRequestOf pods ns
      ∧ holdsNamespaceTotal m.CPULimits cpuLimitOf pods ns
      ∧ holdsNamespaceTotal m.MemoryLimits memLimitOf pods ns

/-- The deployment gauges hold what the deployment listing determines: the count and, per
deployment, the desired and the available replicas. -/
def holdsDeployments (ds : List Deployment) (m : PrometheusMetrics) : Prop :=
  m.DeploymentCount = (ds.length : ℚ)
  ∧ (∀ lvs, lvs ∈ m.DeploymentDesired.labels ↔ ∃ d ∈ ds, lvs = [d.Namespace, d.Name])
  ∧ (∀ lvs, lvs ∈ m.DeploymentAvailable.labels ↔ ∃ d ∈ ds, lvs = [d.Namespace, d.Name])
  ∧ ∀ d ∈ ds,
      (∀ n : Int, d.Replicas = some n →
        m.DeploymentDesired.value? [d.Namespace, d.Name] = some (n : ℚ))
      ∧ m.DeploymentAvailable.value? [d.Namespace, d.Name] = some (d.AvailableReplicas : ℚ)

/-- The listings that succeed name their objects without repetition, as the API server
guarantees: node names, container statuses per pod, deployments per namespace. -/
def Cluster.distinctKeys (c : Cluster) : Prop :=
  (∀ nodes, c.nodes = .ok nodes → (nodes.map Node.Name).Nodup)
  ∧ (∀ pods, c.pods = .ok pods → ((restartEntries pods).map Prod.fst).Nodup)
  ∧ (∀ ds, c.deployments = .ok ds → (ds.map (fun d => [d.Namespace, d.Name])).Nodup)

/-! ## Totals that need no rounding, and listings in another order -/

/-- The values that the containers of the namespace declare are whole multiples of
`2 ^ q`, none negative, and their exact sum does not exceed `2 ^ 53` such units: then no
partial sum needs rounding. -/
def onGrid (quantity : Container → Option ℚ) (ns : String) (pods : List Pod) (q : ℤ) : Prop :=
  -1074 ≤ q
  ∧ (∀ v ∈ contributions quantity ns pods, ∃ k : ℕ, v = (k : ℚ) * 2 ^ q)
  ∧ exactTotal quantity ns pods ≤ 2 ^ 53 * 2 ^ q

/-- The listing `pods2` holds the pods of `pods` in another order, each with its
containers in another order. -/
def sameUpToOrder (pods pods2 : List Pod) : Prop :=
  ∃ mid : List Pod, mid.Perm pods
    ∧ List.Forall₂ (fun p p2 => ∃ cs, cs.Perm p.Containers ∧ p2 = { p with Containers := cs })
        mid pods2

/-- The families `F` and `F2` agree on the namespace `ns`: both have its series or
neither has, and they hold the same value when no partial sum needs rounding. -/
def agreeOn (F F2 : GaugeVec) (quantity : Container → Option ℚ) (pods : List Pod)
    (ns : String) : Prop :=
  ([ns] ∈ F.labels ↔ [ns] ∈ F2.labels)
  ∧ ∀ q, onGrid quantity ns pods q → F.value? [ns] = F2.value? [ns]

/-! ## Example data for the rounding of `float64` -/

/-- A pod of namespace `default` whose only container requests `milli` milli-units of
CPU. -/
def cpuPod (name : String) (milli : Int) : Pod :=
  ⟨"default", name, "Running", [⟨"c", [("cpu", ⟨milli, 1⟩)], []⟩], []⟩

/-- A cluster that lists the given pods and nothing else. -/
def podsCluster (pods : List Pod) : Cluster := ⟨.ok [], .ok pods, .ok [], .ok [], .ok []⟩

/-- Three pods that request 100, 200 and 300 milli-units of CPU. -/
def exPodsAscending : List Pod := [cpuPod "a" 100, cpuPod "b" 200, cpuPod "c" 300]

/-- The same three pods listed in the reverse order. -/
def exPodsDescending : List Pod := [cpuPod "c" 300, cpuPod "b" 200, cpuPod "a" 100]

/-- A node with 100 milli-units of CPU and `2 ^ 53 + 1` bytes of memory allocatable. -/
def exNodeTenth : Node :=
  ⟨"node1", [⟨"Ready", "True"⟩],
    [("cpu", ⟨100, 1⟩), ("memory", ⟨9007199254740993000, 9007199254740993⟩)]⟩

/-- A world whose cluster lists the node `exNodeTenth` and nothing else. -/
def exWorldTenth : World :=
  ⟨⟨.ok [exNodeTenth], .ok [], .ok [], .ok [], .ok []⟩, emptyGauges, [], 0, []⟩

/-- Two pods that request 500 and 250 milli-units of CPU. -/
def exPodsHalves : List Pod := [cpuPod "a" 500, cpuPod "b" 250]

/-- The same two pods listed in the reverse order. -/
def exPodsHalvesReversed : List Pod := [cpuPod "b" 250, cpuPod "a" 500]

/-- A world whose cluster lists the given pods and nothing else, with empty gauges. -/
def podsWorld (pods : List Pod) : World := ⟨podsCluster pods, emptyGauges, [], 0, []⟩

/-! ## General lemmas on loops and maps -/

/-- A projection that every step of a loop preserves is preserved by the loop. -/
theorem foldl_proj_eq {α β γ : Type} (f : α → β → α) (proj : α → γ)
    (hstep : ∀ a x, proj (f a x) = proj a) (xs : List β) (a : α) :
    proj (xs.foldl f a) = proj a := by
  induction xs generalizing a with
  | nil => rfl
  | cons x xs ih => rw [List.foldl_cons, ih, hstep]

/-- Counting one more under a key adds one to the sum of the values. -/
theorem mapSum_mapModify_succ {κ : Type} [DecidableEq κ] (k : κ) (m : List (κ × Nat)) :
    mapSum (mapModify k (fun x => x + 1) 0 m) = mapSum m + 1 := by
  induction m with
  | nil => simp [mapModify, mapSum]
  | cons kv rest ih =>
    obtain ⟨k', v'⟩ := kv
    by_cases h : k' = k
    · simp [mapModify, mapSum, h]; omega
    · simp only [mapSum] at ih
      simp [mapModify, mapSum, h, ih]; omega

/-- Reading the key that was just modified. -/
theorem lookup_mapModify_self {κ ν : Type} [DecidableEq κ] [BEq κ] [LawfulBEq κ] (k : κ) (f : ν → ν) (zero : ν)
    (m : List (κ × ν)) :
    List.lookup k (mapModify k f zero m) = some (f ((List.lookup k m).getD zero)) := by
  induction m with
  | nil => simp [mapModify, List.lookup]
  | cons kv rest ih =>
    obtain ⟨k', v'⟩ := kv
    by_cases h : k' = k
    · subst h; simp [mapModify, List.lookup]
    · have h' : (k == k') = false := by simpa using fun e => h e.symm
      simp [mapModify, List.lookup, h, h', ih]

/-- Reading another key than the one that was modified. -/
theorem lookup_mapModify_other {κ ν : Type} [DecidableEq κ] [BEq κ] [LawfulBEq κ] (k k0 : κ) (f : ν → ν) (zero : ν)
    (m : List (κ × ν)) (hk : k0 ≠ k) :
    List.lookup k0 (mapModify k f zero m) = List.lookup k0 m := by
  induction m with
  | nil =>
    have h' : (k0 == k) = false := by simpa using hk
    simp [mapModify, List.lookup, h']
  | cons kv rest ih =>
    obtain ⟨k', v'⟩ := kv
    by_cases h : k' = k
    · subst h
      have h' : (k0 == k') = false := by simpa using hk
      simp [mapModify, List.lookup, h']
    · by_cases h0 : k0 = k'
      · subst h0; simp [mapModify, List.lookup, h]
      · have h' : (k0 == k') = false := by simpa using h0
        simp [mapModify, List.lookup, h, h', ih]

/-- The keys after a modification: the old keys and the modified key. -/
theorem mem_mapKeys_mapModify {κ ν : Type} [DecidableEq κ] (k k0 : κ) (f : ν → ν) (zero : ν)
    (m : List (κ × ν)) :
    k0 ∈ mapKeys (mapModify k f zero m) ↔ k0 = k ∨ k0 ∈ mapKeys m := by
  induction m with
  | nil => simp [mapModify, mapKeys]
  | cons kv rest ih =>
    obtain ⟨k', v'⟩ := kv
    by_cases h : k' = k
    · subst h; simp [mapModify, mapKeys]
    · simp only [mapKeys] at ih
      simp only [mapModify, h, mapKeys, if_false, List.map_cons, List.mem_cons, ih]
      tauto

/-- A projection that follows its own loop follows it through the whole loop. -/
theorem foldl_proj_comm {α β γ : Type} (f : α → β → α) (g : γ → β → γ) (proj : α → γ)
    (hstep : ∀ a x, proj (f a x) = g (proj a) x) (xs : List β) (a : α) :
    proj (xs.foldl f a) = xs.foldl g (proj a) := by
  induction xs generalizing a with
  | nil => rfl
  | cons x xs ih => rw [List.foldl_cons, List.foldl_cons, ih, hstep]

/-- The keys after a loop of modifications: the old keys and the keys of the loop. -/
theorem mem_mapKeys_foldl_mapModify {κ ν β : Type} [DecidableEq κ] (key : β → κ)
    (f : β → ν → ν) (zero : ν) (xs : List β) (m : List (κ × ν)) (k : κ) :
    k ∈ mapKeys (xs.foldl (fun acc x => mapModify (key x) (f x) zero acc) m)
      ↔ k ∈ mapKeys m ∨ k ∈ xs.map key := by
  induction xs generalizing m with
  | nil => simp
  | cons x xs ih =>
    rw [List.foldl_cons, ih, mem_mapKeys_mapModify, List.map_cons, List.mem_cons]
    tauto

/-- A key that the loop does not modify keeps its value. -/
theorem lookup_foldl_mapModify_other {κ ν β : Type} [DecidableEq κ] [BEq κ] [LawfulBEq κ] (key : β → κ)
    (f : β → ν → ν) (zero : ν) (xs : List β) (m : List (κ × ν)) (k : κ)
    (hk : k ∉ xs.map key) :
    List.lookup k (xs.foldl (fun acc x => mapModify (key x) (f x) zero acc) m)
      = List.lookup k m := by
  induction xs generalizing m with
  | nil => rfl
  | cons x xs ih =>
    rw [List.map_cons, List.mem_cons, not_or] at hk
    rw [List.foldl_cons, ih _ hk.2, lookup_mapModify_other _ _ _ _ _ hk.1]

/-- In a loop of `Set` calls with distinct keys, each key holds the value set for it. -/
theorem lookup_foldl_set_of_nodup {κ ν β : Type} [DecidableEq κ] [BEq κ] [LawfulBEq κ] (key : β → κ)
    (val : β → ν) (zero : ν) (xs : List β) (m : List (κ × ν))
    (hnd : (xs.map key).Nodup) (x : β) (hx : x ∈ xs) :
    List.lookup (key x) (xs.foldl (fun acc y => mapModify (key y) (fun _ => val y) zero acc) m)
      = some (val x) := by
  induction xs generalizing m with
  | nil => cases hx
  | cons y ys ih =>
    rw [List.map_cons, List.nodup_cons] at hnd
    rw [List.foldl_cons]
    rcases List.mem_cons.1 hx with h | h
    · subst h
      rw [lookup_foldl_mapModify_other key (fun y _ => val y) zero ys _ _ hnd.1,
        lookup_mapModify_self]
    · exact ih _ hnd.2 h

/-! ## Node readiness -/

theorem readyLoop_eq_true_iff (conds : List NodeCondition) :
    readyLoop conds = true ↔ ∃ c ∈ conds, c.Type_ = "Ready" ∧ c.Status = "True" := by
  induction conds with
  | nil => simp [readyLoop]
  | cons c cs ih =>
    by_cases h : c.Type_ = NodeReady ∧ c.Status = ConditionTrue
    · simp only [readyLoop, h, and_self, if_true, List.mem_cons, true_iff]
      exact ⟨c, Or.inl rfl, h⟩
    · simp only [readyLoop, h, if_false, ih, List.mem_cons]
      constructor
      · rintro ⟨c', hc', hr⟩; exact ⟨c', Or.inr hc', hr⟩
      · rintro ⟨c', hc' | hc', hr⟩
        · subst hc'; exact absurd hr h
        · exact ⟨c', hc', hr⟩

theorem readyLoop_perm (conds conds' : List NodeCondition) (h : conds'.Perm conds) :
    readyLoop conds' = readyLoop conds := by
  have e : (readyLoop conds' = true ↔ readyLoop conds = true) := by
    rw [readyLoop_eq_true_iff, readyLoop_eq_true_iff]
    constructor
    · rintro ⟨c, hc, hr⟩; exact ⟨c, h.mem_iff.1 hc, hr⟩
    · rintro ⟨c, hc, hr⟩; exact ⟨c, h.mem_iff.2 hc, hr⟩
  cases h1 : readyLoop conds' <;> cases h2 : readyLoop conds <;> simp_all

theorem nodesUpdate_NodeReady (nodes : List Node) (m : PrometheusMetrics) :
    (nodesUpdate nodes m).NodeReady
      = nodes.foldl (fun acc n => mapModify [n.Name]
          (fun _ => boolToFloat (readyLoop n.Conditions)) 0 acc) [] :=
  foldl_proj_comm nodeStep _ PrometheusMetrics.NodeReady (fun _ _ => rfl) nodes _

/-! ## The pod loop and the phase tally -/

theorem containerStep_podPhases (p : Pod) (l : PodLoop) (c : Container) :
    (containerStep p l c).podPhases = l.podPhases := by
  unfold containerStep
  cases List.lookup ResourceCPU c.Requests <;> cases List.lookup ResourceMemory c.Requests <;>
    cases List.lookup ResourceCPU c.Limits <;> cases List.lookup ResourceMemory c.Limits <;> rfl

theorem podStep_podPhases (l : PodLoop) (p : Pod) :
    (podStep l p).podPhases = mapModify p.Phase (fun x => x + 1) 0 l.podPhases := by
  unfold podStep
  simp only
  rw [foldl_proj_eq (containerStep p) PodLoop.podPhases (containerStep_podPhases p)]

theorem podLoop_podPhases_sum (pods : List Pod) (l : PodLoop) :
    mapSum (pods.foldl podStep l).podPhases = mapSum l.podPhases + pods.length := by
  induction pods generalizing l with
  | nil => simp
  | cons p ps ih =>
    rw [List.foldl_cons, ih, podStep_podPhases, mapSum_mapModify_succ, List.length_cons]
    omega

theorem podsUpdate_podPhases (pods : List Pod) (m : PrometheusMetrics) :
    (podsUpdate pods m).podPhases
      = (pods.foldl podStep ⟨{ { { m with PodCount := (pods.length : ℚ) } with
          PodStatus := [] } with ContainerRestarts := [] }, [], [], [], [], []⟩).podPhases :=
  rfl

theorem podsUpdate_podPhases_sum (pods : List Pod) (m : PrometheusMetrics) :
    mapSum (podsUpdate pods m).podPhases = pods.length := by
  rw [podsUpdate_podPhases, podLoop_podPhases_sum]
  simp [mapSum]

/-! ## The deployment loop -/

theorem deploymentsLoop_no_panic (ds : List Deployment) (m : PrometheusMetrics)
    (h : ∀ d ∈ ds, d.Replicas ≠ none) : (deploymentsLoop ds m).2 = false := by
  induction ds generalizing m with
  | nil => rfl
  | cons d ds ih =>
    have hd : d.Replicas ≠ none := h d (List.mem_cons_self _ _)
    cases hr : d.Replicas with
    | none => exact absurd hr hd
    | some r =>
      simp only [deploymentsLoop, hr]
      exact ih _ (fun d' hd' => h d' (List.mem_cons_of_mem _ hd'))

theorem deploymentsUpdate_no_panic (ds : List Deployment) (m : PrometheusMetrics)
    (h : ∀ d ∈ ds, d.Replicas ≠ none) : (deploymentsUpdate ds m).2 = false :=
  deploymentsLoop_no_panic ds _ h

/-! ## Which gauges each block of the handler leaves alone -/

theorem nodesUpdate_frame (nodes : List Node) (m : PrometheusMetrics) :
    podGauges (nodesUpdate nodes m) = podGauges m
    ∧ namespaceGauges (nodesUpdate nodes m) = namespaceGauges m
    ∧ deploymentGauges (nodesUpdate nodes m) = deploymentGauges m
    ∧ serviceGauges (nodesUpdate nodes m) = serviceGauges m := by
  have h := foldl_proj_eq nodeStep
    (fun m => (podGauges m, namespaceGauges m, deploymentGauges m, serviceGauges m))
    (fun _ _ => rfl) nodes
    { { m with NodeCount := (nodes.length : ℚ) } with NodeReady := [] }
  simp only [Prod.mk.injEq] at h
  exact h

theorem containerStep_m (p : Pod) (l : PodLoop) (c : Container) :
    (containerStep p l c).m = l.m := by
  unfold containerStep
  cases List.lookup ResourceCPU c.Requests <;> cases List.lookup ResourceMemory c.Requests <;>
    cases List.lookup ResourceCPU c.Limits <;> cases List.lookup ResourceMemory c.Limits <;> rfl

theorem podStep_m (l : PodLoop) (p : Pod) :
    (podStep l p).m = p.ContainerStatuses.foldl (containerStatusStep p)
      { l.m with PodStatus := l.m.PodStatus.Inc [p.Namespace, p.Phase] } := by
  unfold podStep
  simp only
  rw [foldl_proj_eq (containerStep p) PodLoop.m (containerStep_m p)]

theorem podStep_frame (l : PodLoop) (p : Pod) :
    (nodeGauges (podStep l p).m, namespaceGauges (podStep l p).m,
        deploymentGauges (podStep l p).m, serviceGauges (podStep l p).m)
      = (nodeGauges l.m, namespaceGauges l.m, deploymentGauges l.m, serviceGauges l.m) := by
  rw [podStep_m]
  exact foldl_proj_eq (containerStatusStep p)
    (fun m => (nodeGauges m, namespaceGauges m, deploymentGauges m, serviceGauges m))
    (fun _ _ => rfl) p.ContainerStatuses _

theorem podsUpdate_frame (pods : List Pod) (m : PrometheusMetrics) :
    nodeGauges (podsUpdate pods m).m = nodeGauges m
    ∧ namespaceGauges (podsUpdate pods m).m = namespaceGauges m
    ∧ deploymentGauges (podsUpdate pods m).m = deploymentGauges m
    ∧ serviceGauges (podsUpdate pods m).m = serviceGauges m := by
  have h := foldl_proj_eq podStep
    (fun l => (nodeGauges l.m, namespaceGauges l.m, deploymentGauges l.m, serviceGauges l.m))
    podStep_frame pods
    ⟨{ { { m with PodCount := (pods.length : ℚ) } with PodStatus := [] } with
      ContainerRestarts := [] }, [], [], [], [], []⟩
  simp only [Prod.mk.injEq] at h
  exact h

theorem deploymentsLoop_frame (ds : List Deployment) (m : PrometheusMetrics) :
    nodeGauges (deploymentsLoop ds m).1 = nodeGauges m
    ∧ podGauges (deploymentsLoop ds m).1 = podGauges m
    ∧ namespaceGauges (deploymentsLoop ds m).1 = namespaceGauges m
    ∧ serviceGauges (deploymentsLoop ds m).1 = serviceGauges m := by
  induction ds generalizing m with
  | nil => exact ⟨rfl, rfl, rfl, rfl⟩
  | cons d ds ih =>
    cases hr : d.Replicas with
    | none =>
      simp only [deploymentsLoop, hr]
      exact ⟨rfl, rfl, rfl, rfl⟩
    | some r =>
      simp only [deploymentsLoop, hr]
      exact ih _

theorem deploymentsUpdate_frame (ds : List Deployment) (m : PrometheusMetrics) :
    nodeGauges (deploymentsUpdate ds m).1 = nodeGauges m
    ∧ podGauges (deploymentsUpdate ds m).1 = podGauges m
    ∧ namespaceGauges (deploymentsUpdate ds m).1 = namespaceGauges m
    ∧ serviceGauges (deploymentsUpdate ds m).1 = serviceGauges m :=
  deploymentsLoop_frame ds _

/-- Two gauge sets whose five groups of gauges agree are equal. -/
theorem gauges_ext (m m' : PrometheusMetrics) (h1 : nodeGauges m = nodeGauges m')
    (h2 : podGauges m = podGauges m') (h3 : namespaceGauges m = namespaceGauges m')
    (h4 : deploymentGauges m = deploymentGauges m') (h5 : serviceGauges m = serviceGauges m') :
    m = m' := by
  cases m; cases m'
  simp only [nodeGauges, podGauges, namespaceGauges, deploymentGauges, serviceGauges,
    Prod.mk.injEq] at h1 h2 h3 h4 h5
  simp only [PrometheusMetrics.mk.injEq]
  tauto

/-! ## The frame lemmas, one gauge group at a time -/

@[simp] theorem podGauges_nodesUpdate (nodes : List Node) (m : PrometheusMetrics) :
    podGauges (nodesUpdate nodes m) = podGauges m :=
  (nodesUpdate_frame nodes m).1

@[simp] theorem namespaceGauges_nodesUpdate (nodes : List Node) (m : PrometheusMetrics) :
    namespaceGauges (nodesUpdate nodes m) = namespaceGauges m :=
  (nodesUpdate_frame nodes m).2.1

@[simp] theorem deploymentGauges_nodesUpdate (nodes : List Node) (m : PrometheusMetrics) :
    deploymentGauges (nodesUpdate nodes m) = deploymentGauges m :=
  (nodesUpdate_frame nodes m).2.2.1

@[simp] theorem serviceGauges_nodesUpdate (nodes : List Node) (m : PrometheusMetrics) :
    serviceGauges (nodesUpdate nodes m) = serviceGauges m :=
  (nodesUpdate_frame nodes m).2.2.2

@[simp] theorem nodeGauges_podsUpdate (pods : List Pod) (m : PrometheusMetrics) :
    nodeGauges ((podsUpdate pods m).m) = nodeGauges m :=
  (podsUpdate_frame pods m).1

@[simp] theorem namespaceGauges_podsUpdate (pods : List Pod) (m : PrometheusMetrics) :
    namespaceGauges ((podsUpdate pods m).m) = namespaceGauges m :=
  (podsUpdate_frame pods m).2.1

@[simp] theorem deploymentGauges_podsUpdate (pods : List Pod) (m : PrometheusMetrics) :
    deploymentGauges ((podsUpdate pods m).m) = deploymentGauges m :=
  (podsUpdate_frame pods m).2.2.1

@[simp] theorem serviceGauges_podsUpdate (pods : List Pod) (m : PrometheusMetrics) :
    serviceGauges ((podsUpdate pods m).m) = serviceGauges m :=
  (podsUpdate_frame pods m).2.2.2

@[simp] theorem nodeGauges_deploymentsUpdate (ds : List Deployment) (m : PrometheusMetrics) :
    nodeGauges ((deploymentsUpdate ds m).1) = nodeGauges m :=
  (deploymentsUpdate_frame ds m).1

@[simp] theorem podGauges_deploymentsUpdate (ds : List Deployment) (m : PrometheusMetrics) :
    podGauges ((deploymentsUpdate ds m).1) = podGauges m :=
  (deploymentsUpdate_frame ds m).2.1

@[simp] theorem namespaceGauges_deploymentsUpdate (ds : List Deployment) (m : PrometheusMetrics) :
    namespaceGauges ((deploymentsUpdate ds m).1) = namespaceGauges m :=
  (deploymentsUpdate_frame ds m).2.2.1

@[simp] theorem serviceGauges_deploymentsUpdate (ds : List Deployment) (m : PrometheusMetrics) :
    serviceGauges ((deploymentsUpdate ds m).1) = serviceGauges m :=
  (deploymentsUpdate_frame ds m).2.2.2

@[simp] theorem nodeGauges_namespacesUpdate (nss : List Namespace) (m : PrometheusMetrics) :
    nodeGauges (namespacesUpdate nss m) = nodeGauges m :=
  rfl

@[simp] theorem podGauges_namespacesUpdate (nss : List Namespace) (m : PrometheusMetrics) :
    podGauges (namespacesUpdate nss m) = podGauges m :=
  rfl

@[simp] theorem deploymentGauges_namespacesUpdate (nss : List Namespace) (m : PrometheusMetrics) :
    deploymentGauges (namespacesUpdate nss m) = deploymentGauges m :=
  rfl

@[simp] theorem serviceGauges_namespacesUpdate (nss : List Namespace) (m : PrometheusMetrics) :
    serviceGauges (namespacesUpdate nss m) = serviceGauges m :=
  rfl

@[simp] theorem nodeGauges_servicesUpdate (svcs : List Service) (m : PrometheusMetrics) :
    nodeGauges (servicesUpdate svcs m) = nodeGauges m :=
  rfl

@[simp] theorem podGauges_servicesUpdate (svcs : List Service) (m : PrometheusMetrics) :
    podGauges (servicesUpdate svcs m) = podGauges m :=
  rfl

@[simp] theorem namespaceGauges_servicesUpdate (svcs : List Service) (m : PrometheusMetrics) :
    namespaceGauges (servicesUpdate svcs m) = namespaceGauges m :=
  rfl

@[simp] theorem deploymentGauges_servicesUpdate (svcs : List Service) (m : PrometheusMetrics) :
    deploymentGauges (servicesUpdate svcs m) = deploymentGauges m :=
  rfl

/-! ## The series of the pod phase family -/

theorem containerStatusStep_PodStatus (p : Pod) (m : PrometheusMetrics)
    (cs : ContainerStatus) : (containerStatusStep p m cs).PodStatus = m.PodStatus :=
  rfl

theorem podStep_PodStatus (l : PodLoop) (p : Pod) :
    (podStep l p).m.PodStatus
      = mapModify [p.Namespace, p.Phase] (fun x => x + 1) 0 l.m.PodStatus := by
  rw [podStep_m, foldl_proj_eq (containerStatusStep p) PrometheusMetrics.PodStatus
    (containerStatusStep_PodStatus p)]
  rfl

theorem podsUpdate_PodStatus (pods : List Pod) (m : PrometheusMetrics) :
    (podsUpdate pods m).m.PodStatus
      = pods.foldl (fun g p => mapModify [p.Namespace, p.Phase] (fun x => x + 1) 0 g) [] := by
  show (pods.foldl podStep _).m.PodStatus = _
  exact foldl_proj_comm podStep _ (fun l : PodLoop => l.m.PodStatus) podStep_PodStatus pods _

/-- The label tuples of the pod phase family after the pod block: one per pair of
namespace and phase that some listed pod has, whatever the family held before. -/
theorem mem_labels_podsUpdate_PodStatus (pods : List Pod) (m : PrometheusMetrics)
    (lvs : List String) :
    lvs ∈ (podsUpdate pods m).m.PodStatus.labels ↔ ∃ p ∈ pods, lvs = [p.Namespace, p.Phase] := by
  rw [podsUpdate_PodStatus, GaugeVec.labels,
    mem_mapKeys_foldl_mapModify (fun p : Pod => [p.Namespace, p.Phase]) (fun _ x => x + 1)]
  simp only [mapKeys, List.map_nil, List.not_mem_nil, false_or, List.mem_map]
  constructor
  · rintro ⟨p, hp, rfl⟩; exact ⟨p, hp, rfl⟩
  · rintro ⟨p, hp, rfl⟩; exact ⟨p, hp, rfl⟩

/-! ## The handler on a poll whose five listings succeed -/

theorem MetricsJSONHandler_success (w : ResponseWriter) (r : Request) (s : World)
    (nodes : List Node) (pods : List Pod) (namespaces : List Namespace)
    (deployments : List Deployment) (services : List Service)
    (hn : s.cluster.nodes = .ok nodes) (hp : s.cluster.pods = .ok pods)
    (hns : s.cluster.namespaces = .ok namespaces)
    (hd : s.cluster.deployments = .ok deployments)
    (hs : s.cluster.services = .ok services)
    (hr : ∀ d ∈ deployments, d.Replicas ≠ none) :
    Handler.MetricsJSONHandler w r s
      = ⟨(w.SetHeader "Content-Type" "application/json").Write
            (Chunk.jsonMetrics (snapshotOf nodes pods namespaces deployments services s.m s.now)),
          { s with
            m := gaugesAfter nodes pods namespaces deployments services s.m,
            calls := s.calls ++ [Kind.nodes] ++ [Kind.pods] ++ [Kind.namespaces]
              ++ [Kind.deployments] ++ [Kind.services] },
          false⟩ := by
  have hflag := deploymentsUpdate_no_panic deployments
    (namespacesUpdate namespaces (podsUpdate pods (nodesUpdate nodes s.m)).m) hr
  unfold Handler.MetricsJSONHandler
  simp only [issue, hn, hp, hns, hd, hs]
  generalize hdu : deploymentsUpdate deployments
    (namespacesUpdate namespaces (podsUpdate pods (nodesUpdate nodes s.m)).m) = du at hflag
  obtain ⟨m', flag⟩ := du
  simp only at hflag
  subst hflag
  simp only [hs, gaugesAfter, snapshotOf, hdu]

/-! ## The handler on a poll that aborts -/

theorem MetricsJSONHandler_nodes_fail (w : ResponseWriter) (r : Request) (s : World)
    (e : String) (hn : s.cluster.nodes = .error e) :
    Handler.MetricsJSONHandler w r s
      = ⟨httpError w e 500, { s with calls := s.calls ++ [Kind.nodes] }, false⟩ := by
  unfold Handler.MetricsJSONHandler
  simp only [issue, hn]

theorem MetricsJSONHandler_pods_fail (w : ResponseWriter) (r : Request) (s : World)
    (nodes : List Node) (e : String)
    (hn : s.cluster.nodes = .ok nodes) (hp : s.cluster.pods = .error e) :
    Handler.MetricsJSONHandler w r s
      = ⟨httpError w e 500,
          { s with m := nodesUpdate nodes s.m,
                   calls := s.calls ++ [Kind.nodes] ++ [Kind.pods] }, false⟩ := by
  unfold Handler.MetricsJSONHandler
  simp only [issue, hn, hp]

theorem MetricsJSONHandler_namespaces_fail (w : ResponseWriter) (r : Request) (s : World)
    (nodes : List Node) (pods : List Pod) (e : String)
    (hn : s.cluster.nodes = .ok nodes) (hp : s.cluster.pods = .ok pods)
    (hns : s.cluster.namespaces = .error e) :
    Handler.MetricsJSONHandler w r s
      = ⟨httpError w e 500,
          { s with m := (podsUpdate pods (nodesUpdate nodes s.m)).m,
                   calls := s.calls ++ [Kind.nodes] ++ [Kind.pods] ++ [Kind.namespaces] },
          false⟩ := by
  unfold Handler.MetricsJSONHandler
  simp only [issue, hn, hp, hns]

theorem MetricsJSONHandler_deployments_fail (w : ResponseWriter) (r : Request) (s : World)
    (nodes : List Node) (pods : List Pod) (namespaces : List Namespace) (e : String)
    (hn : s.cluster.nodes = .ok nodes) (hp : s.cluster.pods = .ok pods)
    (hns : s.cluster.namespaces = .ok namespaces)
    (hd : s.cluster.deployments = .error e) :
    Handler.MetricsJSONHandler w r s
      = ⟨httpError w e 500,
          { s with m := namespacesUpdate namespaces (podsUpdate pods (nodesUpdate nodes s.m)).m,
                   calls := s.calls ++ [Kind.nodes] ++ [Kind.pods] ++ [Kind.namespaces]
                     ++ [Kind.deployments] },
          false⟩ := by
  unfold Handler.MetricsJSONHandler
  simp only [issue, hn, hp, hns, hd]

theorem MetricsJSONHandler_deployments_panic (w : ResponseWriter) (r : Request) (s : World)
    (nodes : List Node) (pods : List Pod) (namespaces : List Namespace)
    (deployments : List Deployment)
    (hn : s.cluster.nodes = .ok nodes) (hp : s.cluster.pods = .ok pods)
    (hns : s.cluster.namespaces = .ok namespaces)
    (hd : s.cluster.deployments = .ok deployments)
    (hflag : (deploymentsUpdate deployments
      (namespacesUpdate namespaces (podsUpdate pods (nodesUpdate nodes s.m)).m)).2 = true) :
    Handler.MetricsJSONHandler w r s
      = ⟨w,
          { s with m := (deploymentsUpdate deployments
                      (namespacesUpdate namespaces (podsUpdate pods (nodesUpdate nodes s.m)).m)).1,
                   calls := s.calls ++ [Kind.nodes] ++ [Kind.pods] ++ [Kind.namespaces]
                     ++ [Kind.deployments] },
          true⟩ := by
  unfold Handler.MetricsJSONHandler
  simp only [issue, hn, hp, hns, hd]
  generalize deploymentsUpdate deployments
    (namespacesUpdate namespaces (podsUpdate pods (nodesUpdate nodes s.m)).m) = du at hflag
  obtain ⟨m', flag⟩ := du
  simp only at hflag
  subst hflag
  rfl

theorem MetricsJSONHandler_services_fail (w : ResponseWriter) (r : Request) (s : World)
    (nodes : List Node) (pods : List Pod) (namespaces : List Namespace)
    (deployments : List Deployment) (e : String)
    (hn : s.cluster.nodes = .ok nodes) (hp : s.cluster.pods = .ok pods)
    (hns : s.cluster.namespaces = .ok namespaces)
    (hd : s.cluster.deployments = .ok deployments)
    (hs : s.cluster.services = .error e)
    (hflag : (deploymentsUpdate deployments
      (namespacesUpdate namespaces (podsUpdate pods (nodesUpdate nodes s.m)).m)).2 = false) :
    Handler.MetricsJSONHandler w r s
      = ⟨httpError w e 500,
          { s with m := (deploymentsUpdate deployments
                      (namespacesUpdate namespaces (podsUpdate pods (nodesUpdate nodes s.m)).m)).1,
                   calls := s.calls ++ [Kind.nodes] ++ [Kind.pods] ++ [Kind.namespaces]
                     ++ [Kind.deployments] ++ [Kind.services] },
          false⟩ := by
  unfold Handler.MetricsJSONHandler
  simp only [issue, hn, hp, hns, hd]
  generalize deploymentsUpdate deployments
    (namespacesUpdate namespaces (podsUpdate pods (nodesUpdate nodes s.m)).m) = du at hflag
  obtain ⟨m', flag⟩ := du
  simp only at hflag
  subst hflag
  simp only [hs]

/-- Whatever the later listings answer, the node gauges after the handler are those that
the node block computed. -/
theorem MetricsJSONHandler_nodeGauges (w : ResponseWriter) (r : Request) (s : World)
    (nodes : List Node) (hn : s.cluster.nodes = .ok nodes) :
    nodeGauges (Handler.MetricsJSONHandler w r s).s.m = nodeGauges (nodesUpdate nodes s.m) := by
  cases hp : s.cluster.pods with
  | error e => rw [MetricsJSONHandler_pods_fail w r s nodes e hn hp]
  | ok pods =>
    have fp := (podsUpdate_frame pods (nodesUpdate nodes s.m)).1
    cases hns : s.cluster.namespaces with
    | error e => rw [MetricsJSONHandler_namespaces_fail w r s nodes pods e hn hp hns]; exact fp
    | ok namespaces =>
      cases hd : s.cluster.deployments with
      | error e =>
        rw [MetricsJSONHandler_deployments_fail w r s nodes pods namespaces e hn hp hns hd]
        exact fp
      | ok deployments =>
        have fd := (deploymentsUpdate_frame deployments
          (namespacesUpdate namespaces (podsUpdate pods (nodesUpdate nodes s.m)).m)).1
        cases hflag : (deploymentsUpdate deployments
            (namespacesUpdate namespaces (podsUpdate pods (nodesUpdate nodes s.m)).m)).2 with
        | true =>
          rw [MetricsJSONHandler_deployments_panic w r s nodes pods namespaces deployments
            hn hp hns hd hflag]
          exact fd.trans fp
        | false =>
          cases hs : s.cluster.services with
          | error e =>
            rw [MetricsJSONHandler_services_fail w r s nodes pods namespaces deployments e
              hn hp hns hd hs hflag]
            exact fd.trans fp
          | ok services =>
            unfold Handler.MetricsJSONHandler
            simp only [issue, hn, hp, hns, hd]
            generalize hdu : deploymentsUpdate deployments
              (namespacesUpdate namespaces (podsUpdate pods (nodesUpdate nodes s.m)).m) = du
              at hflag fd
            obtain ⟨m', flag⟩ := du
            simp only at hflag fd
            subst hflag
            simp only [hs]
            exact fd.trans fp

/-- A poll whose first failing listing is the one of kind `k`, with error text `e`, ends
with `http.Error(w, e, 500)` after the listing calls up to `k`, without panicking. -/
theorem MetricsJSONHandler_abort (w : ResponseWriter) (r : Request) (s : World)
    (k : Kind) (e : String) (hr : s.cluster.replicasSet)
    (hf : s.cluster.firstFailure = some (k, e)) :
    (Handler.MetricsJSONHandler w r s).w = httpError w e 500
    ∧ (Handler.MetricsJSONHandler w r s).s.calls = s.calls ++ k.upTo
    ∧ (Handler.MetricsJSONHandler w r s).panicked = false := by
  cases hn : s.cluster.nodes with
  | error e1 =>
    simp only [Cluster.firstFailure, hn, Option.some.injEq, Prod.mk.injEq] at hf
    obtain ⟨rfl, rfl⟩ := hf
    rw [MetricsJSONHandler_nodes_fail w r s e1 hn]
    exact ⟨rfl, rfl, rfl⟩
  | ok nodes =>
    cases hp : s.cluster.pods with
    | error e1 =>
      simp only [Cluster.firstFailure, hn, hp, Option.some.injEq, Prod.mk.injEq] at hf
      obtain ⟨rfl, rfl⟩ := hf
      rw [MetricsJSONHandler_pods_fail w r s nodes e1 hn hp]
      exact ⟨rfl, by simp [Kind.upTo], rfl⟩
    | ok pods =>
      cases hns : s.cluster.namespaces with
      | error e1 =>
        simp only [Cluster.firstFailure, hn, hp, hns, Option.some.injEq, Prod.mk.injEq] at hf
        obtain ⟨rfl, rfl⟩ := hf
        rw [MetricsJSONHandler_namespaces_fail w r s nodes pods e1 hn hp hns]
        exact ⟨rfl, by simp [Kind.upTo], rfl⟩
      | ok namespaces =>
        cases hd : s.cluster.deployments with
        | error e1 =>
          simp only [Cluster.firstFailure, hn, hp, hns, hd, Option.some.injEq,
            Prod.mk.injEq] at hf
          obtain ⟨rfl, rfl⟩ := hf
          rw [MetricsJSONHandler_deployments_fail w r s nodes pods namespaces e1 hn hp hns hd]
          exact ⟨rfl, by simp [Kind.upTo], rfl⟩
        | ok deployments =>
          have hflag := deploymentsUpdate_no_panic deployments
            (namespacesUpdate namespaces (podsUpdate pods (nodesUpdate nodes s.m)).m)
            (hr deployments hd)
          cases hs : s.cluster.services with
          | error e1 =>
            simp only [Cluster.firstFailure, hn, hp, hns, hd, hs, Option.some.injEq,
              Prod.mk.injEq] at hf
            obtain ⟨rfl, rfl⟩ := hf
            rw [MetricsJSONHandler_services_fail w r s nodes pods namespaces deployments e1
              hn hp hns hd hs hflag]
            exact ⟨rfl, by simp [Kind.upTo], rfl⟩
          | ok services =>
            simp [Cluster.firstFailure, hn, hp, hns, hd, hs] at hf

/-- The five listings succeed exactly when none of them is the first to fail. -/
theorem allSucceed_iff_firstFailure_none (c : Cluster) :
    c.allSucceed = true ↔ c.firstFailure = none := by
  obtain ⟨n, p, ns, d, sv⟩ := c
  cases n <;> cases p <;> cases ns <;> cases d <;> cases sv <;>
    simp [Cluster.allSucceed, Cluster.firstFailure, Except.toBool]

/-- When the five listings succeed, each of them has a list of items. -/
theorem allSucceed_lists (c : Cluster) (h : c.allSucceed = true) :
    ∃ nodes pods namespaces deployments services,
      c.nodes = .ok nodes ∧ c.pods = .ok pods ∧ c.namespaces = .ok namespaces
      ∧ c.deployments = .ok deployments ∧ c.services = .ok services := by
  obtain ⟨n, p, ns, d, sv⟩ := c
  cases n <;> cases p <;> cases ns <;> cases d <;> cases sv <;>
    simp_all [Cluster.allSucceed, Except.toBool]

/-- After a poll whose five listings succeed, each group of gauges holds what the block
of its listing computed. -/
theorem MetricsJSONHandler_success_groups (w : ResponseWriter) (r : Request) (s : World)
    (nodes : List Node) (pods : List Pod) (namespaces : List Namespace)
    (deployments : List Deployment) (services : List Service)
    (hn : s.cluster.nodes = .ok nodes) (hp : s.cluster.pods = .ok pods)
    (hns : s.cluster.namespaces = .ok namespaces)
    (hd : s.cluster.deployments = .ok deployments)
    (hs : s.cluster.services = .ok services)
    (hr : ∀ d ∈ deployments, d.Replicas ≠ none) :
    nodeGauges (Handler.MetricsJSONHandler w r s).s.m = nodeGauges (nodesUpdate nodes s.m)
    ∧ podGauges (Handler.MetricsJSONHandler w r s).s.m
        = podGauges (podsUpdate pods (nodesUpdate nodes s.m)).m
    ∧ namespaceGauges (Handler.MetricsJSONHandler w r s).s.m
        = namespaceGauges (namespacesUpdate namespaces (podsUpdate pods (nodesUpdate nodes s.m)).m)
    ∧ deploymentGauges (Handler.MetricsJSONHandler w r s).s.m
        = deploymentGauges (deploymentsUpdate deployments
            (namespacesUpdate namespaces (podsUpdate pods (nodesUpdate nodes s.m)).m)).1 := by
  rw [MetricsJSONHandler_success w r s nodes pods namespaces deployments services
    hn hp hns hd hs hr]
  simp [gaugesAfter]

/-- The five ways in which a listing is the first to fail. -/
theorem firstFailure_cases (c : Cluster) (k : Kind) (e : String)
    (hf : c.firstFailure = some (k, e)) :
    (k = Kind.nodes ∧ c.nodes = .error e)
    ∨ (k = Kind.pods ∧ ∃ nodes, c.nodes = .ok nodes ∧ c.pods = .error e)
    ∨ (k = Kind.namespaces ∧ ∃ nodes pods, c.nodes = .ok nodes ∧ c.pods = .ok pods
        ∧ c.namespaces = .error e)
    ∨ (k = Kind.deployments ∧ ∃ nodes pods nss, c.nodes = .ok nodes ∧ c.pods = .ok pods
        ∧ c.namespaces = .ok nss ∧ c.deployments = .error e)
    ∨ (k = Kind.services ∧ ∃ nodes pods nss ds, c.nodes = .ok nodes ∧ c.pods = .ok pods
        ∧ c.namespaces = .ok nss ∧ c.deployments = .ok ds ∧ c.services = .error e) := by
  obtain ⟨n, p, ns, d, sv⟩ := c
  cases n <;> cases p <;> cases ns <;> cases d <;> cases sv <;>
    simp only [Cluster.firstFailure, Option.some.injEq, Prod.mk.injEq, reduceCtorEq] at hf <;>
    obtain ⟨rfl, rfl⟩ := hf <;> simp

/-- The status line and the body that a writer gains from a first `Write`. -/
theorem write_fresh (w : ResponseWriter) (c : Chunk) (hw : w.wroteHeader = false) :
    (w.Write c).Code = 200 ∧ (w.Write c).Body = w.Body ++ [c] := by
  simp [ResponseWriter.Write, ResponseWriter.WriteHeader, hw]

/-! ## `http.Error` and the bearer check -/

theorem httpError_fresh (w : ResponseWriter) (e : String) (code : Nat)
    (hw : w.wroteHeader = false) :
    (httpError w e code).Code = code
    ∧ (httpError w e code).Body = w.Body ++ [Chunk.text (e ++ "\n")]
    ∧ List.lookup "Content-Type" (httpError w e code).HeaderMap
        = some "text/plain; charset=utf-8" := by
  refine ⟨?_, ?_, ?_⟩
  · simp [httpError, ResponseWriter.Write, ResponseWriter.WriteHeader,
      ResponseWriter.SetHeader, ResponseWriter.DelHeader, hw]
  · simp [httpError, ResponseWriter.Write, ResponseWriter.WriteHeader,
      ResponseWriter.SetHeader, ResponseWriter.DelHeader, hw]
  · have hne : ("Content-Type" : String) ≠ "X-Content-Type-Options" := by decide
    simp only [httpError, ResponseWriter.Write, ResponseWriter.WriteHeader,
      ResponseWriter.SetHeader, ResponseWriter.DelHeader, hw]
    simp only [Bool.false_eq_true, if_false, if_true]
    rw [lookup_mapModify_other _ _ _ _ _ hne, lookup_mapModify_self]

/-- Without a separator there is one piece, the whole text. -/
theorem splitChars_of_not_mem (sep : Char) (cs : List Char) (h : sep ∉ cs) :
    splitChars sep cs = [cs] := by
  induction cs with
  | nil => rfl
  | cons c cs ih =>
    rw [List.mem_cons, not_or] at h
    have hc : ¬ c = sep := fun e => h.1 e.symm
    simp [splitChars, hc, ih h.2]

theorem stringsSplitSpace_bearer (token : String) (h : ' ' ∉ token.data) :
    stringsSplitSpace ("Bearer " ++ token) = ["Bearer", token] := by
  have hd : ("Bearer " ++ token).data
      = 'B' :: 'e' :: 'a' :: 'r' :: 'e' :: 'r' :: ' ' :: token.data := by
    rw [String.data_append]; rfl
  simp only [stringsSplitSpace, hd]
  have hB : ¬ 'B' = ' ' := by decide
  have he : ¬ 'e' = ' ' := by decide
  have ha : ¬ 'a' = ' ' := by decide
  have hr : ¬ 'r' = ' ' := by decide
  simp only [splitChars, hB, he, ha, hr, if_false, if_true, splitChars_of_not_mem ' ' _ h]
  rfl

theorem authRejects_bearer (token : String) (h : ' ' ∉ token.data) :
    authRejects token ("Bearer " ++ token) = false := by
  have hl : stringsToLower "Bearer" = "bearer" := by decide
  simp [authRejects, stringsSplitSpace_bearer token h, hl]

theorem headerGet_absent (h : Header) (key : String) (habs : List.lookup key h = none) :
    h.Get key = "" := by
  simp [Header.Get, habs]

theorem authRejects_of (expectedToken auth : String)
    (h : (stringsSplitSpace auth).length ≠ 2
      ∨ stringsToLower ((stringsSplitSpace auth).getD 0 "") ≠ "bearer"
      ∨ (stringsSplitSpace auth).getD 1 "" ≠ expectedToken) :
    authRejects expectedToken auth = true := by
  simp only [authRejects, Bool.or_eq_true, bne_iff_ne, ne_eq]
  tauto

/-! ## The phase tally depends on the pod listing only -/

theorem podLoop_podPhases (pods : List Pod) (l : PodLoop) :
    (pods.foldl podStep l).podPhases
      = pods.foldl (fun acc p => mapModify p.Phase (fun x => x + 1) 0 acc) l.podPhases :=
  foldl_proj_comm podStep _ PodLoop.podPhases podStep_podPhases pods l

theorem podsUpdate_podPhases_eq (pods : List Pod) (m : PrometheusMetrics) :
    (podsUpdate pods m).podPhases
      = pods.foldl (fun acc p => mapModify p.Phase (fun x => x + 1) 0 acc) [] := by
  rw [podsUpdate_podPhases, podLoop_podPhases]

/-- The body and status of a fresh response after a poll whose five listings succeed. -/
theorem MetricsJSONHandler_success_response (w : ResponseWriter) (r : Request) (s : World)
    (nodes : List Node) (pods : List Pod) (namespaces : List Namespace)
    (deployments : List Deployment) (services : List Service)
    (hn : s.cluster.nodes = .ok nodes) (hp : s.cluster.pods = .ok pods)
    (hns : s.cluster.namespaces = .ok namespaces)
    (hd : s.cluster.deployments = .ok deployments)
    (hs : s.cluster.services = .ok services)
    (hr : ∀ d ∈ deployments, d.Replicas ≠ none) (hw : w.wroteHeader = false) :
    (Handler.MetricsJSONHandler w r s).w.Code = 200
    ∧ (Handler.MetricsJSONHandler w r s).w.Body = w.Body ++ [Chunk.jsonMetrics
        (snapshotOf nodes pods namespaces deployments services s.m s.now)]
    ∧ List.lookup "Content-Type" (Handler.MetricsJSONHandler w r s).w.HeaderMap
        = some "application/json"
    ∧ (Handler.MetricsJSONHandler w r s).panicked = false := by
  rw [MetricsJSONHandler_success w r s nodes pods namespaces deployments services
    hn hp hns hd hs hr]
  have hw2 : (w.SetHeader "Content-Type" "application/json").wroteHeader = false := hw
  have hW := write_fresh (w.SetHeader "Content-Type" "application/json")
    (Chunk.jsonMetrics (snapshotOf nodes pods namespaces deployments services s.m s.now)) hw2
  refine ⟨hW.1, hW.2, ?_, rfl⟩
  simp only [ResponseWriter.Write, ResponseWriter.WriteHeader, ResponseWriter.SetHeader, hw,
    Bool.false_eq_true, if_false]
  exact lookup_mapModify_self _ _ _ _

/-! ## The scalar gauges -/

theorem nodesUpdate_NodeCount (nodes : List Node) (m : PrometheusMetrics) :
    (nodesUpdate nodes m).NodeCount = (nodes.length : ℚ) :=
  foldl_proj_eq nodeStep PrometheusMetrics.NodeCount (fun _ _ => rfl) nodes _

theorem podStep_PodCount (l : PodLoop) (p : Pod) : (podStep l p).m.PodCount = l.m.PodCount := by
  rw [podStep_m]
  exact foldl_proj_eq (containerStatusStep p) PrometheusMetrics.PodCount (fun _ _ => rfl) _ _

theorem podsUpdate_PodCount (pods : List Pod) (m : PrometheusMetrics) :
    (podsUpdate pods m).m.PodCount = (pods.length : ℚ) := by
  show (pods.foldl podStep _).m.PodCount = _
  exact foldl_proj_eq podStep (fun l : PodLoop => l.m.PodCount) podStep_PodCount pods _

theorem deploymentsLoop_DeploymentCount (ds : List Deployment) (m : PrometheusMetrics) :
    (deploymentsLoop ds m).1.DeploymentCount = m.DeploymentCount := by
  induction ds generalizing m with
  | nil => rfl
  | cons d ds ih =>
    cases hr : d.Replicas with
    | none => simp [deploymentsLoop, hr]
    | some r =>
      simp only [deploymentsLoop, hr]
      exact ih _

theorem deploymentsUpdate_DeploymentCount (ds : List Deployment) (m : PrometheusMetrics) :
    (deploymentsUpdate ds m).1.DeploymentCount = (ds.length : ℚ) :=
  deploymentsLoop_DeploymentCount ds _

/-! ## The deployment loop on a nil replica field -/

theorem deploymentsLoop_panic (ds : List Deployment) (m : PrometheusMetrics)
    (h : ∃ d ∈ ds, d.Replicas = none) : (deploymentsLoop ds m).2 = true := by
  induction ds generalizing m with
  | nil => obtain ⟨d, hd, -⟩ := h; cases hd
  | cons d ds ih =>
    cases hr : d.Replicas with
    | none => simp [deploymentsLoop, hr]
    | some r =>
      simp only [deploymentsLoop, hr]
      apply ih
      obtain ⟨d', hd', hn'⟩ := h
      rcases List.mem_cons.1 hd' with e | e
      · subst e; rw [hr] at hn'; cases hn'
      · exact ⟨d', e, hn'⟩

/-- The series of the desired-replicas family after the loop: those it held before, one
per deployment that precedes the first deployment without a replica field, and the one
that `WithLabelValues` creates for that deployment before the dereference panics. -/
theorem mem_labels_deploymentsLoop (ds : List Deployment) (m : PrometheusMetrics)
    (lvs : List String) :
    lvs ∈ (deploymentsLoop ds m).1.DeploymentDesired.labels
      ↔ lvs ∈ m.DeploymentDesired.labels
        ∨ (∃ d ∈ ds.takeWhile (fun d => d.Replicas.isSome), lvs = [d.Namespace, d.Name])
        ∨ ∃ d, (ds.dropWhile (fun d => d.Replicas.isSome)).head? = some d
            ∧ lvs = [d.Namespace, d.Name] := by
  induction ds generalizing m with
  | nil => simp [deploymentsLoop]
  | cons d ds ih =>
    cases hr : d.Replicas with
    | none =>
      simp only [deploymentsLoop, hr, List.takeWhile, List.dropWhile, Option.isSome_none,
        GaugeVec.labels, GaugeVec.WithLabelValues, mem_mapKeys_mapModify, List.not_mem_nil,
        false_and, exists_false, false_or, List.head?_cons, Option.some.injEq,
        Bool.false_eq_true]
      constructor
      · rintro (h | h)
        · exact Or.inr ⟨d, rfl, h⟩
        · exact Or.inl h
      · rintro (h | ⟨d2, rfl, h⟩)
        · exact Or.inr h
        · exact Or.inl h
    | some r =>
      simp only [deploymentsLoop, hr, List.takeWhile, List.dropWhile, Option.isSome_some]
      rw [ih]
      simp only [GaugeVec.labels, GaugeVec.Set, mem_mapKeys_mapModify, List.mem_cons,
        exists_eq_or_imp]
      constructor
      · rintro ((h | h) | h | h)
        · exact Or.inr (Or.inl (Or.inl h))
        · exact Or.inl h
        · exact Or.inr (Or.inl (Or.inr h))
        · exact Or.inr (Or.inr h)
      · rintro (h | (h | h) | h)
        · exact Or.inl (Or.inr h)
        · exact Or.inl (Or.inl h)
        · exact Or.inr (Or.inl h)
        · exact Or.inr (Or.inr h)

theorem mem_labels_deploymentsUpdate (ds : List Deployment) (m : PrometheusMetrics)
    (lvs : List String) :
    lvs ∈ (deploymentsUpdate ds m).1.DeploymentDesired.labels
      ↔ (∃ d ∈ ds.takeWhile (fun d => d.Replicas.isSome), lvs = [d.Namespace, d.Name])
        ∨ ∃ d, (ds.dropWhile (fun d => d.Replicas.isSome)).head? = some d
            ∧ lvs = [d.Namespace, d.Name] := by
  unfold deploymentsUpdate
  rw [mem_labels_deploymentsLoop]
  simp [GaugeVec.Reset, GaugeVec.labels, mapKeys]

/-- The series of the available-replicas family after the loop: those it held before and
one per deployment that precedes the first deployment without a replica field. -/
theorem mem_labels_deploymentsLoop_available (ds : List Deployment) (m : PrometheusMetrics)
    (lvs : List String) :
    lvs ∈ (deploymentsLoop ds m).1.DeploymentAvailable.labels
      ↔ lvs ∈ m.DeploymentAvailable.labels
        ∨ ∃ d ∈ ds.takeWhile (fun d => d.Replicas.isSome), lvs = [d.Namespace, d.Name] := by
  induction ds generalizing m with
  | nil => simp [deploymentsLoop]
  | cons d ds ih =>
    cases hr : d.Replicas with
    | none => simp [deploymentsLoop, hr, List.takeWhile]
    | some r =>
      simp only [deploymentsLoop, hr, List.takeWhile, Option.isSome_some]
      rw [ih]
      simp only [GaugeVec.labels, GaugeVec.Set, mem_mapKeys_mapModify, List.mem_cons,
        exists_eq_or_imp]
      tauto

/-! ## Keys and values of the local maps of the pod loop -/

theorem mapKeys_mapModify {κ ν : Type} [DecidableEq κ] (k : κ) (f : ν → ν) (zero : ν)
    (m : List (κ × ν)) :
    mapKeys (mapModify k f zero m) = if k ∈ mapKeys m then mapKeys m else mapKeys m ++ [k] := by
  induction m with
  | nil => simp [mapModify, mapKeys]
  | cons kv rest ih =>
    obtain ⟨k', v'⟩ := kv
    by_cases h : k' = k
    · subst h; simp [mapModify, mapKeys]
    · have hk : ¬ k = k' := fun e => h e.symm
      simp only [mapKeys] at ih
      simp only [mapModify, h, if_false, mapKeys, List.map_cons, ih, List.mem_cons, hk, false_or]
      split <;> simp

theorem nodup_mapKeys_mapModify {κ ν : Type} [DecidableEq κ] (k : κ) (f : ν → ν) (zero : ν)
    (m : List (κ × ν)) (h : (mapKeys m).Nodup) : (mapKeys (mapModify k f zero m)).Nodup := by
  rw [mapKeys_mapModify]
  split
  · exact h
  · rename_i hk
    rw [List.nodup_append]
    refine ⟨h, List.nodup_singleton k, ?_⟩
    intro a ha hb
    rw [List.mem_singleton] at hb
    subst hb
    exact hk ha

theorem lookup_eq_none_of_not_mem {κ ν : Type} [DecidableEq κ] [BEq κ] [LawfulBEq κ] (k : κ)
    (m : List (κ × ν)) (h : k ∉ mapKeys m) : List.lookup k m = none := by
  induction m with
  | nil => rfl
  | cons kv rest ih =>
    obtain ⟨k', v'⟩ := kv
    simp only [mapKeys, List.map_cons, List.mem_cons, not_or] at h
    have hk : (k == k') = false := by simpa using h.1
    simp only [List.lookup, hk]
    exact ih h.2

theorem lookup_isSome_of_mem {κ ν : Type} [DecidableEq κ] [BEq κ] [LawfulBEq κ] (k : κ)
    (m : List (κ × ν)) (h : k ∈ mapKeys m) : ∃ v, List.lookup k m = some v ∧ (k, v) ∈ m := by
  induction m with
  | nil => cases h
  | cons kv rest ih =>
    obtain ⟨k', v'⟩ := kv
    by_cases hk : k = k'
    · subst hk
      exact ⟨v', by simp [List.lookup], List.mem_cons_self _ _⟩
    · simp only [mapKeys, List.map_cons, List.mem_cons, hk, false_or] at h
      obtain ⟨v, hv, hmem⟩ := ih h
      have hk2 : (k == k') = false := by simpa using hk
      exact ⟨v, by simp only [List.lookup, hk2]; exact hv, List.mem_cons_of_mem _ hmem⟩

theorem accStep_keys (quantity : Container → Option ℚ) (ns k : String)
    (acc : List (String × ℚ)) (c : Container) :
    k ∈ mapKeys (accStep quantity ns acc c)
      ↔ k ∈ mapKeys acc ∨ (k = ns ∧ (quantity c).isSome = true) := by
  unfold accStep
  cases hq : quantity c with
  | none => simp
  | some v => simp only [addTo, mem_mapKeys_mapModify, Option.isSome_some, and_true]; tauto

theorem accStep_nodup (quantity : Container → Option ℚ) (ns : String)
    (acc : List (String × ℚ)) (c : Container) (h : (mapKeys acc).Nodup) :
    (mapKeys (accStep quantity ns acc c)).Nodup := by
  unfold accStep
  cases hq : quantity c with
  | none => exact h
  | some v => exact nodup_mapKeys_mapModify _ _ _ _ h

theorem accContainers_total (quantity : Container → Option ℚ) (ns k : String)
    (cs : List Container) (acc : List (String × ℚ)) :
    (List.lookup k (cs.foldl (accStep quantity ns) acc)).getD 0
      = if k = ns then (cs.filterMap quantity).foldl float64Add ((List.lookup k acc).getD 0)
        else (List.lookup k acc).getD 0 := by
  induction cs generalizing acc with
  | nil => simp
  | cons c cs ih =>
    rw [List.foldl_cons, ih]
    unfold accStep
    cases hq : quantity c with
    | none => simp [List.filterMap_cons, hq]
    | some v =>
      by_cases hk : k = ns
      · subst hk
        simp [List.filterMap_cons, hq, addTo, lookup_mapModify_self]
      · simp [hk, addTo, lookup_mapModify_other _ _ _ _ _ hk]

theorem accContainers_keys (quantity : Container → Option ℚ) (ns k : String)
    (cs : List Container) (acc : List (String × ℚ)) :
    k ∈ mapKeys (cs.foldl (accStep quantity ns) acc)
      ↔ k ∈ mapKeys acc ∨ (k = ns ∧ ∃ c ∈ cs, (quantity c).isSome = true) := by
  induction cs generalizing acc with
  | nil => simp
  | cons c cs ih =>
    rw [List.foldl_cons, ih, accStep_keys]
    simp only [List.mem_cons, exists_eq_or_imp]
    tauto

theorem accContainers_nodup (quantity : Container → Option ℚ) (ns : String)
    (cs : List Container) (acc : List (String × ℚ)) (h : (mapKeys acc).Nodup) :
    (mapKeys (cs.foldl (accStep quantity ns) acc)).Nodup := by
  induction cs generalizing acc with
  | nil => exact h
  | cons c cs ih => exact ih _ (accStep_nodup quantity ns acc c h)

theorem accPods_total (quantity : Container → Option ℚ) (k : String) (pods : List Pod)
    (acc : List (String × ℚ)) :
    (List.lookup k (accPods quantity pods acc)).getD 0
      = (contributions quantity k pods).foldl float64Add ((List.lookup k acc).getD 0) := by
  induction pods generalizing acc with
  | nil => simp [accPods, contributions]
  | cons p ps ih =>
    have ih2 := ih (p.Containers.foldl (accStep quantity p.Namespace) acc)
    simp only [accPods, List.foldl_cons] at ih2 ⊢
    rw [ih2, accContainers_total, contributions, List.foldl_append]
    by_cases hk : k = p.Namespace
    · subst hk
      simp
    · have hk2 : ¬ p.Namespace = k := fun e => hk e.symm
      simp [hk, hk2]

theorem accPods_keys (quantity : Container → Option ℚ) (k : String) (pods : List Pod)
    (acc : List (String × ℚ)) :
    k ∈ mapKeys (accPods quantity pods acc) ↔ k ∈ mapKeys acc ∨ declaredIn quantity k pods := by
  induction pods generalizing acc with
  | nil => simp [accPods, declaredIn]
  | cons p ps ih =>
    have ih2 := ih (p.Containers.foldl (accStep quantity p.Namespace) acc)
    simp only [accPods, List.foldl_cons] at ih2 ⊢
    rw [ih2, accContainers_keys]
    simp only [declaredIn, List.mem_cons, exists_eq_or_imp]
    constructor
    · rintro ((h | ⟨rfl, h⟩) | h)
      · exact Or.inl h
      · exact Or.inr (Or.inl ⟨rfl, h⟩)
      · exact Or.inr (Or.inr h)
    · rintro (h | ⟨e, h⟩ | h)
      · exact Or.inl (Or.inl h)
      · exact Or.inl (Or.inr ⟨e.symm, h⟩)
      · exact Or.inr h

theorem accPods_nodup (quantity : Container → Option ℚ) (pods : List Pod)
    (acc : List (String × ℚ)) (h : (mapKeys acc).Nodup) :
    (mapKeys (accPods quantity pods acc)).Nodup := by
  induction pods generalizing acc with
  | nil => exact h
  | cons p ps ih =>
    simp only [accPods, List.foldl_cons]
    exact ih _ (accContainers_nodup quantity p.Namespace p.Containers acc h)

/-- The value that the series of the first deployment without a replica field holds when
the loop panics: the zero of a new series, when no earlier deployment of the listing has
the same namespace and name. -/
theorem deploymentsLoop_nil_value (ds : List Deployment) (m : PrometheusMetrics)
    (d0 : Deployment)
    (h0 : (ds.dropWhile (fun d => d.Replicas.isSome)).head? = some d0)
    (hfresh : [d0.Namespace, d0.Name] ∉ m.DeploymentDesired.labels)
    (hnot : ∀ d ∈ ds.takeWhile (fun d => d.Replicas.isSome),
      [d.Namespace, d.Name] ≠ [d0.Namespace, d0.Name]) :
    (deploymentsLoop ds m).1.DeploymentDesired.value? [d0.Namespace, d0.Name] = some 0 := by
  induction ds generalizing m with
  | nil => simp at h0
  | cons d ds ih =>
    cases hr : d.Replicas with
    | none =>
      simp only [List.dropWhile, hr, Option.isSome_none, List.head?_cons,
        Option.some.injEq] at h0
      subst h0
      simp only [deploymentsLoop, hr, GaugeVec.value?, GaugeVec.WithLabelValues]
      rw [lookup_mapModify_self, lookup_eq_none_of_not_mem _ _ hfresh]
      rfl
    | some r =>
      simp only [List.dropWhile, hr, Option.isSome_some] at h0
      simp only [List.takeWhile, hr, Option.isSome_some, List.mem_cons, forall_eq_or_imp]
        at hnot
      simp only [deploymentsLoop, hr]
      apply ih _ h0 _ hnot.2
      simp only [GaugeVec.labels, GaugeVec.Set, mem_mapKeys_mapModify, not_or]
      exact ⟨fun e => hnot.1 e.symm, hfresh⟩

/-! ## The four local maps of the pod loop and the four namespace families -/

theorem containerStep_cpuReq (p : Pod) (l : PodLoop) (c : Container) :
    (containerStep p l c).cpuReq = accStep cpuRequestOf p.Namespace l.cpuReq c := by
  unfold containerStep accStep cpuRequestOf
  cases List.lookup ResourceCPU c.Requests <;> cases List.lookup ResourceMemory c.Requests <;>
    cases List.lookup ResourceCPU c.Limits <;> cases List.lookup ResourceMemory c.Limits <;> rfl

theorem podStep_cpuReq (l : PodLoop) (p : Pod) :
    (podStep l p).cpuReq = p.Containers.foldl (accStep cpuRequestOf p.Namespace) l.cpuReq := by
  unfold podStep
  exact foldl_proj_comm (containerStep p) _ PodLoop.cpuReq (containerStep_cpuReq p) _ _

theorem podLoop_cpuReq (pods : List Pod) (l : PodLoop) :
    (pods.foldl podStep l).cpuReq = accPods cpuRequestOf pods l.cpuReq :=
  foldl_proj_comm podStep _ PodLoop.cpuReq podStep_cpuReq pods l

theorem podsUpdate_CPURequests (pods : List Pod) (m : PrometheusMetrics) :
    (podsUpdate pods m).m.CPURequests = setAll (accPods cpuRequestOf pods []) [] := by
  show setAll (pods.foldl podStep _).cpuReq [] = _
  rw [podLoop_cpuReq]

theorem containerStep_memReq (p : Pod) (l : PodLoop) (c : Container) :
    (containerStep p l c).memReq = accStep memRequestOf p.Namespace l.memReq c := by
  unfold containerStep accStep memRequestOf
  cases List.lookup ResourceCPU c.Requests <;> cases List.lookup ResourceMemory c.Requests <;>
    cases List.lookup ResourceCPU c.Limits <;> cases List.lookup ResourceMemory c.Limits <;> rfl

theorem podStep_memReq (l : PodLoop) (p : Pod) :
    (podStep l p).memReq = p.Containers.foldl (accStep memRequestOf p.Namespace) l.memReq := by
  unfold podStep
  exact foldl_proj_comm (containerStep p) _ PodLoop.memReq (containerStep_memReq p) _ _

theorem podLoop_memReq (pods : List Pod) (l : PodLoop) :
    (pods.foldl podStep l).memReq = accPods memRequestOf pods l.memReq :=
  foldl_proj_comm podStep _ PodLoop.memReq podStep_memReq pods l

theorem podsUpdate_MemoryRequests (pods : List Pod) (m : PrometheusMetrics) :
    (podsUpdate pods m).m.MemoryRequests = setAll (accPods memRequestOf pods []) [] := by
  show setAll (pods.foldl podStep _).memReq [] = _
  rw [podLoop_memReq]

theorem containerStep_cpuLim (p : Pod) (l : PodLoop) (c : Container) :
    (containerStep p l c).cpuLim = accStep cpuLimitOf p.Namespace l.cpuLim c := by
  unfold containerStep accStep cpuLimitOf
  cases List.lookup ResourceCPU c.Requests <;> cases List.lookup ResourceMemory c.Requests <;>
    cases List.lookup ResourceCPU c.Limits <;> cases List.lookup ResourceMemory c.Limits <;> rfl

theorem podStep_cpuLim (l : PodLoop) (p : Pod) :
    (podStep l p).cpuLim = p.Containers.foldl (accStep cpuLimitOf p.Namespace) l.cpuLim := by
  unfold podStep
  exact foldl_proj_comm (containerStep p) _ PodLoop.cpuLim (containerStep_cpuLim p) _ _

theorem podLoop_cpuLim (pods : List Pod) (l : PodLoop) :
    (pods.foldl podStep l).cpuLim = accPods cpuLimitOf pods l.cpuLim :=
  foldl_proj_comm podStep _ PodLoop.cpuLim podStep_cpuLim pods l

theorem podsUpdate_CPULimits (pods : List Pod) (m : PrometheusMetrics) :
    (podsUpdate pods m).m.CPULimits = setAll (accPods cpuLimitOf pods []) [] := by
  show setAll (pods.foldl podStep _).cpuLim [] = _
  rw [podLoop_cpuLim]

theorem containerStep_memLim (p : Pod) (l : PodLoop) (c : Container) :
    (containerStep p l c).memLim = accStep memLimitOf p.Namespace l.memLim c := by
  unfold containerStep accStep memLimitOf
  cases List.lookup ResourceCPU c.Requests <;> cases List.lookup ResourceMemory c.Requests <;>
    cases List.lookup ResourceCPU c.Limits <;> cases List.lookup ResourceMemory c.Limits <;> rfl

theorem podStep_memLim (l : PodLoop) (p : Pod) :
    (podStep l p).memLim = p.Containers.foldl (accStep memLimitOf p.Namespace) l.memLim := by
  unfold podStep
  exact foldl_proj_comm (containerStep p) _ PodLoop.memLim (containerStep_memLim p) _ _

theorem podLoop_memLim (pods : List Pod) (l : PodLoop) :
    (pods.foldl podStep l).memLim = accPods memLimitOf pods l.memLim :=
  foldl_proj_comm podStep _ PodLoop.memLim podStep_memLim pods l

theorem podsUpdate_MemoryLimits (pods : List Pod) (m : PrometheusMetrics) :
    (podsUpdate pods m).m.MemoryLimits = setAll (accPods memLimitOf pods []) [] := by
  show setAll (pods.foldl podStep _).memLim [] = _
  rw [podLoop_memLim]

/-- What a family holds after `Reset` and the loop of `Set` calls over a local map whose
keys are distinct. -/
theorem setAll_spec (acc : List (String × ℚ)) (hnd : (mapKeys acc).Nodup) (k : String) :
    List.lookup [k] (setAll acc []) = List.lookup k acc
    ∧ ([k] ∈ mapKeys (setAll acc []) ↔ k ∈ mapKeys acc) := by
  have hkeys : ∀ lvs : List String,
      lvs ∈ mapKeys (setAll acc []) ↔ lvs ∈ acc.map (fun kv => [kv.1]) := by
    intro lvs
    unfold setAll GaugeVec.Set
    rw [mem_mapKeys_foldl_mapModify (fun kv : String × ℚ => [kv.1]) (fun kv _ => kv.2)]
    simp [mapKeys]
  have hmem : [k] ∈ acc.map (fun kv : String × ℚ => [kv.1]) ↔ k ∈ mapKeys acc := by
    simp [mapKeys]
  refine ⟨?_, (hkeys [k]).trans hmem⟩
  by_cases hk : k ∈ mapKeys acc
  · obtain ⟨v, hv, hin⟩ := lookup_isSome_of_mem k acc hk
    have hnd2 : (acc.map (fun kv : String × ℚ => [kv.1])).Nodup := by
      have e : acc.map (fun kv : String × ℚ => [kv.1]) = (mapKeys acc).map (fun x => [x]) := by
        simp [mapKeys]
      rw [e]
      exact hnd.map (fun a b hab => by simpa using hab)
    have h := lookup_foldl_set_of_nodup (fun kv : String × ℚ => [kv.1]) (fun kv => kv.2) 0
      acc [] hnd2 (k, v) hin
    rw [hv]
    exact h
  · have hk2 : [k] ∉ acc.map (fun kv : String × ℚ => [kv.1]) := fun h => hk (hmem.1 h)
    rw [lookup_eq_none_of_not_mem k acc hk]
    have h := lookup_foldl_mapModify_other (fun kv : String × ℚ => [kv.1])
      (fun kv _ => kv.2) 0 acc [] [k] hk2
    exact h

theorem setAll_labels (acc : List (String × ℚ)) (lvs : List String) :
    lvs ∈ mapKeys (setAll acc []) ↔ ∃ k ∈ mapKeys acc, lvs = [k] := by
  unfold setAll GaugeVec.Set
  rw [mem_mapKeys_foldl_mapModify (fun kv : String × ℚ => [kv.1]) (fun kv _ => kv.2)]
  simp only [mapKeys, List.map_nil, List.not_mem_nil, false_or, List.mem_map]
  constructor
  · rintro ⟨kv, hkv, rfl⟩; exact ⟨kv.1, ⟨kv, hkv, rfl⟩, rfl⟩
  · rintro ⟨k, ⟨kv, hkv, rfl⟩, rfl⟩; exact ⟨kv, hkv, rfl⟩

theorem setAll_nodup (acc : List (String × ℚ)) (g : GaugeVec) (h : (mapKeys g).Nodup) :
    (mapKeys (setAll acc g)).Nodup := by
  unfold setAll
  induction acc generalizing g with
  | nil => exact h
  | cons kv rest ih => exact ih _ (nodup_mapKeys_mapModify _ _ _ _ h)

/-- A namespace family after the pod block: one series per namespace in which some
container declares the quantity, holding the total of the namespace. -/
theorem namespaceFamily_spec (quantity : Container → Option ℚ) (pods : List Pod) (ns : String) :
    ([ns] ∈ GaugeVec.labels (setAll (accPods quantity pods []) []) ↔ declaredIn quantity ns pods)
    ∧ (declaredIn quantity ns pods →
        GaugeVec.value? (setAll (accPods quantity pods []) []) [ns]
          = some (namespaceTotal quantity ns pods))
    ∧ (¬ declaredIn quantity ns pods →
        GaugeVec.value? (setAll (accPods quantity pods []) []) [ns] = none)
    ∧ (GaugeVec.labels (setAll (accPods quantity pods []) [])).Nodup
    ∧ (∀ lvs ∈ GaugeVec.labels (setAll (accPods quantity pods []) []),
        ∃ k, lvs = [k] ∧ declaredIn quantity k pods) := by
  have hnd : (mapKeys (accPods quantity pods [])).Nodup :=
    accPods_nodup quantity pods [] List.nodup_nil
  have hkeys : ∀ k, k ∈ mapKeys (accPods quantity pods []) ↔ declaredIn quantity k pods := by
    intro k
    rw [accPods_keys]
    simp [mapKeys]
  obtain ⟨hval, hlab⟩ := setAll_spec (accPods quantity pods []) hnd ns
  refine ⟨hlab.trans (hkeys ns), ?_, ?_, ?_, ?_⟩
  · intro hdecl
    obtain ⟨v, hv, -⟩ := lookup_isSome_of_mem ns _ ((hkeys ns).2 hdecl)
    have ht := accPods_total quantity ns pods []
    rw [hv] at ht
    simp only [Option.getD_some, List.lookup, Option.getD_none] at ht
    rw [GaugeVec.value?, hval, hv, ht]
    rfl
  · intro hno
    rw [GaugeVec.value?, hval]
    exact lookup_eq_none_of_not_mem ns _ (fun h => hno ((hkeys ns).1 h))
  · exact setAll_nodup _ [] List.nodup_nil
  · intro lvs hl
    obtain ⟨k, hk, rfl⟩ := (setAll_labels _ lvs).1 hl
    exact ⟨k, rfl, (hkeys k).1 hk⟩

theorem holdsNamespaceTotal_setAll (quantity : Container → Option ℚ) (pods : List Pod)
    (ns : String) :
    holdsNamespaceTotal (setAll (accPods quantity pods []) []) quantity pods ns := by
  obtain ⟨h1, h2, h3, h4, -⟩ := namespaceFamily_spec quantity pods ns
  exact ⟨h1, h2, h3, h4⟩

/-! ## The allocatable gauges of the nodes -/

theorem nodesUpdate_CPUAllocatable (nodes : List Node) (m : PrometheusMetrics) :
    (nodesUpdate nodes m).CPUAllocatable
      = nodes.foldl (fun acc n => mapModify [n.Name]
          (fun _ => float64Div (float64 n.Allocatable.Cpu.MilliValue) 1000) 0 acc)
          m.CPUAllocatable :=
  foldl_proj_comm nodeStep _ PrometheusMetrics.CPUAllocatable (fun _ _ => rfl) nodes _

theorem nodesUpdate_MemoryAllocatable (nodes : List Node) (m : PrometheusMetrics) :
    (nodesUpdate nodes m).MemoryAllocatable
      = nodes.foldl (fun acc n => mapModify [n.Name]
          (fun _ => float64 n.Allocatable.Memory.Value) 0 acc) m.MemoryAllocatable :=
  foldl_proj_comm nodeStep _ PrometheusMetrics.MemoryAllocatable (fun _ _ => rfl) nodes _

theorem nodup_singleton_names (nodes : List Node) (hnd : (nodes.map Node.Name).Nodup) :
    (nodes.map (fun n : Node => [n.Name])).Nodup := by
  have e : nodes.map (fun n : Node => [n.Name]) = (nodes.map Node.Name).map (fun x => [x]) := by
    simp
  rw [e]
  exact hnd.map (fun a b hab => by simpa using hab)

/-! ## Registration -/

theorem Register_refuses (c : Collector) (registry : List Collector)
    (h : ∃ c2 ∈ registry, c2.fqName = c.fqName) : ∃ e, Register c registry = .error e := by
  unfold Register
  split
  · exact ⟨_, rfl⟩
  · have hany : registry.any (fun c2 => decide (c2.fqName = c.fqName)) = true := by
      obtain ⟨c2, hc2, hn⟩ := h
      exact List.any_eq_true.2 ⟨c2, hc2, by simpa using hn⟩
    rw [if_pos hany]
    exact ⟨_, rfl⟩

theorem registerIgnoringError_refused (s : MetricsWorld) (c : Collector)
    (h : ∃ c2 ∈ s.registry, c2.fqName = c.fqName) : registerIgnoringError s c = s := by
  obtain ⟨e, he⟩ := Register_refuses c s.registry h
  simp [registerIgnoringError, he]

theorem foldl_registerIgnoringError_refused (cs : List Collector) (s : MetricsWorld)
    (h : ∀ c ∈ cs, ∃ c2 ∈ s.registry, c2.fqName = c.fqName) :
    cs.foldl registerIgnoringError s = s := by
  induction cs with
  | nil => rfl
  | cons c cs ih =>
    rw [List.foldl_cons, registerIgnoringError_refused s c (h c (List.mem_cons_self _ _))]
    exact ih (fun c' hc' => h c' (List.mem_cons_of_mem _ hc'))

/-! ## The legacy bearer check -/

/-- The legacy middleware refuses exactly the headers that `AuthMiddleware` refuses. -/
theorem authMiddleware_eq {σ : Type} (expectedAuthToken : String) (logger : Logger σ)
    (next : HandlerFunc σ) (w : ResponseWriter) (r : Request) (s : σ) :
    (authRejects expectedAuthToken (r.Header.Get "Authorization") = true
      ∧ ∃ msg : String, ∃ logMsg : String, msg ≠ "unauthorized"
          ∧ authMiddleware expectedAuthToken logger next w r s
              = ⟨httpError w msg 401, logger.Warn logMsg [("path", r.Path)] s, false⟩)
    ∨ (authRejects expectedAuthToken (r.Header.Get "Authorization") = false
      ∧ authMiddleware expectedAuthToken logger next w r s
          = next w r (logger.Debug "Acesso autorizado." [("path", r.Path)] s)) := by
  by_cases h0 : r.Header.Get "Authorization" = ""
  · left
    refine ⟨?_, "Acesso não autorizado: token não fornecido",
      "Tentativa de acesso não autorizado: token não fornecido.", by decide, ?_⟩
    · rw [h0]; exact authRejects_of _ _ (Or.inl (by decide))
    · simp only [authMiddleware, h0, if_true]
  · by_cases h1 : ((stringsSplitSpace (r.Header.Get "Authorization")).length != 2
        || stringsToLower ((stringsSplitSpace (r.Header.Get "Authorization")).getD 0 "")
            != "bearer") = true
    · left
      refine ⟨?_, "Acesso não autorizado: formato de token inválido",
        "Tentativa de acesso não autorizado: formato de token inválido.", by decide, ?_⟩
      · simp only [authRejects, h1, Bool.true_or]
      · simp only [authMiddleware, h0, if_false, h1, if_true]
    · by_cases h2 : ((stringsSplitSpace (r.Header.Get "Authorization")).getD 1 ""
          != expectedAuthToken) = true
      · left
        refine ⟨?_, "Acesso não autorizado: token inválido",
          "Tentativa de acesso não autorizado: token inválido.", by decide, ?_⟩
        · simp only [authRejects, h2, Bool.or_true]
        · simp only [authMiddleware, h0, if_false, h1, h2, if_true]
          rfl
      · right
        refine ⟨?_, ?_⟩
        · simp only [Bool.not_eq_true] at h1 h2
          simp only [authRejects, h1, h2, Bool.or_self]
        · simp only [authMiddleware, h0, if_false, h1, h2]
          rfl

/-! ## `strings.TrimSpace` -/

theorem stringsTrimSpace_data (s : String) :
    (stringsTrimSpace s).data
      = ((s.data.dropWhile unicodeIsSpace).reverse.dropWhile unicodeIsSpace).reverse :=
  rfl

/-- Trimming a list whose first element, if any, is not trimmed leaves that first element
first. -/
theorem head?_trimRight {α : Type} (p : α → Bool) (m : List α)
    (hm : ∀ c, m.head? = some c → p c = false) (c : α)
    (hc : ((m.reverse.dropWhile p).reverse).head? = some c) : p c = false := by
  have hsplit : m = (m.reverse.dropWhile p).reverse ++ (m.reverse.takeWhile p).reverse := by
    have h := List.takeWhile_append_dropWhile p m.reverse
    have h2 := congrArg List.reverse h
    rw [List.reverse_append, List.reverse_reverse] at h2
    exact h2.symm
  apply hm
  rw [hsplit]
  cases ht : (m.reverse.dropWhile p).reverse with
  | nil => rw [ht] at hc; cases hc
  | cons x xs =>
    rw [ht] at hc
    simpa using hc

/-- What `strings.TrimSpace` returns: the text between a leading and a trailing run of
white space, neither starting nor ending with white space. -/
theorem stringsTrimSpace_spec (s : String) :
    ∃ pre post : List Char,
      s.data = pre ++ (stringsTrimSpace s).data ++ post
      ∧ (∀ c ∈ pre, unicodeIsSpace c = true) ∧ (∀ c ∈ post, unicodeIsSpace c = true)
      ∧ (∀ c, (stringsTrimSpace s).data.head? = some c → unicodeIsSpace c = false)
      ∧ (∀ c, (stringsTrimSpace s).data.getLast? = some c → unicodeIsSpace c = false) := by
  have hm : ∀ c, (s.data.dropWhile unicodeIsSpace).head? = some c → unicodeIsSpace c = false := by
    intro c hc
    have h := List.head?_dropWhile_not unicodeIsSpace s.data
    rw [hc] at h
    exact h
  refine ⟨s.data.takeWhile unicodeIsSpace,
    ((s.data.dropWhile unicodeIsSpace).reverse.takeWhile unicodeIsSpace).reverse, ?_, ?_, ?_,
    ?_, ?_⟩
  · rw [stringsTrimSpace_data, List.append_assoc, ← List.reverse_append,
      List.takeWhile_append_dropWhile, List.reverse_reverse, List.takeWhile_append_dropWhile]
  · intro c hc
    exact List.mem_takeWhile_imp hc
  · intro c hc
    exact List.mem_takeWhile_imp (List.mem_reverse.1 hc)
  · intro c hc
    rw [stringsTrimSpace_data] at hc
    exact head?_trimRight unicodeIsSpace _ hm c hc
  · intro c hc
    rw [stringsTrimSpace_data, List.getLast?_reverse] at hc
    have h := List.head?_dropWhile_not unicodeIsSpace
      (s.data.dropWhile unicodeIsSpace).reverse
    rw [hc] at h
    exact h

theorem stringsTrimSpace_eq_empty_iff (s : String) :
    stringsTrimSpace s = "" ↔ ∀ c ∈ s.data, unicodeIsSpace c = true := by
  have hiff : stringsTrimSpace s = "" ↔ (stringsTrimSpace s).data = [] := by
    constructor
    · intro h; rw [h]
    · intro h; exact String.ext h
  rw [hiff]
  obtain ⟨pre, post, hsplit, hpre, hpost, -, -⟩ := stringsTrimSpace_spec s
  constructor
  · intro h
    rw [h, List.append_nil] at hsplit
    intro c hc
    rw [hsplit, List.mem_append] at hc
    exact hc.elim (hpre c) (hpost c)
  · intro hall
    rw [stringsTrimSpace_data, List.reverse_eq_nil_iff, List.dropWhile_eq_nil_iff]
    intro c hc
    have hc2 : c ∈ s.data.dropWhile unicodeIsSpace := List.mem_reverse.1 hc
    exact hall c ((List.dropWhile_sublist _).subset hc2)

/-! ## The deployment families when every replica field is set -/

theorem deploymentsLoop_eq_foldl (ds : List Deployment) (m : PrometheusMetrics)
    (h : ∀ d ∈ ds, d.Replicas ≠ none) :
    (deploymentsLoop ds m).1
      = ds.foldl (fun (m : PrometheusMetrics) (d : Deployment) =>
          { m with
            DeploymentDesired :=
              m.DeploymentDesired.Set [d.Namespace, d.Name] ((d.Replicas.getD 0 : Int) : ℚ),
            DeploymentAvailable :=
              m.DeploymentAvailable.Set [d.Namespace, d.Name] (d.AvailableReplicas : ℚ) }) m := by
  induction ds generalizing m with
  | nil => rfl
  | cons d ds ih =>
    have hd : d.Replicas ≠ none := h d (List.mem_cons_self _ _)
    cases hr : d.Replicas with
    | none => exact absurd hr hd
    | some r =>
      simp only [deploymentsLoop, hr, List.foldl_cons, Option.getD_some]
      exact ih _ (fun d' hd' => h d' (List.mem_cons_of_mem _ hd'))

theorem deploymentsUpdate_DeploymentDesired (ds : List Deployment) (m : PrometheusMetrics)
    (h : ∀ d ∈ ds, d.Replicas ≠ none) :
    (deploymentsUpdate ds m).1.DeploymentDesired
      = ds.foldl (fun acc d => mapModify [d.Namespace, d.Name]
          (fun _ => ((d.Replicas.getD 0 : Int) : ℚ)) 0 acc) [] := by
  unfold deploymentsUpdate
  simp only
  rw [deploymentsLoop_eq_foldl ds _ h]
  exact foldl_proj_comm _ _ PrometheusMetrics.DeploymentDesired (fun _ _ => rfl) ds _

theorem deploymentsUpdate_DeploymentAvailable (ds : List Deployment) (m : PrometheusMetrics)
    (h : ∀ d ∈ ds, d.Replicas ≠ none) :
    (deploymentsUpdate ds m).1.DeploymentAvailable
      = ds.foldl (fun acc d => mapModify [d.Namespace, d.Name]
          (fun _ => (d.AvailableReplicas : ℚ)) 0 acc) [] := by
  unfold deploymentsUpdate
  simp only
  rw [deploymentsLoop_eq_foldl ds _ h]
  exact foldl_proj_comm _ _ PrometheusMetrics.DeploymentAvailable (fun _ _ => rfl) ds _

/-- The keys after a loop of modifications under distinct new keys: the old keys followed
by the keys of the loop. -/
theorem mapKeys_foldl_mapModify_of_nodup {κ ν β : Type} [DecidableEq κ] (key : β → κ)
    (f : β → ν → ν) (zero : ν) (xs : List β) (m : List (κ × ν))
    (hnd : (xs.map key).Nodup) (hdis : ∀ x ∈ xs, key x ∉ mapKeys m) :
    mapKeys (xs.foldl (fun acc x => mapModify (key x) (f x) zero acc) m)
      = mapKeys m ++ xs.map key := by
  induction xs generalizing m with
  | nil => simp
  | cons x xs ih =>
    rw [List.map_cons, List.nodup_cons] at hnd
    have hx : key x ∉ mapKeys m := hdis x (List.mem_cons_self _ _)
    rw [List.foldl_cons, ih _ hnd.2, mapKeys_mapModify, if_neg hx, List.map_cons,
      List.append_assoc, List.singleton_append]
    intro y hy
    rw [mapKeys_mapModify, if_neg hx, List.mem_append, List.mem_singleton, not_or]
    refine ⟨hdis y (List.mem_cons_of_mem _ hy), ?_⟩
    intro e
    exact hnd.1 (e ▸ List.mem_map_of_mem key hy)

/-! ## Counting with `Inc` -/

/-- After a loop of increments, a key holds what it held plus the number of increments
made under it. -/
theorem lookup_foldl_inc {ν β κ : Type} [DecidableEq κ] [BEq κ] [LawfulBEq κ]
    [AddMonoidWithOne ν] (key : β → κ) (xs : List β) (m : List (κ × ν)) (k : κ) :
    (List.lookup k (xs.foldl (fun acc x => mapModify (key x) (fun v => v + 1) 0 acc) m)).getD 0
      = (List.lookup k m).getD 0 + ((xs.filter (fun x => key x = k)).length : ν) := by
  induction xs generalizing m with
  | nil => simp
  | cons x xs ih =>
    rw [List.foldl_cons, ih]
    by_cases hk : key x = k
    · subst hk
      rw [lookup_mapModify_self]
      simp [List.filter_cons, add_assoc, add_comm]
    · have hk2 : k ≠ key x := fun e => hk e.symm
      rw [lookup_mapModify_other _ _ _ _ _ hk2]
      simp [List.filter_cons, hk]

theorem nodup_mapKeys_foldl_mapModify {κ ν β : Type} [DecidableEq κ] (key : β → κ)
    (f : β → ν → ν) (zero : ν) (xs : List β) (m : List (κ × ν)) (h : (mapKeys m).Nodup) :
    (mapKeys (xs.foldl (fun acc x => mapModify (key x) (f x) zero acc) m)).Nodup := by
  induction xs generalizing m with
  | nil => exact h
  | cons x xs ih => exact ih _ (nodup_mapKeys_mapModify _ _ _ _ h)

/-- An increment under a key adds one to the total of the keys selected by `sel` when the
key is selected, and nothing otherwise. -/
theorem sum_filter_mapModify_inc {κ : Type} [DecidableEq κ] (sel : κ → Bool) (k : κ)
    (m : List (κ × ℚ)) :
    (((mapModify k (fun v => v + 1) 0 m).filter (fun e => sel e.1)).map Prod.snd).sum
      = ((m.filter (fun e => sel e.1)).map Prod.snd).sum + (if sel k then 1 else 0) := by
  induction m with
  | nil => cases h : sel k <;> simp [mapModify, List.filter_cons, h]
  | cons kv rest ih =>
    obtain ⟨k', v'⟩ := kv
    by_cases hk : k' = k
    · subst hk
      cases h : sel k' <;> simp [mapModify, List.filter_cons, h]
      ring
    · cases h : sel k' <;> simp [mapModify, List.filter_cons, h, hk, ih]
      ring

theorem sum_filter_foldl_inc {κ β : Type} [DecidableEq κ] (sel : κ → Bool) (key : β → κ)
    (xs : List β) (m : List (κ × ℚ)) :
    (((xs.foldl (fun acc x => mapModify (key x) (fun v => v + 1) 0 acc) m).filter
        (fun e => sel e.1)).map Prod.snd).sum
      = ((m.filter (fun e => sel e.1)).map Prod.snd).sum
        + ((xs.filter (fun x => sel (key x))).length : ℚ) := by
  induction xs generalizing m with
  | nil => simp
  | cons x xs ih =>
    rw [List.foldl_cons, ih, sum_filter_mapModify_inc]
    cases h : sel (key x) <;> simp [List.filter_cons, h]
    ring

/-! ## Two calls of `NewPrometheusMetrics` -/

theorem NewPrometheusMetrics_fields (logger : Logger MetricsWorld) (s : MetricsWorld) :
    (NewPrometheusMetrics logger s).1.fields = (newCollectors s.nextPtr).map some :=
  rfl

theorem NewPrometheusMetrics_world (logger : Logger MetricsWorld) (s : MetricsWorld) :
    (NewPrometheusMetrics logger s).2
      = logger.Info "Métricas Prometheus registradas" []
          ((newCollectors s.nextPtr).foldl registerIgnoringError
            { s with nextPtr := s.nextPtr + 16 }) :=
  rfl

theorem newCollectors_names (p : Nat) : (newCollectors p).map Collector.fqName = metricNames :=
  rfl

theorem newCollectors_desc (p q : Nat) :
    (newCollectors p).map Collector.desc = (newCollectors q).map Collector.desc :=
  rfl

theorem newCollectors_ptr (p : Nat) : (newCollectors p).map Collector.ptr = List.range' p 16 :=
  rfl

theorem metricNames_nodup : metricNames.Nodup := by decide

theorem Register_ok (c : Collector) (registry : List Collector)
    (h : ∀ c2 ∈ registry, c2.fqName ≠ c.fqName) : Register c registry = .ok (registry ++ [c]) := by
  have h1 : registry.any (fun c2 => decide (c2.fqName = c.fqName ∧ c2.help = c.help
      ∧ c2.labelNames = c.labelNames)) = false := by
    rw [List.any_eq_false]
    intro c2 hc2
    simp [h c2 hc2]
  have h2 : registry.any (fun c2 => decide (c2.fqName = c.fqName)) = false := by
    rw [List.any_eq_false]
    intro c2 hc2
    simp [h c2 hc2]
  simp only [Register, h1, h2, Bool.false_eq_true, if_false]

theorem Register_alreadyRegistered (c : Collector) (registry : List Collector)
    (h : ∃ c2 ∈ registry, c2.desc = c.desc) : Register c registry = .error .alreadyRegistered := by
  have h1 : registry.any (fun c2 => decide (c2.fqName = c.fqName ∧ c2.help = c.help
      ∧ c2.labelNames = c.labelNames)) = true := by
    obtain ⟨c2, hc2, hd⟩ := h
    simp only [Collector.desc, Prod.mk.injEq] at hd
    exact List.any_eq_true.2 ⟨c2, hc2, by simpa using hd⟩
  simp only [Register, h1, if_true]

/-- Collectors of distinct names, none of which is registered, are all registered, in
order. -/
theorem foldl_registerIgnoringError_fresh (cs : List Collector) (s : MetricsWorld)
    (hnd : (cs.map Collector.fqName).Nodup)
    (hfresh : ∀ c ∈ cs, ∀ c2 ∈ s.registry, c2.fqName ≠ c.fqName) :
    cs.foldl registerIgnoringError s = { s with registry := s.registry ++ cs } := by
  induction cs generalizing s with
  | nil => simp
  | cons c cs ih =>
    rw [List.map_cons, List.nodup_cons] at hnd
    have h1 : registerIgnoringError s c = { s with registry := s.registry ++ [c] } := by
      simp [registerIgnoringError, Register_ok c s.registry (hfresh c (List.mem_cons_self _ _))]
    rw [List.foldl_cons, h1, ih _ hnd.2]
    · simp
    · intro c' hc' c2 hc2
      simp only [List.mem_append, List.mem_singleton] at hc2
      rcases hc2 with hc2 | hc2
      · exact hfresh c' (List.mem_cons_of_mem _ hc') c2 hc2
      · subst hc2
        intro e
        exact hnd.1 (e ▸ List.mem_map_of_mem Collector.fqName hc')

theorem puts_other (cs : List Collector) (gs : List GaugeVec) (heap : Heap) (q : Nat)
    (h : ∀ c ∈ cs, c.ptr ≠ q) : puts ((cs.map some).zip gs) heap q = heap q := by
  induction cs generalizing gs heap with
  | nil => rfl
  | cons c cs ih =>
    cases gs with
    | nil => rfl
    | cons g gs =>
      have hq : ¬ q = c.ptr := fun e => h c (List.mem_cons_self _ _) e.symm
      simp only [puts, List.map_cons, List.zip_cons_cons, List.foldl_cons] at ih ⊢
      rw [ih gs _ (fun c' hc' => h c' (List.mem_cons_of_mem _ hc'))]
      simp [Heap.write, hq]

theorem puts_mem (cs : List Collector) (gs : List GaugeVec) (heap : Heap)
    (hnd : (cs.map Collector.ptr).Nodup) (c : Collector) (g : GaugeVec)
    (h : (c, g) ∈ cs.zip gs) : puts ((cs.map some).zip gs) heap c.ptr = g := by
  induction cs generalizing gs heap with
  | nil => simp at h
  | cons c0 cs ih =>
    cases gs with
    | nil => simp at h
    | cons g0 gs =>
      rw [List.map_cons, List.nodup_cons] at hnd
      simp only [List.zip_cons_cons, List.mem_cons, Prod.mk.injEq] at h
      rcases h with ⟨rfl, rfl⟩ | h
      · have hr := puts_other cs gs (heap.write c g) c.ptr (fun c' hc' e =>
          hnd.1 (e ▸ List.mem_map_of_mem Collector.ptr hc'))
        simp only [puts, List.map_cons, List.zip_cons_cons, List.foldl_cons] at hr ⊢
        rw [hr]
        simp [Heap.write]
      · have hr := ih gs (heap.write c0 g0) hnd.2 h
        simp only [puts, List.map_cons, List.zip_cons_cons, List.foldl_cons] at hr ⊢
        exact hr

theorem exposition_congr (registry : List Collector) (heap heap2 : Heap)
    (h : ∀ c ∈ registry, heap2 c.ptr = heap c.ptr) :
    exposition registry heap2 = exposition registry heap := by
  unfold exposition
  apply List.map_congr_left
  intro c hc
  rw [h c hc]

theorem mem_newCollectors_ptr (p : Nat) (c : Collector) (hc : c ∈ newCollectors p) :
    p ≤ c.ptr ∧ c.ptr < p + 16 := by
  have h : c.ptr ∈ (newCollectors p).map Collector.ptr := List.mem_map_of_mem _ hc
  rw [newCollectors_ptr, List.mem_range'_1] at h
  exact h

/-- A pair of a name and a series, taken at the same position of the collector names and
of a list of series, comes from a collector paired with that series. -/
theorem mem_zip_names (cs : List Collector) (gs : List GaugeVec) (name : String)
    (g : GaugeVec) (h : (name, g) ∈ (cs.map Collector.fqName).zip gs) :
    ∃ c, (c, g) ∈ cs.zip gs ∧ c.fqName = name := by
  induction cs generalizing gs with
  | nil => simp at h
  | cons c0 cs ih =>
    cases gs with
    | nil => simp at h
    | cons g0 gs =>
      simp only [List.map_cons, List.zip_cons_cons, List.mem_cons, Prod.mk.injEq] at h
      rcases h with ⟨rfl, rfl⟩ | h
      · exact ⟨c0, List.mem_cons_self _ _, rfl⟩
      · obtain ⟨c, hc, hn⟩ := ih gs h
        exact ⟨c, List.mem_cons_of_mem _ hc, hn⟩

/-- The registry after `NewPrometheusMetrics` ran in a world where none of the sixteen
names is registered: the sixteen new collectors are added. -/
theorem NewPrometheusMetrics_first (logger : Logger MetricsWorld) (s : MetricsWorld)
    (hlogR : ∀ (rec : LogRecord) (s2 : MetricsWorld), (logger.write rec s2).registry = s2.registry)
    (hlogP : ∀ (rec : LogRecord) (s2 : MetricsWorld), (logger.write rec s2).nextPtr = s2.nextPtr)
    (hfresh : ∀ c ∈ s.registry, c.fqName ∉ metricNames) :
    (NewPrometheusMetrics logger s).2.registry = s.registry ++ newCollectors s.nextPtr
    ∧ (NewPrometheusMetrics logger s).2.nextPtr = s.nextPtr + 16 := by
  have hnd : ((newCollectors s.nextPtr).map Collector.fqName).Nodup := by
    rw [newCollectors_names]; exact metricNames_nodup
  have hf : ∀ c ∈ newCollectors s.nextPtr,
      ∀ c2 ∈ ({ s with nextPtr := s.nextPtr + 16 } : MetricsWorld).registry,
        c2.fqName ≠ c.fqName := by
    intro c hc c2 hc2 e
    apply hfresh c2 hc2
    rw [e, ← newCollectors_names s.nextPtr]
    exact List.mem_map_of_mem _ hc
  rw [NewPrometheusMetrics_world, Logger.Info, hlogR, hlogP,
    foldl_registerIgnoringError_fresh _ _ hnd hf]
  exact ⟨rfl, rfl⟩

/-- The registry after `NewPrometheusMetrics` ran in a world where the sixteen names are
registered: it is unchanged. -/
theorem NewPrometheusMetrics_again (logger : Logger MetricsWorld) (s : MetricsWorld)
    (hlogR : ∀ (rec : LogRecord) (s2 : MetricsWorld), (logger.write rec s2).registry = s2.registry)
    (hreg : ∀ n ∈ metricNames, ∃ c ∈ s.registry, c.fqName = n) :
    (NewPrometheusMetrics logger s).2.registry = s.registry := by
  rw [NewPrometheusMetrics_world, Logger.Info, hlogR, foldl_registerIgnoringError_refused]
  intro c hc
  apply hreg
  rw [← newCollectors_names s.nextPtr]
  exact List.mem_map_of_mem _ hc

/-! ## The calendar of package `time` -/

theorem absYearDay_decomp (d : Nat) :
    ∃ n400 n100 n4 n1 : Nat,
      (absYearDay d).1 = 400 * n400 + 100 * n100 + 4 * n4 + n1 + 1
      ∧ d = 146097 * n400 + 36524 * n100 + 1461 * n4 + 365 * n1 + (absYearDay d).2
      ∧ n100 ≤ 3 ∧ n4 ≤ 24 ∧ n1 ≤ 3 ∧ (absYearDay d).2 ≤ 365
      ∧ (n1 < 3 → (absYearDay d).2 < 365)
      ∧ (n100 < 3 → n4 = 24 → (absYearDay d).2 < 365) := by
  simp only [absYearDay]
  have e1 : d - 146097 * (d / 146097) < 146097 := by omega
  have e2 : d = 146097 * (d / 146097) + (d - 146097 * (d / 146097)) := by omega
  generalize d - 146097 * (d / 146097) = d1 at *
  generalize d / 146097 = n400 at *
  have hq : d1 / 36524 ≤ 4 := by omega
  generalize hqe : d1 / 36524 = q at *
  generalize hn : q - q / 4 = n100
  have hd2 : d1 = 36524 * n100 + (d1 - 36524 * n100) ∧ d1 - 36524 * n100 ≤ 36524
      ∧ (n100 < 3 → d1 - 36524 * n100 < 36524) ∧ n100 ≤ 3 := by
    interval_cases q <;> omega
  generalize d1 - 36524 * n100 = d2 at *
  have h3 : d2 - 1461 * (d2 / 1461) < 1461 := by omega
  have h4 : d2 / 1461 ≤ 24 := by omega
  have h5 : d2 = 1461 * (d2 / 1461) + (d2 - 1461 * (d2 / 1461)) := by omega
  generalize d2 - 1461 * (d2 / 1461) = d3 at *
  generalize d2 / 1461 = n4 at *
  have hs : d3 / 365 ≤ 4 := by omega
  generalize hse : d3 / 365 = s at *
  generalize hn1 : s - s / 4 = n1
  have hy : d3 = 365 * n1 + (d3 - 365 * n1) ∧ d3 - 365 * n1 ≤ 365
      ∧ (n1 < 3 → d3 - 365 * n1 < 365) ∧ n1 ≤ 3 := by
    interval_cases s <;> omega
  generalize d3 - 365 * n1 = yday at *
  refine ⟨n400, n100, n4, n1, rfl, by omega, hd2.2.2.2, h4, hy.2.2.2, hy.2.1, hy.2.2.1, ?_⟩
  intro a b
  omega

theorem isLeap_cycles (n400 n100 n4 n1 : Nat) (h100 : n100 ≤ 3) (h4 : n4 ≤ 24)
    (h1 : n1 ≤ 3) :
    isLeap (400 * n400 + 100 * n100 + 4 * n4 + n1 + 1) = true
      ↔ n1 = 3 ∧ (n4 = 24 → n100 = 3) := by
  have e4 : (400 * n400 + 100 * n100 + 4 * n4 + n1 + 1) % 4 = (n1 + 1) % 4 := by omega
  have e100 : (400 * n400 + 100 * n100 + 4 * n4 + n1 + 1) % 100
      = (4 * n4 + n1 + 1) % 100 := by omega
  have e400 : (400 * n400 + 100 * n100 + 4 * n4 + n1 + 1) % 400
      = (100 * n100 + 4 * n4 + n1 + 1) % 400 := by omega
  simp only [isLeap, e4, e100, e400, Bool.and_eq_true, Bool.or_eq_true, beq_iff_eq,
    bne_iff_ne]
  constructor
  · rintro ⟨a, b⟩
    have hn : n1 = 3 := by omega
    refine ⟨hn, fun h => ?_⟩
    subst hn h
    rcases b with b | b
    · exact absurd (by norm_num) b
    · omega
  · rintro ⟨rfl, b⟩
    refine ⟨by norm_num, ?_⟩
    by_cases h : n4 = 24
    · right
      rw [h, b h]
    · left
      omega

/-- The day within the year that `absDate` computes lies within the year. -/
theorem absYearDay_lt (d : Nat) :
    (absYearDay d).2 < 365 + (if isLeap (absYearDay d).1 then 1 else 0) := by
  obtain ⟨n400, n100, n4, n1, hy, -, h100, h4, h1, hle, ha, hb⟩ := absYearDay_decomp d
  rw [hy]
  by_cases hl : isLeap (400 * n400 + 100 * n100 + 4 * n4 + n1 + 1) = true
  · rw [if_pos hl]
    omega
  · rw [if_neg hl]
    rw [isLeap_cycles _ _ _ _ h100 h4 h1] at hl
    by_cases h : n1 = 3
    · have hc : n4 = 24 ∧ n100 ≠ 3 := by
        by_contra hc
        exact hl ⟨h, fun a => by_contra fun b => hc ⟨a, b⟩⟩
      exact hb (by omega) hc.1
    · exact ha (by omega)

/-- Before year 10000 the year has at most four digits. -/
theorem absYearDay_year (d : Nat) (h : d < 3652059) :
    1 ≤ (absYearDay d).1 ∧ (absYearDay d).1 ≤ 9999 := by
  obtain ⟨n400, n100, n4, n1, hy, hd, h100, h4, h1, hle, ha, hb⟩ := absYearDay_decomp d
  rw [hy]
  omega

/-- The month and the day that `absDate` computes are a date of the calendar. -/
theorem monthDay_valid (year yday : Nat)
    (h : yday < 365 + (if isLeap year then 1 else 0)) :
    1 ≤ (monthDay year yday).1 ∧ (monthDay year yday).1 ≤ 12
      ∧ 1 ≤ (monthDay year yday).2
      ∧ (monthDay year yday).2 ≤ daysIn (monthDay year yday).1 year := by
  unfold monthDay
  by_cases hl : isLeap year = true
  · simp only [hl, if_true, true_and] at h ⊢
    by_cases h59 : yday = 59
    · simp [h59, daysIn, hl]
    · rw [if_neg h59]
      have hd : (if yday > 59 then yday - 1 else yday) < 365 := by split <;> omega
      have hd59 : yday < 59 → (if yday > 59 then yday - 1 else yday) < 59 := by
        intro a
        rw [if_neg (by omega)]
        exact a
      have hd60 : 59 < yday → 59 ≤ (if yday > 59 then yday - 1 else yday) := by
        intro a
        rw [if_pos a]
        omega
      generalize (if yday > 59 then yday - 1 else yday) = day at *
      have hm : day / 31 ≤ 11 := by omega
      generalize hme : day / 31 = month at *
      interval_cases month <;> simp only [daysBefore, List.getD_cons_succ, List.getD_cons_zero,
        daysIn, hl] <;> split <;> simp <;> omega
  · have hf : isLeap year = false := by simpa using hl
    simp only [hf, Bool.false_eq_true, false_and, if_false, Nat.add_zero] at h ⊢
    have hm : yday / 31 ≤ 11 := by omega
    generalize hme : yday / 31 = month at *
    interval_cases month <;> simp only [daysBefore, List.getD_cons_succ, List.getD_cons_zero,
      daysIn, hf] <;> split <;> simp <;> omega

/-! ## Writing and reading the fields of a timestamp -/

theorem digit_spec (n : Nat) :
    ('0' ≤ digit n ∧ digit n ≤ '9') ∧ (digit n).toNat - 48 = n % 10 := by
  have h : n % 10 < 10 := Nat.mod_lt _ (by norm_num)
  unfold digit
  generalize n % 10 = k at *
  interval_cases k <;> decide

theorem parseUint_two (a lo hi : Nat) (ha : a < 100) (hlo : lo ≤ a) (hhi : a ≤ hi) :
    parseUint [digit (a / 10), digit a] lo hi = some a := by
  have h1 := digit_spec (a / 10)
  have h2 := digit_spec a
  have e : (0 * 10 + (a / 10) % 10) * 10 + a % 10 = a := by omega
  have hall : ([digit (a / 10), digit a].all fun c => decide ('0' ≤ c ∧ c ≤ '9')) = true := by
    simp only [List.all_cons, List.all_nil, Bool.and_true, Bool.and_eq_true,
      decide_eq_true_eq]
    exact ⟨h1.1, h2.1⟩
  have hx : List.foldl (fun x c => x * 10 + (c.toNat - 48)) 0 [digit (a / 10), digit a]
      = a := by
    show (0 * 10 + ((digit (a / 10)).toNat - 48)) * 10 + ((digit a).toNat - 48) = a
    rw [h1.2, h2.2]
    exact e
  unfold parseUint
  rw [if_pos hall]
  dsimp only
  rw [hx, if_pos ⟨hlo, hhi⟩]

theorem parseUint_four (a lo hi : Nat) (ha : a < 10000) (hlo : lo ≤ a) (hhi : a ≤ hi) :
    parseUint [digit (a / 1000), digit (a / 100), digit (a / 10), digit a] lo hi
      = some a := by
  have h1 := digit_spec (a / 1000)
  have h2 := digit_spec (a / 100)
  have h3 := digit_spec (a / 10)
  have h4 := digit_spec a
  have e : (((0 * 10 + (a / 1000) % 10) * 10 + (a / 100) % 10) * 10 + (a / 10) % 10) * 10
      + a % 10 = a := by omega
  have hall : ([digit (a / 1000), digit (a / 100), digit (a / 10), digit a].all
      fun c => decide ('0' ≤ c ∧ c ≤ '9')) = true := by
    simp only [List.all_cons, List.all_nil, Bool.and_true, Bool.and_eq_true,
      decide_eq_true_eq]
    exact ⟨h1.1, h2.1, h3.1, h4.1⟩
  have hx : List.foldl (fun x c => x * 10 + (c.toNat - 48)) 0
      [digit (a / 1000), digit (a / 100), digit (a / 10), digit a] = a := by
    show (((0 * 10 + ((digit (a / 1000)).toNat - 48)) * 10 + ((digit (a / 100)).toNat - 48))
      * 10 + ((digit (a / 10)).toNat - 48)) * 10 + ((digit a).toNat - 48) = a
    rw [h1.2, h2.2, h3.2, h4.2]
    exact e
  unfold parseUint
  rw [if_pos hall]
  dsimp only
  rw [hx, if_pos ⟨hlo, hhi⟩]

/-- A timestamp written field by field, with `Z` for the zone, is accepted. -/
theorem parseRFC3339_fields (y m d h mi s : Nat) (hy : y ≤ 9999) (hm1 : 1 ≤ m)
    (hm : m ≤ 12) (hd1 : 1 ≤ d) (hd : d ≤ daysIn m y) (hd99 : d < 100) (hh : h ≤ 23)
    (hmi : mi ≤ 59) (hs : s ≤ 59) :
    parseRFC3339 (String.mk (appendInt y 4 ++ '-' :: appendInt m 2 ++ '-' :: appendInt d 2
      ++ 'T' :: appendInt h 2 ++ ':' :: appendInt mi 2 ++ ':' :: appendInt s 2 ++ ['Z']))
      = true := by
  have ey : appendInt y 4 = [digit (y / 1000), digit (y / 100), digit (y / 10), digit y] := by
    simp [appendInt, Nat.lt_succ_of_le hy]
  have e2 : ∀ a : Nat, a < 100 → appendInt a 2 = [digit (a / 10), digit a] := by
    intro a ha
    simp [appendInt, ha]
  rw [ey, e2 m (by omega), e2 d hd99, e2 h (by omega), e2 mi (by omega), e2 s (by omega)]
  simp only [parseRFC3339, parseDateTime, List.cons_append, List.nil_append, List.length_cons,
    List.length_nil, List.take, List.drop, List.getD_cons_succ, List.getD_cons_zero,
    parseUint_four y 0 9999 (by omega) (by omega) hy,
    parseUint_two m 1 12 (by omega) hm1 hm, Option.bind_eq_bind, Option.some_bind,
    parseUint_two d 1 (daysIn m y) hd99 hd1 hd, parseUint_two h 0 23 (by omega) (by omega) hh,
    parseUint_two mi 0 59 (by omega) (by omega) hmi,
    parseUint_two s 0 59 (by omega) (by omega) hs]
  simp [skipFraction, parseZone]

theorem daysIn_le (m year : Nat) : daysIn m year ≤ 31 := by
  unfold daysIn
  split
  · omega
  · by_cases h : m ≤ 12
    · interval_cases m <;> simp [daysBefore]
    · have e : daysBefore.getD m 0 = 0 := by
        apply List.getD_eq_default
        simp [daysBefore]
        omega
      omega

/-- The text that `Format(time.RFC3339)` writes for an instant of the years 1 to 9999
is accepted by `time.Parse`. -/
theorem parseRFC3339_formatRFC3339 (unixNano : Int)
    (h1 : -62135596800000000000 ≤ unixNano) (h2 : unixNano < 253402300800000000000) :
    parseRFC3339 (formatRFC3339 unixNano) = true := by
  unfold formatRFC3339
  have habs : (unixNano / 1000000000 + 62135596800).toNat / 86400 < 3652059 := by omega
  generalize (unixNano / 1000000000 + 62135596800).toNat = abs at *
  have hyr := absYearDay_year _ habs
  have hmd := monthDay_valid _ _ (absYearDay_lt (abs / 86400))
  have hle := daysIn_le (monthDay (absYearDay (abs / 86400)).1 (absYearDay (abs / 86400)).2).1
    (absYearDay (abs / 86400)).1
  exact parseRFC3339_fields _ _ _ _ _ _ hyr.2 hmd.1 hmd.2.1 hmd.2.2.1 hmd.2.2.2
    (by omega) (by omega) (by omega) (by omega)

/-- The text written for some instants, among them a leap day, the last second before
1970 and the two ends of the range of four-digit years; what `parseRFC3339` accepts. -/
theorem formatRFC3339_examples :
    formatRFC3339 1700000000000000000 = "2023-11-14T22:13:20Z"
    ∧ formatRFC3339 0 = "1970-01-01T00:00:00Z"
    ∧ formatRFC3339 (-1) = "1969-12-31T23:59:59Z"
    ∧ formatRFC3339 951782400000000000 = "2000-02-29T00:00:00Z"
    ∧ formatRFC3339 253402300799000000000 = "9999-12-31T23:59:59Z"
    ∧ formatRFC3339 (-62135596800000000000) = "0001-01-01T00:00:00Z"
    ∧ parseRFC3339 "2023-11-14T22:13:20Z" = true
    ∧ parseRFC3339 "2023-11-14T22:13:20.123+01:00" = true
    ∧ parseRFC3339 "2023-02-29T22:13:20Z" = false
    ∧ parseRFC3339 "2023-11-14 22:13:20Z" = false
    ∧ parseRFC3339 "10000-01-01T00:00:00Z" = false := by
  decide

/-! ## Rounding to `float64` -/

theorem roundHalfEven_intCast (k : ℤ) : roundHalfEven (k : ℚ) = k := by
  simp [roundHalfEven]

/-- The integer that rounding picks: the one nearer than one half, or at one half and
even. -/
theorem roundHalfEven_eq (y : ℚ) (n : ℤ)
    (h : |y - n| < 1 / 2 ∨ (|y - n| = 1 / 2 ∧ n % 2 = 0)) : roundHalfEven y = n := by
  have hf1 : (⌊y⌋ : ℚ) ≤ y := Int.floor_le y
  have hf2 : y < (⌊y⌋ : ℚ) + 1 := Int.lt_floor_add_one y
  have hle : |y - n| ≤ 1 / 2 := by
    rcases h with h | h
    · exact le_of_lt h
    · exact le_of_eq h.1
  rw [abs_le] at hle
  have hlo : n - 1 ≤ ⌊y⌋ := by
    have h3 : ((n : ℚ) - 1) < (⌊y⌋ : ℚ) + 1 := by linarith [hle.1]
    have h4 : (n - 1 : ℤ) < ⌊y⌋ + 1 := by exact_mod_cast h3
    omega
  have hhi : ⌊y⌋ ≤ n := by
    have h3 : (⌊y⌋ : ℚ) < (n : ℚ) + 1 := by linarith [hle.2]
    have h4 : ⌊y⌋ < n + 1 := by exact_mod_cast h3
    omega
  have hcases : ⌊y⌋ = n ∨ ⌊y⌋ = n - 1 := by omega
  unfold roundHalfEven
  rcases hcases with hc | hc
  · rw [hc]
    rcases h with h | h
    · rw [abs_lt] at h
      rw [if_pos h.2]
    · have hy : y - n = 1 / 2 ∨ y - n = -(1 / 2) := by
        rcases abs_eq (by norm_num : (0 : ℚ) ≤ 1 / 2) |>.1 h.1 with e | e
        · exact Or.inl e
        · exact Or.inr e
      rcases hy with e | e
      · rw [e, if_neg (lt_irrefl _), if_neg (lt_irrefl _), if_pos h.2]
      · rw [e, if_pos (by norm_num)]
  · have hc2 : ((⌊y⌋ : ℤ) : ℚ) = (n : ℚ) - 1 := by rw [hc]; push_cast; ring
    rcases h with h | h
    · rw [abs_lt] at h
      have h5 : ¬ (y - (⌊y⌋ : ℚ) < 1 / 2) := by rw [hc2]; intro h6; linarith [h.1]
      have h6 : 1 / 2 < y - (⌊y⌋ : ℚ) := by rw [hc2]; linarith [h.1]
      rw [if_neg h5, if_pos h6, hc]
      ring
    · have hy : y - n = -(1 / 2) := by
        rcases abs_eq (by norm_num : (0 : ℚ) ≤ 1 / 2) |>.1 h.1 with e | e
        · exfalso
          have : y = (n : ℚ) + 1 / 2 := by linarith
          rw [hc2] at hf2
          linarith
        · exact e
      have h7 : y - (⌊y⌋ : ℚ) = 1 / 2 := by rw [hc2]; linarith
      have h8 : ¬ (⌊y⌋ % 2 = 0) := by rw [hc]; omega
      rw [h7, if_neg (lt_irrefl _), if_neg (lt_irrefl _), if_neg h8, hc]
      ring

/-- The exponent that `Int.log` finds. -/
theorem log2_eq (a : ℚ) (e : ℤ) (h1 : 2 ^ e ≤ a) (h2 : a < 2 ^ (e + 1)) : Int.log 2 a = e := by
  have hpos : 0 < a := lt_of_lt_of_le (by positivity) h1
  have hl : e ≤ Int.log 2 a := (Int.zpow_le_iff_le_log (by norm_num) hpos).1 (by exact_mod_cast h1)
  have hu : Int.log 2 a < e + 1 :=
    (Int.lt_zpow_iff_log_lt (by norm_num) hpos).1 (by exact_mod_cast h2)
  omega

/-- How to compute `roundFloat64` in the normal range: give the exponent and the
significand. -/
theorem roundFloat64_eq (x : ℚ) (e n : ℤ) (he : -1022 ≤ e) (h1 : 2 ^ e ≤ |x|)
    (h2 : |x| < 2 ^ (e + 1))
    (hn : |x / 2 ^ (e - 52) - n| < 1 / 2 ∨ (|x / 2 ^ (e - 52) - n| = 1 / 2 ∧ n % 2 = 0)) :
    roundFloat64 x = n * 2 ^ (e - 52) := by
  unfold roundFloat64
  rw [log2_eq |x| e h1 h2, max_eq_left he]
  simp only
  rw [roundHalfEven_eq _ n hn]

theorem roundFloat64_zero : roundFloat64 0 = 0 := by
  simp [roundFloat64, roundHalfEven]

/-- A rational `k * 2 ^ q` whose significand `k` has at most 53 bits, with `q` not below
the smallest exponent, is a `float64`: rounding leaves it as it is. -/
theorem roundFloat64_exact (k q : ℤ) (hk : |k| < 2 ^ 53) (hq : -1074 ≤ q) :
    roundFloat64 ((k : ℚ) * 2 ^ q) = (k : ℚ) * 2 ^ q := by
  by_cases hk0 : k = 0
  · subst hk0
    simp [roundFloat64_zero]
  have h2pos : ∀ z : ℤ, (0 : ℚ) < 2 ^ z := fun z => by positivity
  have habs : |(k : ℚ) * 2 ^ q| = (|k| : ℤ) * 2 ^ q := by
    rw [abs_mul, abs_of_pos (h2pos q)]
    push_cast
    rfl
  have hapos : 0 < |(k : ℚ) * 2 ^ q| := by
    rw [habs]
    have : (0 : ℚ) < ((|k| : ℤ) : ℚ) := by exact_mod_cast abs_pos.2 hk0
    exact mul_pos this (h2pos q)
  have hL : Int.log 2 |(k : ℚ) * 2 ^ q| - 52 ≤ q := by
    have h3 : ((2 : ℕ) : ℚ) ^ Int.log 2 |(k : ℚ) * 2 ^ q| ≤ |(k : ℚ) * 2 ^ q| :=
      Int.zpow_log_le_self (by norm_num) hapos
    have h4 : |(k : ℚ) * 2 ^ q| < 2 ^ (53 + q) := by
      rw [habs, zpow_add₀ (by norm_num : (2 : ℚ) ≠ 0)]
      have : ((|k| : ℤ) : ℚ) < 2 ^ (53 : ℤ) := by
        have h : ((|k| : ℤ) : ℚ) < ((2 ^ 53 : ℤ) : ℚ) := Int.cast_lt.2 hk
        rw [show (2 : ℚ) ^ (53 : ℤ) = ((2 ^ 53 : ℤ) : ℚ) by norm_num]
        exact h
      exact mul_lt_mul_of_pos_right this (h2pos q)
    have h5 : (2 : ℚ) ^ Int.log 2 |(k : ℚ) * 2 ^ q| < 2 ^ (53 + q) :=
      lt_of_le_of_lt (by exact_mod_cast h3) h4
    have h6 := (zpow_lt_zpow_iff_right₀ (by norm_num : (1 : ℚ) < 2)).1 h5
    omega
  unfold roundFloat64
  simp only
  generalize hE : max (Int.log 2 |(k : ℚ) * 2 ^ q|) (-1022) - 52 = u
  have hu : u ≤ q := by
    rw [← hE]
    rcases max_cases (Int.log 2 |(k : ℚ) * 2 ^ q|) (-1022) with ⟨e1, -⟩ | ⟨e1, -⟩ <;> rw [e1] <;>
      omega
  obtain ⟨d, hd⟩ : ∃ d : ℕ, q = u + d := ⟨(q - u).toNat, by omega⟩
  have hx : (k : ℚ) * 2 ^ q / 2 ^ u = ((k * 2 ^ d : ℤ) : ℚ) := by
    rw [hd, zpow_add₀ (by norm_num : (2 : ℚ) ≠ 0), zpow_natCast]
    push_cast
    field_simp
    ring
  rw [hx, roundHalfEven_intCast, hd, zpow_add₀ (by norm_num : (2 : ℚ) ≠ 0), zpow_natCast]
  push_cast
  ring

/-- An integer of magnitude at most `2 ^ 53` converts to `float64` without rounding. -/
theorem roundFloat64_intCast (i : ℤ) (h : |i| ≤ 2 ^ 53) : roundFloat64 (i : ℚ) = i := by
  rcases lt_or_eq_of_le h with h1 | h1
  · have := roundFloat64_exact i 0 h1 (by norm_num)
    simpa using this
  · rcases abs_eq (by norm_num : (0 : ℤ) ≤ 2 ^ 53) |>.1 h1 with e | e
    · have := roundFloat64_exact 1 53 (by norm_num) (by norm_num)
      norm_num at this
      rw [e]
      norm_num
      exact this
    · have := roundFloat64_exact (-1) 53 (by norm_num) (by norm_num)
      norm_num at this
      rw [e]
      norm_num
      exact this

/-- Rounding to the nearest integer moves by at most one half. -/
theorem roundHalfEven_near (y : ℚ) : |(roundHalfEven y : ℚ) - y| ≤ 1 / 2 := by
  have hf1 : (⌊y⌋ : ℚ) ≤ y := Int.floor_le y
  have hf2 : y < (⌊y⌋ : ℚ) + 1 := Int.lt_floor_add_one y
  unfold roundHalfEven
  rw [abs_le]
  split_ifs with h1 h2 h3
  · constructor <;> linarith
  · push_cast
    constructor <;> linarith
  · constructor <;> linarith
  · push_cast
    constructor <;> linarith

/-- In the normal range, rounding to `float64` changes a value by at most the fraction
`2 ^ (-53)` of its magnitude. -/
theorem roundFloat64_near (x : ℚ) (hx : 2 ^ (-1022 : ℤ) ≤ |x|) :
    |roundFloat64 x - x| ≤ |x| / 2 ^ 53 := by
  have hapos : 0 < |x| := lt_of_lt_of_le (by positivity) hx
  have hL : (-1022 : ℤ) ≤ Int.log 2 |x| :=
    (Int.zpow_le_iff_le_log (by norm_num) hapos).1 (by exact_mod_cast hx)
  have h3 : ((2 : ℕ) : ℚ) ^ Int.log 2 |x| ≤ |x| := Int.zpow_log_le_self (by norm_num) hapos
  unfold roundFloat64
  simp only
  rw [max_eq_left hL]
  generalize Int.log 2 |x| = e at *
  have hu : (0 : ℚ) < 2 ^ (e - 52) := by positivity
  have h4 := roundHalfEven_near (x / 2 ^ (e - 52))
  have h5 : (roundHalfEven (x / 2 ^ (e - 52)) : ℚ) * 2 ^ (e - 52) - x
      = ((roundHalfEven (x / 2 ^ (e - 52)) : ℚ) - x / 2 ^ (e - 52)) * 2 ^ (e - 52) := by
    field_simp
  rw [h5, abs_mul, abs_of_pos hu]
  have h6 : (2 : ℚ) ^ (e - 52) = 2 ^ e / 2 ^ 52 := by
    rw [zpow_sub₀ (by norm_num : (2 : ℚ) ≠ 0)]
    norm_num
  have h7 : (2 : ℚ) ^ e ≤ |x| := by exact_mod_cast h3
  calc |(roundHalfEven (x / 2 ^ (e - 52)) : ℚ) - x / 2 ^ (e - 52)| * 2 ^ (e - 52)
      ≤ 1 / 2 * 2 ^ (e - 52) := mul_le_mul_of_nonneg_right h4 (le_of_lt hu)
    _ = 2 ^ e / 2 ^ 53 := by rw [h6]; ring
    _ ≤ |x| / 2 ^ 53 := div_le_div_of_nonneg_right h7 (by positivity)

/-- The value that `roundFloat64` returns is a `float64`: rounding it again changes
nothing. -/
theorem roundFloat64_idem (x : ℚ) : roundFloat64 (roundFloat64 x) = roundFloat64 x := by
  by_cases hx : x = 0
  · subst hx
    rw [roundFloat64_zero, roundFloat64_zero]
  have hapos : 0 < |x| := abs_pos.2 hx
  have hup : |x| < ((2 : ℕ) : ℚ) ^ (Int.log 2 |x| + 1) :=
    Int.lt_zpow_succ_log_self (by norm_num) |x|
  have hval : roundFloat64 x
      = (roundHalfEven (x / 2 ^ (max (Int.log 2 |x|) (-1022) - 52)) : ℚ)
        * 2 ^ (max (Int.log 2 |x|) (-1022) - 52) := rfl
  rw [hval]
  generalize hE : max (Int.log 2 |x|) (-1022) = e at *
  have he1 : Int.log 2 |x| ≤ e := by rw [← hE]; exact le_max_left _ _
  have he2 : -1022 ≤ e := by rw [← hE]; exact le_max_right _ _
  have hu : (0 : ℚ) < 2 ^ (e - 52) := by positivity
  have hy : |x / 2 ^ (e - 52)| < 2 ^ 53 := by
    rw [abs_div, abs_of_pos hu, div_lt_iff₀ hu]
    have h1 : |x| < (2 : ℚ) ^ (e + 1) := by
      refine lt_of_lt_of_le (by exact_mod_cast hup) ?_
      exact zpow_le_zpow_right₀ (by norm_num) (by omega)
    have h2 : (2 : ℚ) ^ (e + 1) = 2 ^ 53 * 2 ^ (e - 52) := by
      rw [show e + 1 = 53 + (e - 52) by ring, zpow_add₀ (by norm_num : (2 : ℚ) ≠ 0)]
      norm_num
    rw [← h2]
    exact h1
  generalize x / 2 ^ (e - 52) = y at *
  have hn := roundHalfEven_near y
  have hnle : |roundHalfEven y| ≤ 2 ^ 53 := by
    have h3 : |(roundHalfEven y : ℚ)| < 2 ^ 53 + 1 := by
      have h4 : |(roundHalfEven y : ℚ)| ≤ |(roundHalfEven y : ℚ) - y| + |y| := by
        have := abs_add ((roundHalfEven y : ℚ) - y) y
        simpa using this
      linarith
    have h5 : ((|roundHalfEven y| : ℤ) : ℚ) < ((2 ^ 53 + 1 : ℤ) : ℚ) := by
      push_cast
      norm_num at h3 ⊢
      exact h3
    have h6 : |roundHalfEven y| < 2 ^ 53 + 1 := Int.cast_lt.1 h5
    omega
  rcases lt_or_eq_of_le hnle with h | h
  · exact roundFloat64_exact _ _ h (by omega)
  · rcases abs_eq (by norm_num : (0 : ℤ) ≤ 2 ^ 53) |>.1 h with e1 | e1
    · have := roundFloat64_exact 1 (e + 1) (by norm_num) (by omega)
      have e2 : ((roundHalfEven y : ℤ) : ℚ) * 2 ^ (e - 52) = ((1 : ℤ) : ℚ) * 2 ^ (e + 1) := by
        rw [e1, show e + 1 = 53 + (e - 52) by ring, zpow_add₀ (by norm_num : (2 : ℚ) ≠ 0)]
        push_cast
        norm_num
      rw [e2]
      exact this
    · have := roundFloat64_exact (-1) (e + 1) (by norm_num) (by omega)
      have e2 : ((roundHalfEven y : ℤ) : ℚ) * 2 ^ (e - 52) = ((-1 : ℤ) : ℚ) * 2 ^ (e + 1) := by
        rw [e1, show e + 1 = 53 + (e - 52) by ring, zpow_add₀ (by norm_num : (2 : ℚ) ≠ 0)]
        push_cast
        norm_num
      rw [e2]
      exact this

/-- Adding a `float64` to zero, as the first `+=` on a key of a map does, leaves it as it
is. -/
theorem float64Add_zero_left (x : ℚ) : float64Add 0 (roundFloat64 x) = roundFloat64 x := by
  unfold float64Add
  rw [zero_add, roundFloat64_idem]

theorem roundFloat64_examples :
    roundFloat64 (1 / 10) = 3602879701896397 / 36028797018963968
    ∧ roundFloat64 9007199254740993 = 9007199254740992
    ∧ roundFloat64 (1 / 2) = 1 / 2 := by
  refine ⟨?_, ?_, ?_⟩
  · rw [roundFloat64_eq (1 / 10) (-4) 7205759403792794 (by norm_num) (by norm_num [abs_of_pos])
      (by norm_num [abs_of_pos]) (Or.inl (by norm_num [abs_lt]))]
    norm_num
  · rw [roundFloat64_eq 9007199254740993 53 4503599627370496 (by norm_num)
      (by norm_num [abs_of_pos]) (by norm_num [abs_of_pos])
      (Or.inr ⟨by norm_num [abs_of_pos], by norm_num⟩)]
    norm_num
  · have := roundFloat64_exact 1 (-1) (by norm_num) (by norm_num)
    norm_num at this
    exact this

/-! ## What the node block leaves in the node gauges -/

theorem boolToFloat_readyLoop (conds : List NodeCondition) :
    boolToFloat (readyLoop conds)
      = if ∃ c ∈ conds, c.Type_ = "Ready" ∧ c.Status = "True" then 1 else 0 := by
  by_cases h : ∃ c ∈ conds, c.Type_ = "Ready" ∧ c.Status = "True"
  · rw [if_pos h, (readyLoop_eq_true_iff conds).2 h]
    rfl
  · rw [if_neg h]
    have hf : readyLoop conds = false := by
      cases hr : readyLoop conds with
      | false => rfl
      | true => exact absurd ((readyLoop_eq_true_iff conds).1 hr) h
    rw [hf]
    rfl

theorem holdsNodes_nodesUpdate (nodes : List Node) (m : PrometheusMetrics)
    (hnd : (nodes.map Node.Name).Nodup) : holdsNodes nodes (nodesUpdate nodes m) := by
  have hnd2 := nodup_singleton_names nodes hnd
  refine ⟨nodesUpdate_NodeCount nodes m, ?_, ?_⟩
  · intro lvs
    rw [nodesUpdate_NodeReady, GaugeVec.labels,
      mem_mapKeys_foldl_mapModify (fun n : Node => [n.Name])
        (fun n _ => boolToFloat (readyLoop n.Conditions))]
    simp only [mapKeys, List.map_nil, List.not_mem_nil, false_or, List.mem_map]
    constructor
    · rintro ⟨n, hn, rfl⟩; exact ⟨n, hn, rfl⟩
    · rintro ⟨n, hn, rfl⟩; exact ⟨n, hn, rfl⟩
  · intro n hn
    refine ⟨?_, ?_, ?_⟩
    · rw [GaugeVec.value?, nodesUpdate_NodeReady, ← boolToFloat_readyLoop]
      exact lookup_foldl_set_of_nodup (fun n : Node => [n.Name])
        (fun n => boolToFloat (readyLoop n.Conditions)) 0 nodes [] hnd2 n hn
    · rw [GaugeVec.value?, nodesUpdate_CPUAllocatable]
      exact lookup_foldl_set_of_nodup (fun n : Node => [n.Name])
        (fun n => float64Div (float64 n.Allocatable.Cpu.MilliValue) 1000) 0 nodes _ hnd2 n hn
    · rw [GaugeVec.value?, nodesUpdate_MemoryAllocatable]
      exact lookup_foldl_set_of_nodup (fun n : Node => [n.Name])
        (fun n => float64 n.Allocatable.Memory.Value) 0 nodes _ hnd2 n hn

theorem holdsNodes_congr (nodes : List Node) (m m2 : PrometheusMetrics)
    (h : nodeGauges m2 = nodeGauges m) (hm : holdsNodes nodes m) : holdsNodes nodes m2 := by
  simp only [nodeGauges, Prod.mk.injEq] at h
  obtain ⟨h1, h2, h3, h4⟩ := h
  unfold holdsNodes
  rw [h1, h2, h3, h4]
  exact hm

/-! ## What the pod block leaves in the pod gauges -/

theorem podStep_ContainerRestarts (l : PodLoop) (p : Pod) :
    (podStep l p).m.ContainerRestarts
      = (p.ContainerStatuses.map
          (fun cs => ([p.Namespace, p.Name, cs.Name], (cs.RestartCount : ℚ)))).foldl
          (fun g e => mapModify e.1 (fun _ => e.2) 0 g) l.m.ContainerRestarts := by
  rw [podStep_m, List.foldl_map]
  exact foldl_proj_comm (containerStatusStep p) _ PrometheusMetrics.ContainerRestarts
    (fun _ _ => rfl) p.ContainerStatuses _

theorem podLoop_ContainerRestarts (pods : List Pod) (l : PodLoop) :
    (pods.foldl podStep l).m.ContainerRestarts
      = (restartEntries pods).foldl (fun g e => mapModify e.1 (fun _ => e.2) 0 g)
          l.m.ContainerRestarts := by
  induction pods generalizing l with
  | nil => rfl
  | cons p ps ih =>
    rw [List.foldl_cons, ih, podStep_ContainerRestarts, restartEntries, List.foldl_append]

theorem podsUpdate_ContainerRestarts (pods : List Pod) (m : PrometheusMetrics) :
    (podsUpdate pods m).m.ContainerRestarts
      = (restartEntries pods).foldl (fun g e => mapModify e.1 (fun _ => e.2) 0 g) [] := by
  show (pods.foldl podStep _).m.ContainerRestarts = _
  rw [podLoop_ContainerRestarts]
  rfl

/-- The value of the pod phase family for a pair of namespace and phase that some pod
has: the number of such pods. -/
theorem podsUpdate_PodStatus_value (pods : List Pod) (m : PrometheusMetrics)
    (ns phase : String) (hpos : 0 < podsIn ns phase pods) :
    (podsUpdate pods m).m.PodStatus.value? [ns, phase] = some (podsIn ns phase pods : ℚ) := by
  have hcount : (pods.filter (fun p => decide ([p.Namespace, p.Phase] = [ns, phase]))).length
      = podsIn ns phase pods := by
    unfold podsIn
    congr 1
    apply List.filter_congr
    intro p _
    simp
  have hval : (List.lookup [ns, phase] (podsUpdate pods m).m.PodStatus).getD 0
      = (podsIn ns phase pods : ℚ) := by
    rw [podsUpdate_PodStatus,
      lookup_foldl_inc (fun p : Pod => [p.Namespace, p.Phase]) pods [] [ns, phase], hcount]
    simp
  have hex : ∃ p ∈ pods, [ns, phase] = [p.Namespace, p.Phase] := by
    unfold podsIn at hpos
    obtain ⟨p, hp2⟩ := List.exists_mem_of_length_pos hpos
    rw [List.mem_filter] at hp2
    have hp3 : p.Namespace = ns ∧ p.Phase = phase := by simpa using hp2.2
    exact ⟨p, hp2.1, by rw [hp3.1, hp3.2]⟩
  obtain ⟨v, hv, -⟩ := lookup_isSome_of_mem [ns, phase] _
    ((mem_labels_podsUpdate_PodStatus pods m [ns, phase]).2 hex)
  rw [hv] at hval
  rw [GaugeVec.value?, hv]
  exact congrArg some hval

theorem holdsPods_podsUpdate (pods : List Pod) (m : PrometheusMetrics)
    (hnd : ((restartEntries pods).map Prod.fst).Nodup) :
    holdsPods pods (podsUpdate pods m).m := by
  refine ⟨podsUpdate_PodCount pods m, mem_labels_podsUpdate_PodStatus pods m,
    podsUpdate_PodStatus_value pods m, ?_, ?_, ?_⟩
  · intro lvs
    rw [podsUpdate_ContainerRestarts, GaugeVec.labels,
      mem_mapKeys_foldl_mapModify (fun e : List String × ℚ => e.1) (fun e _ => e.2)]
    simp [mapKeys]
  · intro e he
    rw [GaugeVec.value?, podsUpdate_ContainerRestarts]
    exact lookup_foldl_set_of_nodup (fun e : List String × ℚ => e.1) (fun e => e.2) 0
      (restartEntries pods) [] hnd e he
  · intro ns
    rw [podsUpdate_CPURequests, podsUpdate_MemoryRequests, podsUpdate_CPULimits,
      podsUpdate_MemoryLimits]
    exact ⟨holdsNamespaceTotal_setAll _ _ _, holdsNamespaceTotal_setAll _ _ _,
      holdsNamespaceTotal_setAll _ _ _, holdsNamespaceTotal_setAll _ _ _⟩

theorem holdsPods_congr (pods : List Pod) (m m2 : PrometheusMetrics)
    (h : podGauges m2 = podGauges m) (hm : holdsPods pods m) : holdsPods pods m2 := by
  simp only [podGauges, Prod.mk.injEq] at h
  obtain ⟨h1, h2, h3, h4, h5, h6, h7⟩ := h
  unfold holdsPods
  rw [h1, h2, h3, h4, h5, h6, h7]
  exact hm

/-! ## What the deployment block leaves in the deployment gauges -/

theorem holdsDeployments_deploymentsUpdate (ds : List Deployment) (m : PrometheusMetrics)
    (hr : ∀ d ∈ ds, d.Replicas ≠ none)
    (hnd : (ds.map (fun d => [d.Namespace, d.Name])).Nodup) :
    holdsDeployments ds (deploymentsUpdate ds m).1 := by
  refine ⟨deploymentsUpdate_DeploymentCount ds m, ?_, ?_, ?_⟩
  · intro lvs
    rw [deploymentsUpdate_DeploymentDesired ds m hr, GaugeVec.labels,
      mem_mapKeys_foldl_mapModify (fun d : Deployment => [d.Namespace, d.Name])
        (fun d _ => ((d.Replicas.getD 0 : Int) : ℚ))]
    simp only [mapKeys, List.map_nil, List.not_mem_nil, false_or, List.mem_map]
    constructor
    · rintro ⟨d, hd, rfl⟩; exact ⟨d, hd, rfl⟩
    · rintro ⟨d, hd, rfl⟩; exact ⟨d, hd, rfl⟩
  · intro lvs
    rw [deploymentsUpdate_DeploymentAvailable ds m hr, GaugeVec.labels,
      mem_mapKeys_foldl_mapModify (fun d : Deployment => [d.Namespace, d.Name])
        (fun d _ => (d.AvailableReplicas : ℚ))]
    simp only [mapKeys, List.map_nil, List.not_mem_nil, false_or, List.mem_map]
    constructor
    · rintro ⟨d, hd, rfl⟩; exact ⟨d, hd, rfl⟩
    · rintro ⟨d, hd, rfl⟩; exact ⟨d, hd, rfl⟩
  · intro d hdm
    constructor
    · intro n hrep
      rw [GaugeVec.value?, deploymentsUpdate_DeploymentDesired ds m hr]
      have h := lookup_foldl_set_of_nodup (fun d : Deployment => [d.Namespace, d.Name])
        (fun d => ((d.Replicas.getD 0 : Int) : ℚ)) 0 ds [] hnd d hdm
      simp only [hrep, Option.getD_some] at h
      exact h
    · rw [GaugeVec.value?, deploymentsUpdate_DeploymentAvailable ds m hr]
      exact lookup_foldl_set_of_nodup (fun d : Deployment => [d.Namespace, d.Name])
        (fun d => (d.AvailableReplicas : ℚ)) 0 ds [] hnd d hdm

theorem holdsDeployments_congr (ds : List Deployment) (m m2 : PrometheusMetrics)
    (h : deploymentGauges m2 = deploymentGauges m) (hm : holdsDeployments ds m) :
    holdsDeployments ds m2 := by
  simp only [deploymentGauges, Prod.mk.injEq] at h
  obtain ⟨h1, h2, h3⟩ := h
  unfold holdsDeployments
  rw [h1, h2, h3]
  exact hm

/-! ## Totals that need no rounding -/

theorem roundFloat64_natGrid (k : ℕ) (q : ℤ) (hk : k ≤ 2 ^ 53) (hq : -1074 ≤ q) :
    roundFloat64 ((k : ℚ) * 2 ^ q) = (k : ℚ) * 2 ^ q := by
  rcases lt_or_eq_of_le hk with h | h
  · have h2 : |(k : ℤ)| < 2 ^ 53 := by
      rw [abs_of_nonneg (Int.natCast_nonneg k)]
      exact_mod_cast h
    have := roundFloat64_exact (k : ℤ) q h2 hq
    simpa using this
  · have := roundFloat64_exact 1 (q + 53) (by norm_num) (by omega)
    have e : ((k : ℚ)) * 2 ^ q = ((1 : ℤ) : ℚ) * 2 ^ (q + 53) := by
      rw [h, zpow_add₀ (by norm_num : (2 : ℚ) ≠ 0)]
      push_cast
      norm_num
      ring
    rw [e]
    exact this

/-- A running sum in `float64` of values on a common grid is the exact sum as long as the
exact sum does not leave the 53 bits of the significand. -/
theorem foldl_float64Add_exact (q : ℤ) (hq : -1074 ≤ q) (l : List ℚ) (a : ℚ) (ka : ℕ)
    (ha : a = (ka : ℚ) * 2 ^ q) (hl : ∀ v ∈ l, ∃ k : ℕ, v = (k : ℚ) * 2 ^ q)
    (hsum : a + l.sum ≤ 2 ^ 53 * 2 ^ q) : l.foldl float64Add a = a + l.sum := by
  have h2pos : (0 : ℚ) < 2 ^ q := by positivity
  induction l generalizing a ka with
  | nil => simp
  | cons v l ih =>
    obtain ⟨kv, hv⟩ := hl v (List.mem_cons_self _ _)
    have hl2 : ∀ w ∈ l, ∃ k : ℕ, w = (k : ℚ) * 2 ^ q :=
      fun w hw => hl w (List.mem_cons_of_mem _ hw)
    have hnonneg : 0 ≤ l.sum := by
      apply List.sum_nonneg
      intro w hw
      obtain ⟨k, hk⟩ := hl2 w hw
      rw [hk]
      positivity
    rw [List.sum_cons] at hsum
    have hav : a + v = ((ka + kv : ℕ) : ℚ) * 2 ^ q := by
      rw [ha, hv]
      push_cast
      ring
    have hle : ((ka + kv : ℕ) : ℚ) * 2 ^ q ≤ 2 ^ 53 * 2 ^ q := by
      rw [← hav]
      linarith
    have hk : ka + kv ≤ 2 ^ 53 := by
      have h3 : ((ka + kv : ℕ) : ℚ) ≤ 2 ^ 53 := le_of_mul_le_mul_right hle h2pos
      exact_mod_cast h3
    have hstep : float64Add a v = a + v := by
      unfold float64Add
      rw [hav]
      exact roundFloat64_natGrid _ q hk hq
    rw [List.foldl_cons, hstep, ih (a + v) (ka + kv) hav hl2 (by linarith), List.sum_cons]
    ring

theorem namespaceTotal_exact (quantity : Container → Option ℚ) (ns : String)
    (pods : List Pod) (q : ℤ) (h : onGrid quantity ns pods q) :
    namespaceTotal quantity ns pods = exactTotal quantity ns pods := by
  obtain ⟨hq, hl, hsum⟩ := h
  unfold namespaceTotal
  rw [foldl_float64Add_exact q hq _ 0 0 (by simp) hl (by simpa [exactTotal] using hsum)]
  simp [exactTotal]

/-! ## Listings in another order -/

theorem contributions_perm (quantity : Container → Option ℚ) (ns : String)
    (pods pods2 : List Pod) (h : pods.Perm pods2) :
    (contributions quantity ns pods).Perm (contributions quantity ns pods2) := by
  induction h with
  | nil => exact List.Perm.refl _
  | cons p _ ih => exact List.Perm.append_left _ ih
  | swap p p2 l =>
    simp only [contributions, ← List.append_assoc]
    exact List.Perm.append_right _ List.perm_append_comm
  | trans _ _ ih1 ih2 => exact ih1.trans ih2

theorem contributions_forall₂ (quantity : Container → Option ℚ) (ns : String)
    (pods pods2 : List Pod)
    (h : List.Forall₂ (fun p p2 => ∃ cs, cs.Perm p.Containers ∧ p2 = { p with Containers := cs })
      pods pods2) :
    (contributions quantity ns pods).Perm (contributions quantity ns pods2) := by
  induction h with
  | nil => exact List.Perm.refl _
  | cons hp _ ih =>
    obtain ⟨cs, hcs, rfl⟩ := hp
    simp only [contributions]
    refine List.Perm.append ?_ ih
    split
    · exact (hcs.filterMap quantity).symm
    · exact List.Perm.refl _

theorem contributions_sameUpToOrder (quantity : Container → Option ℚ) (ns : String)
    (pods pods2 : List Pod) (h : sameUpToOrder pods pods2) :
    (contributions quantity ns pods).Perm (contributions quantity ns pods2) := by
  obtain ⟨mid, hperm, hall⟩ := h
  exact (contributions_perm quantity ns mid pods hperm).symm.trans
    (contributions_forall₂ quantity ns mid pods2 hall)

theorem declaredIn_iff_contributions (quantity : Container → Option ℚ) (ns : String)
    (pods : List Pod) :
    declaredIn quantity ns pods ↔ ∃ v, v ∈ contributions quantity ns pods := by
  induction pods with
  | nil => simp [declaredIn, contributions]
  | cons p ps ih =>
    have e : declaredIn quantity ns (p :: ps)
        ↔ (p.Namespace = ns ∧ ∃ c ∈ p.Containers, (quantity c).isSome = true)
          ∨ declaredIn quantity ns ps := by
      simp only [declaredIn, List.mem_cons, exists_eq_or_imp]
    rw [e, ih]
    simp only [contributions, List.mem_append]
    constructor
    · rintro (⟨hns, c, hc, hq⟩ | ⟨v, hv⟩)
      · obtain ⟨v, hv⟩ := Option.isSome_iff_exists.1 hq
        exact ⟨v, Or.inl (by rw [if_pos hns]; exact List.mem_filterMap.2 ⟨c, hc, hv⟩)⟩
      · exact ⟨v, Or.inr hv⟩
    · rintro ⟨v, hv | hv⟩
      · by_cases hns : p.Namespace = ns
        · rw [if_pos hns] at hv
          obtain ⟨c, hc, hq⟩ := List.mem_filterMap.1 hv
          exact Or.inl ⟨hns, c, hc, by rw [hq]; rfl⟩
        · rw [if_neg hns] at hv
          cases hv
      · exact Or.inr ⟨v, hv⟩

theorem onGrid_of_perm (quantity : Container → Option ℚ) (ns : String) (pods pods2 : List Pod)
    (h : (contributions quantity ns pods).Perm (contributions quantity ns pods2)) (q : ℤ)
    (hg : onGrid quantity ns pods q) :
    onGrid quantity ns pods2 q ∧ exactTotal quantity ns pods2 = exactTotal quantity ns pods := by
  have hs : exactTotal quantity ns pods2 = exactTotal quantity ns pods := by
    unfold exactTotal
    exact h.symm.sum_eq
  refine ⟨⟨hg.1, fun v hv => hg.2.1 v (h.mem_iff.2 hv), ?_⟩, hs⟩
  rw [hs]
  exact hg.2.2

/-- A namespace family after the pod block on a listing and on the same listing in
another order: the same namespaces have a series, with the same value when no partial sum
needs rounding. -/
theorem agreeOn_setAll (quantity : Container → Option ℚ) (pods pods2 : List Pod) (ns : String)
    (h : sameUpToOrder pods pods2) :
    agreeOn (setAll (accPods quantity pods []) []) (setAll (accPods quantity pods2 []) [])
      quantity pods ns := by
  have hperm := contributions_sameUpToOrder quantity ns pods pods2 h
  have hdecl : declaredIn quantity ns pods ↔ declaredIn quantity ns pods2 := by
    rw [declaredIn_iff_contributions, declaredIn_iff_contributions]
    constructor
    · rintro ⟨v, hv⟩; exact ⟨v, hperm.mem_iff.1 hv⟩
    · rintro ⟨v, hv⟩; exact ⟨v, hperm.mem_iff.2 hv⟩
  obtain ⟨a1, a2, a3, -, -⟩ := namespaceFamily_spec quantity pods ns
  obtain ⟨b1, b2, b3, -, -⟩ := namespaceFamily_spec quantity pods2 ns
  refine ⟨a1.trans (hdecl.trans b1.symm), ?_⟩
  intro q hg
  obtain ⟨hg2, hs⟩ := onGrid_of_perm quantity ns pods pods2 hperm q hg
  by_cases hd : declaredIn quantity ns pods
  · rw [a2 hd, b2 (hdecl.1 hd), namespaceTotal_exact quantity ns pods q hg,
      namespaceTotal_exact quantity ns pods2 q hg2, hs]
  · rw [a3 hd, b3 (fun h2 => hd (hdecl.2 h2))]

/-! ## Values of `float64` on the example data -/

theorem float64_eq_self (i : ℤ) (h : |i| ≤ 2 ^ 53) : float64 i = (i : ℚ) :=
  roundFloat64_intCast i h

/-- One tenth, one fifth and three tenths are not `float64` values: the quotients of 100,
200 and 300 by 1000 are the nearest ones. -/
theorem float64Div_examples :
    float64Div (float64 100) 1000 = 3602879701896397 / 36028797018963968
    ∧ float64Div (float64 200) 1000 = 3602879701896397 / 18014398509481984
    ∧ float64Div (float64 300) 1000 = 5404319552844595 / 18014398509481984
    ∧ float64Div (float64 500) 1000 = 1 / 2
    ∧ float64Div (float64 2000) 1000 = 2 := by
  have h100 : float64 100 = 100 := by
    have := float64_eq_self 100 (by norm_num)
    simpa using this
  have h200 : float64 200 = 200 := by
    have := float64_eq_self 200 (by norm_num)
    simpa using this
  have h300 : float64 300 = 300 := by
    have := float64_eq_self 300 (by norm_num)
    simpa using this
  have h500 : float64 500 = 500 := by
    have := float64_eq_self 500 (by norm_num)
    simpa using this
  have h2000 : float64 2000 = 2000 := by
    have := float64_eq_self 2000 (by norm_num)
    simpa using this
  rw [h100, h200, h300, h500, h2000]
  unfold float64Div
  refine ⟨?_, ?_, ?_, ?_, ?_⟩
  · rw [roundFloat64_eq (100 / 1000) (-4) 7205759403792794 (by norm_num)
      (by norm_num [abs_of_pos]) (by norm_num [abs_of_pos]) (Or.inl (by norm_num [abs_lt]))]
    norm_num
  · rw [roundFloat64_eq (200 / 1000) (-3) 7205759403792794 (by norm_num)
      (by norm_num [abs_of_pos]) (by norm_num [abs_of_pos]) (Or.inl (by norm_num [abs_lt]))]
    norm_num
  · rw [roundFloat64_eq (300 / 1000) (-2) 5404319552844595 (by norm_num)
      (by norm_num [abs_of_pos]) (by norm_num [abs_of_pos]) (Or.inl (by norm_num [abs_lt]))]
    norm_num
  · have := roundFloat64_exact 1 (-1) (by norm_num) (by norm_num)
    norm_num at this ⊢
    exact this
  · have := roundFloat64_exact 2 0 (by norm_num) (by norm_num)
    norm_num at this ⊢
    exact this

/-- The running sums of the example: a `float64` added to zero is unchanged, and the
sums of three tenths depend on the order. -/
theorem float64Add_examples :
    float64Add 0 (1 / 2) = 1 / 2
    ∧ float64Add 0 536870912 = 536870912
    ∧ float64Add (float64Add (float64Add 0 (3602879701896397 / 36028797018963968))
          (3602879701896397 / 18014398509481984)) (5404319552844595 / 18014398509481984)
        = 1351079888211149 / 2251799813685248
    ∧ float64Add (float64Add (float64Add 0 (5404319552844595 / 18014398509481984))
          (3602879701896397 / 18014398509481984)) (3602879701896397 / 36028797018963968)
        = 5404319552844595 / 9007199254740992 := by
  unfold float64Add
  have e1 : roundFloat64 (0 + 3602879701896397 / 36028797018963968)
      = 3602879701896397 / 36028797018963968 := by
    rw [roundFloat64_eq _ (-4) 7205759403792794 (by norm_num)
      (by norm_num [abs_of_pos]) (by norm_num [abs_of_pos]) (Or.inl (by norm_num [abs_lt]))]
    norm_num
  have e2 : roundFloat64 (3602879701896397 / 36028797018963968
        + 3602879701896397 / 18014398509481984) = 1351079888211149 / 4503599627370496 := by
    rw [roundFloat64_eq _ (-2) 5404319552844596 (by norm_num)
      (by norm_num [abs_of_pos]) (by norm_num [abs_of_pos])
      (Or.inr ⟨by norm_num [abs_of_neg], by norm_num⟩)]
    norm_num
  have e3 : roundFloat64 (1351079888211149 / 4503599627370496
        + 5404319552844595 / 18014398509481984) = 1351079888211149 / 2251799813685248 := by
    rw [roundFloat64_eq _ (-1) 5404319552844596 (by norm_num)
      (by norm_num [abs_of_pos]) (by norm_num [abs_of_pos])
      (Or.inr ⟨by norm_num [abs_of_neg], by norm_num⟩)]
    norm_num
  have d1 : roundFloat64 (0 + 5404319552844595 / 18014398509481984)
      = 5404319552844595 / 18014398509481984 := by
    rw [roundFloat64_eq _ (-2) 5404319552844595 (by norm_num)
      (by norm_num [abs_of_pos]) (by norm_num [abs_of_pos]) (Or.inl (by norm_num [abs_lt]))]
    norm_num
  have d2 : roundFloat64 (5404319552844595 / 18014398509481984
        + 3602879701896397 / 18014398509481984) = 1 / 2 := by
    rw [roundFloat64_eq _ (-1) 4503599627370496 (by norm_num)
      (by norm_num [abs_of_pos]) (by norm_num [abs_of_pos]) (Or.inl (by norm_num [abs_lt]))]
    norm_num
  have d3 : roundFloat64 (1 / 2 + 3602879701896397 / 36028797018963968)
      = 5404319552844595 / 9007199254740992 := by
    rw [roundFloat64_eq _ (-1) 5404319552844595 (by norm_num)
      (by norm_num [abs_of_pos]) (by norm_num [abs_of_pos]) (Or.inl (by norm_num [abs_lt]))]
    norm_num
  refine ⟨?_, ?_, ?_, ?_⟩
  · have := roundFloat64_exact 1 (-1) (by norm_num) (by norm_num)
    norm_num at this ⊢
    exact this
  · have := roundFloat64_exact 536870912 0 (by norm_num) (by norm_num)
    norm_num at this ⊢
    exact this
  · rw [e1, e2, e3]
  · rw [d1, d2, d3]

/-- The conversion of `2 ^ 53 + 1` bytes rounds to `2 ^ 53`. -/
theorem float64_examples :
    float64 9007199254740993 = 9007199254740992
    ∧ float64 4294967296 = 4294967296
    ∧ float64 536870912 = 536870912 := by
  refine ⟨?_, ?_, ?_⟩
  · unfold float64
    rw [roundFloat64_eq _ 53 4503599627370496 (by norm_num)
      (by norm_num [abs_of_pos]) (by norm_num [abs_of_pos])
      (Or.inr ⟨by norm_num [abs_of_pos], by norm_num⟩)]
    norm_num
  · have := float64_eq_self 4294967296 (by norm_num)
    simpa using this
  · have := float64_eq_self 536870912 (by norm_num)
    simpa using this

theorem contributions_examples :
    contributions cpuRequestOf "default" exPodsAscending
        = [float64Div (float64 100) 1000, float64Div (float64 200) 1000,
            float64Div (float64 300) 1000]
    ∧ contributions cpuRequestOf "default" exPodsDescending
        = [float64Div (float64 300) 1000, float64Div (float64 200) 1000,
            float64Div (float64 100) 1000] := by
  constructor <;> rfl

/-- The CPU request totals of the three example pods, listed in the two orders. -/
theorem namespaceTotal_examples :
    namespaceTotal cpuRequestOf "default" exPodsAscending
        = 1351079888211149 / 2251799813685248
    ∧ namespaceTotal cpuRequestOf "default" exPodsDescending
        = 5404319552844595 / 9007199254740992 := by
  obtain ⟨c1, c2⟩ := contributions_examples
  obtain ⟨v1, v2, v3, -, -⟩ := float64Div_examples
  unfold namespaceTotal
  rw [c1, c2, v1, v2, v3]
  exact ⟨float64Add_examples.2.2.1, float64Add_examples.2.2.2⟩

/-! ## The gauges of the groups that a poll completed -/

/-- After a poll whose five listings succeed, the four namespace families are those that
the pod block computed from the pod listing. -/
theorem MetricsJSONHandler_success_totals (w : ResponseWriter) (r : Request) (s : World)
    (pods : List Pod) (hall : s.cluster.allSucceed = true) (hrep : s.cluster.replicasSet)
    (hp : s.cluster.pods = .ok pods) :
    (Handler.MetricsJSONHandler w r s).s.m.CPURequests
        = setAll (accPods cpuRequestOf pods []) []
    ∧ (Handler.MetricsJSONHandler w r s).s.m.MemoryRequests
        = setAll (accPods memRequestOf pods []) []
    ∧ (Handler.MetricsJSONHandler w r s).s.m.CPULimits
        = setAll (accPods cpuLimitOf pods []) []
    ∧ (Handler.MetricsJSONHandler w r s).s.m.MemoryLimits
        = setAll (accPods memLimitOf pods []) [] := by
  obtain ⟨nodes, pods2, nss, ds, svcs, hn, hp2, hns, hd, hs⟩ := allSucceed_lists s.cluster hall
  rw [hp, Except.ok.injEq] at hp2
  subst hp2
  have g := (MetricsJSONHandler_success_groups w r s nodes pods nss ds svcs hn hp hns hd hs
    (hrep ds hd)).2.1
  simp only [podGauges, Prod.mk.injEq] at g
  obtain ⟨-, -, -, g1, g2, g3, g4⟩ := g
  rw [g1, g2, g3, g4, podsUpdate_CPURequests, podsUpdate_MemoryRequests, podsUpdate_CPULimits,
    podsUpdate_MemoryLimits]
  exact ⟨rfl, rfl, rfl, rfl⟩

/-- When the listing of kind `k` is the first to fail, the gauges of every listing before
`k` hold what that listing determines. -/
theorem MetricsJSONHandler_abort_holds (w : ResponseWriter) (r : Request) (s : World)
    (k : Kind) (e : String) (hr : s.cluster.replicasSet) (hk : s.cluster.distinctKeys)
    (hf : s.cluster.firstFailure = some (k, e)) :
    (∀ nodes, s.cluster.nodes = .ok nodes → Kind.nodes.index < k.index →
        holdsNodes nodes (Handler.MetricsJSONHandler w r s).s.m)
    ∧ (∀ pods, s.cluster.pods = .ok pods → Kind.pods.index < k.index →
        holdsPods pods (Handler.MetricsJSONHandler w r s).s.m)
    ∧ (∀ nss, s.cluster.namespaces = .ok nss → Kind.namespaces.index < k.index →
        (Handler.MetricsJSONHandler w r s).s.m.NamespaceCount = (nss.length : ℚ))
    ∧ (∀ ds, s.cluster.deployments = .ok ds → Kind.deployments.index < k.index →
        holdsDeployments ds (Handler.MetricsJSONHandler w r s).s.m) := by
  obtain ⟨hkn, hkp, hkd⟩ := hk
  rcases firstFailure_cases s.cluster k e hf with
    ⟨rfl, hn⟩ | ⟨rfl, nodes, hn, hp⟩ | ⟨rfl, nodes, pods, hn, hp, hns⟩
    | ⟨rfl, nodes, pods, nss, hn, hp, hns, hd⟩ | ⟨rfl, nodes, pods, nss, ds, hn, hp, hns, hd, hs⟩
  · refine ⟨?_, ?_, ?_, ?_⟩ <;> intro _ _ hlt <;> simp [Kind.index] at hlt
  · rw [MetricsJSONHandler_pods_fail w r s nodes e hn hp]
    refine ⟨?_, ?_, ?_, ?_⟩
    · intro nodes2 hn2 _
      rw [hn, Except.ok.injEq] at hn2
      subst hn2
      exact holdsNodes_nodesUpdate nodes s.m (hkn nodes hn)
    all_goals intro _ _ hlt; simp [Kind.index] at hlt
  · rw [MetricsJSONHandler_namespaces_fail w r s nodes pods e hn hp hns]
    refine ⟨?_, ?_, ?_, ?_⟩
    · intro nodes2 hn2 _
      rw [hn, Except.ok.injEq] at hn2
      subst hn2
      exact holdsNodes_congr nodes _ _ (nodeGauges_podsUpdate pods _)
        (holdsNodes_nodesUpdate nodes s.m (hkn nodes hn))
    · intro pods2 hp2 _
      rw [hp, Except.ok.injEq] at hp2
      subst hp2
      exact holdsPods_podsUpdate pods _ (hkp pods hp)
    all_goals intro _ _ hlt; simp [Kind.index] at hlt
  · rw [MetricsJSONHandler_deployments_fail w r s nodes pods nss e hn hp hns hd]
    refine ⟨?_, ?_, ?_, ?_⟩
    · intro nodes2 hn2 _
      rw [hn, Except.ok.injEq] at hn2
      subst hn2
      exact holdsNodes_congr nodes _ _
        ((nodeGauges_namespacesUpdate nss _).trans (nodeGauges_podsUpdate pods _))
        (holdsNodes_nodesUpdate nodes s.m (hkn nodes hn))
    · intro pods2 hp2 _
      rw [hp, Except.ok.injEq] at hp2
      subst hp2
      exact holdsPods_congr pods _ _ (podGauges_namespacesUpdate nss _)
        (holdsPods_podsUpdate pods _ (hkp pods hp))
    · intro nss2 hns2 _
      rw [hns, Except.ok.injEq] at hns2
      subst hns2
      rfl
    · intro _ _ hlt
      simp [Kind.index] at hlt
  · have hflag := deploymentsUpdate_no_panic ds
      (namespacesUpdate nss (podsUpdate pods (nodesUpdate nodes s.m)).m) (hr ds hd)
    rw [MetricsJSONHandler_services_fail w r s nodes pods nss ds e hn hp hns hd hs hflag]
    refine ⟨?_, ?_, ?_, ?_⟩
    · intro nodes2 hn2 _
      rw [hn, Except.ok.injEq] at hn2
      subst hn2
      exact holdsNodes_congr nodes _ _
        ((nodeGauges_deploymentsUpdate ds _).trans
          ((nodeGauges_namespacesUpdate nss _).trans (nodeGauges_podsUpdate pods _)))
        (holdsNodes_nodesUpdate nodes s.m (hkn nodes hn))
    · intro pods2 hp2 _
      rw [hp, Except.ok.injEq] at hp2
      subst hp2
      exact holdsPods_congr pods _ _
        ((podGauges_deploymentsUpdate ds _).trans (podGauges_namespacesUpdate nss _))
        (holdsPods_podsUpdate pods _ (hkp pods hp))
    · intro nss2 hns2 _
      rw [hns, Except.ok.injEq] at hns2
      subst hns2
      exact (namespaceGauges_deploymentsUpdate ds _).trans rfl
    · intro ds2 hd2 _
      rw [hd, Except.ok.injEq] at hd2
      subst hd2
      exact holdsDeployments_deploymentsUpdate ds _ (hr ds hd) (hkd ds hd)

/-- The totals of the end-to-end scenario: one half of a core and 512Mi. -/
theorem namespaceTotal_e2e :
    namespaceTotal cpuRequestOf "default" [e2ePod] = 1 / 2
    ∧ namespaceTotal memRequestOf "default" [e2ePod] = 536870912 := by
  have c1 : contributions cpuRequestOf "default" [e2ePod] = [float64Div (float64 500) 1000] :=
    rfl
  have c2 : contributions memRequestOf "default" [e2ePod] = [float64 536870912] := rfl
  unfold namespaceTotal
  rw [c1, c2, float64Div_examples.2.2.2.1, float64_examples.2.2]
  exact ⟨float64Add_examples.1, float64Add_examples.2.1⟩

/-- The quotient by 1000 of an `int64` of magnitude at most `2 ^ 53`: the conversion is
exact, so the quotient is rounded once and differs from the exact quotient by at most the
fraction `2 ^ (-53)` of it. -/
theorem float64Div_milli (i : ℤ) (h : |i| ≤ 2 ^ 53) :
    float64Div (float64 i) 1000 = roundFloat64 ((i : ℚ) / 1000)
    ∧ |float64Div (float64 i) 1000 - (i : ℚ) / 1000| ≤ |(i : ℚ) / 1000| / 2 ^ 53 := by
  rw [float64_eq_self i h]
  unfold float64Div
  refine ⟨rfl, ?_⟩
  by_cases h0 : i = 0
  · subst h0
    simp [roundFloat64_zero]
  · apply roundFloat64_near
    have h1 : (1 : ℚ) ≤ |(i : ℚ)| := by
      have : (1 : ℤ) ≤ |i| := Int.one_le_abs h0
      exact_mod_cast this
    have h2 : (2 : ℚ) ^ (-1022 : ℤ) ≤ 2 ^ (-10 : ℤ) :=
      zpow_le_zpow_right₀ (by norm_num) (by norm_num)
    have h3 : (2 : ℚ) ^ (-10 : ℤ) ≤ 1 / 1000 := by norm_num
    have h4 : (1 : ℚ) / 1000 ≤ |(i : ℚ) / 1000| := by
      rw [abs_div, abs_of_pos (by norm_num : (0 : ℚ) < 1000)]
      exact div_le_div_of_nonneg_right h1 (by norm_num)
    exact h2.trans (h3.trans h4)

/-! ## Claims -/

/-- C1: after a poll whose five listings succeed (every listed deployment having its
replica field set), the body gains exactly one JSON snapshot, and in that snapshot the sum
of the values of `podPhases` equals `podCount`, which equals the number of listed pods,
whatever the phase strings are. -/
theorem C1_phase_tallies_sum_to_pod_count (w : ResponseWriter) (r : Request) (s : World)
    (nodes : List Node) (pods : List Pod) (namespaces : List Namespace)
    (deployments : List Deployment) (services : List Service)
    (hn : s.cluster.nodes = .ok nodes) (hp : s.cluster.pods = .ok pods)
    (hns : s.cluster.namespaces = .ok namespaces)
    (hd : s.cluster.deployments = .ok deployments)
    (hs : s.cluster.services = .ok services)
    (hr : ∀ d ∈ deployments, d.Replicas ≠ none) :
    ∃ v : ClusterMetrics,
      (Handler.MetricsJSONHandler w r s).w.Body = w.Body ++ [Chunk.jsonMetrics v]
      ∧ (Handler.MetricsJSONHandler w r s).panicked = false
      ∧ mapSum v.PodPhases = v.PodCount
      ∧ v.PodCount = pods.length := by
  refine ⟨snapshotOf nodes pods namespaces deployments services s.m s.now, ?_, ?_, ?_, rfl⟩
  · rw [MetricsJSONHandler_success w r s nodes pods namespaces deployments services
      hn hp hns hd hs hr]
    simp [ResponseWriter.Write, ResponseWriter.WriteHeader, ResponseWriter.SetHeader]
    split <;> rfl
  · rw [MetricsJSONHandler_success w r s nodes pods namespaces deployments services
      hn hp hns hd hs hr]
  · exact podsUpdate_podPhases_sum pods _

theorem C1_witness :
    (∀ d ∈ [exDeployment], d.Replicas ≠ none) ∧
    ∃ v : ClusterMetrics,
      (Handler.MetricsJSONHandler NewRecorder exRequest exWorld).w.Body
        = NewRecorder.Body ++ [Chunk.jsonMetrics v]
      ∧ (Handler.MetricsJSONHandler NewRecorder exRequest exWorld).panicked = false
      ∧ mapSum v.PodPhases = v.PodCount
      ∧ v.PodCount = [exPod].length :=
  ⟨by simp [exDeployment],
    C1_phase_tallies_sum_to_pod_count NewRecorder exRequest exWorld [exNode] [exPod]
      [⟨"default"⟩] [exDeployment] [⟨"default", "svc1"⟩] rfl rfl rfl rfl rfl
      (by simp [exDeployment])⟩

/-- C2: for a node of a successful node listing (node names being distinct, as the API
server guarantees), the value that the handler leaves in the `node_status_ready` family
for that node is 1 if some condition of the node has type "Ready" and status "True" and 0
otherwise, whatever the later listings answer; a node without a "Ready" condition gets 0,
and permuting the condition list does not change the value. -/
theorem C2_node_readiness (w : ResponseWriter) (r : Request) (s : World)
    (nodes : List Node) (n : Node)
    (hn : s.cluster.nodes = .ok nodes) (hnd : (nodes.map Node.Name).Nodup) (hmem : n ∈ nodes) :
    (Handler.MetricsJSONHandler w r s).s.m.NodeReady.value? [n.Name]
        = some (boolToFloat (readyLoop n.Conditions))
    ∧ (boolToFloat (readyLoop n.Conditions) = 1
        ↔ ∃ c ∈ n.Conditions, c.Type_ = "Ready" ∧ c.Status = "True")
    ∧ (boolToFloat (readyLoop n.Conditions) = 0
        ↔ ¬ ∃ c ∈ n.Conditions, c.Type_ = "Ready" ∧ c.Status = "True")
    ∧ ((∀ c ∈ n.Conditions, c.Type_ ≠ "Ready") → boolToFloat (readyLoop n.Conditions) = 0)
    ∧ (∀ conds : List NodeCondition, conds.Perm n.Conditions →
        boolToFloat (readyLoop conds) = boolToFloat (readyLoop n.Conditions)) := by
  have h1 : boolToFloat (readyLoop n.Conditions) = 1
      ↔ ∃ c ∈ n.Conditions, c.Type_ = "Ready" ∧ c.Status = "True" := by
    rw [← readyLoop_eq_true_iff]
    cases readyLoop n.Conditions <;> simp [boolToFloat]
  have h0 : boolToFloat (readyLoop n.Conditions) = 0
      ↔ ¬ ∃ c ∈ n.Conditions, c.Type_ = "Ready" ∧ c.Status = "True" := by
    rw [← readyLoop_eq_true_iff]
    cases readyLoop n.Conditions <;> simp [boolToFloat]
  refine ⟨?_, h1, h0, ?_, ?_⟩
  · have hg := MetricsJSONHandler_nodeGauges w r s nodes hn
    simp only [nodeGauges, Prod.mk.injEq] at hg
    rw [GaugeVec.value?, hg.2.1, nodesUpdate_NodeReady]
    have hnd' : (nodes.map (fun n : Node => [n.Name])).Nodup := by
      have : nodes.map (fun n : Node => [n.Name]) = (nodes.map Node.Name).map (fun x => [x]) := by
        simp
      rw [this]
      exact hnd.map (fun a b hab => by simpa using hab)
    exact lookup_foldl_set_of_nodup (fun n : Node => [n.Name])
      (fun n => boolToFloat (readyLoop n.Conditions)) 0 nodes [] hnd' n hmem
  · intro hno
    rw [h0]
    rintro ⟨c, hc, hr⟩
    exact hno c hc hr.1
  · intro conds hperm
    rw [readyLoop_perm n.Conditions conds hperm]

theorem C2_witness :
    exWorld.cluster.nodes = .ok [exNode] ∧ ([exNode].map Node.Name).Nodup ∧ exNode ∈ [exNode]
    ∧ (Handler.MetricsJSONHandler NewRecorder exRequest exWorld).s.m.NodeReady.value?
          [exNode.Name] = some (boolToFloat (readyLoop exNode.Conditions))
    ∧ (boolToFloat (readyLoop exNode.Conditions) = 1
        ↔ ∃ c ∈ exNode.Conditions, c.Type_ = "Ready" ∧ c.Status = "True")
    ∧ (boolToFloat (readyLoop exNode.Conditions) = 0
        ↔ ¬ ∃ c ∈ exNode.Conditions, c.Type_ = "Ready" ∧ c.Status = "True")
    ∧ ((∀ c ∈ exNode.Conditions, c.Type_ ≠ "Ready")
        → boolToFloat (readyLoop exNode.Conditions) = 0)
    ∧ (∀ conds : List NodeCondition, conds.Perm exNode.Conditions →
        boolToFloat (readyLoop conds) = boolToFloat (readyLoop exNode.Conditions)) :=
  ⟨rfl, by simp, by simp,
    C2_node_readiness NewRecorder exRequest exWorld [exNode] exNode rfl (by simp) (by simp)⟩

/-- C3: when the `Authorization` header is absent, or does not split on single spaces into
exactly two parts, or its first part lowered is not "bearer", or its second part is not the
expected token, the middleware answers a fresh response with status 401, the plain-text
body "unauthorized\n", the same result whatever the wrapped handler is, and the wrapped
handler is not invoked (the record of its invocations stays empty). -/
theorem C3_auth_rejects (σ : Type) (expectedToken : String) (logger : Logger σ)
    (next : HandlerFunc σ) (w : ResponseWriter) (r : Request) (s : σ)
    (hw : w.wroteHeader = false)
    (hbad : List.lookup "Authorization" r.Header = none
      ∨ (stringsSplitSpace (r.Header.Get "Authorization")).length ≠ 2
      ∨ stringsToLower ((stringsSplitSpace (r.Header.Get "Authorization")).getD 0 "") ≠ "bearer"
      ∨ (stringsSplitSpace (r.Header.Get "Authorization")).getD 1 "" ≠ expectedToken) :
    (AuthMiddleware expectedToken logger next w r s).w.Code = 401
    ∧ (AuthMiddleware expectedToken logger next w r s).w.Body
        = w.Body ++ [Chunk.text "unauthorized\n"]
    ∧ List.lookup "Content-Type" (AuthMiddleware expectedToken logger next w r s).w.HeaderMap
        = some "text/plain; charset=utf-8"
    ∧ (∀ next2 : HandlerFunc σ, AuthMiddleware expectedToken logger next2 w r s
        = AuthMiddleware expectedToken logger next w r s)
    ∧ (AuthMiddleware expectedToken logger.withTrace (traced next) w r (s, [])).s.2 = [] := by
  have hrej : authRejects expectedToken (r.Header.Get "Authorization") = true := by
    rcases hbad with habs | hrest
    · rw [headerGet_absent _ _ habs]
      exact authRejects_of _ _ (Or.inl (by decide))
    · exact authRejects_of _ _ hrest
  have hE := httpError_fresh w "unauthorized" 401 hw
  refine ⟨?_, ?_, ?_, ?_, ?_⟩
  · simp only [AuthMiddleware, hrej, if_true]; exact hE.1
  · simp only [AuthMiddleware, hrej, if_true]; exact hE.2.1
  · simp only [AuthMiddleware, hrej, if_true]; exact hE.2.2
  · intro next2; simp only [AuthMiddleware, hrej, if_true]
  · simp only [AuthMiddleware, hrej, if_true]; rfl

theorem C3_witness :
    NewRecorder.wroteHeader = false
    ∧ (List.lookup "Authorization" (exRequestWith "Bearer invalid-token").Header = none
      ∨ (stringsSplitSpace ((exRequestWith "Bearer invalid-token").Header.Get
            "Authorization")).length ≠ 2
      ∨ stringsToLower ((stringsSplitSpace ((exRequestWith "Bearer invalid-token").Header.Get
            "Authorization")).getD 0 "") ≠ "bearer"
      ∨ (stringsSplitSpace ((exRequestWith "Bearer invalid-token").Header.Get
            "Authorization")).getD 1 "" ≠ "valid-token-123")
    ∧ (AuthMiddleware "valid-token-123" stdoutLogger exHandler NewRecorder
          (exRequestWith "Bearer invalid-token") exWorld).w.Code = 401
    ∧ (AuthMiddleware "valid-token-123" stdoutLogger exHandler NewRecorder
          (exRequestWith "Bearer invalid-token") exWorld).w.Body
        = NewRecorder.Body ++ [Chunk.text "unauthorized\n"]
    ∧ List.lookup "Content-Type" (AuthMiddleware "valid-token-123" stdoutLogger exHandler
          NewRecorder (exRequestWith "Bearer invalid-token") exWorld).w.HeaderMap
        = some "text/plain; charset=utf-8"
    ∧ (∀ next2 : HandlerFunc World, AuthMiddleware "valid-token-123" stdoutLogger next2
          NewRecorder (exRequestWith "Bearer invalid-token") exWorld
        = AuthMiddleware "valid-token-123" stdoutLogger exHandler NewRecorder
          (exRequestWith "Bearer invalid-token") exWorld)
    ∧ (AuthMiddleware "valid-token-123" stdoutLogger.withTrace (traced exHandler) NewRecorder
          (exRequestWith "Bearer invalid-token") (exWorld, [])).s.2 = [] :=
  ⟨rfl, Or.inr (Or.inr (Or.inr (by decide))),
    C3_auth_rejects World "valid-token-123" stdoutLogger exHandler NewRecorder
      (exRequestWith "Bearer invalid-token") exWorld rfl
      (Or.inr (Or.inr (Or.inr (by decide))))⟩

/-- C4, the claim as stated fails: with the secret "a b" the header "Bearer a b" splits
into three parts, so the middleware answers 401 and the wrapped handler, which would have
answered 200, is not invoked. -/
theorem C4_counterexample :
    (exRequestWith "Bearer a b").Header.Get "Authorization" = "Bearer " ++ "a b"
    ∧ (AuthMiddleware "a b" stdoutLogger exHandler NewRecorder
        (exRequestWith "Bearer a b") exWorld).w.Code = 401
    ∧ (exHandler NewRecorder (exRequestWith "Bearer a b") exWorld).w.Code = 200
    ∧ (AuthMiddleware "a b" stdoutLogger.withTrace (traced exHandler) NewRecorder
        (exRequestWith "Bearer a b") (exWorld, [])).s.2 = [] := by
  refine ⟨by decide, ?_, by decide, ?_⟩
  · have h : authRejects "a b" ((exRequestWith "Bearer a b").Header.Get "Authorization")
        = true := by decide
    simp only [AuthMiddleware, h, if_true]
    decide
  · have h : authRejects "a b" ((exRequestWith "Bearer a b").Header.Get "Authorization")
        = true := by decide
    simp only [AuthMiddleware, h, if_true]
    rfl

/-- C4, amended: for every secret token without a space character, a request whose
`Authorization` header is "Bearer " followed by the token is passed on: the result is
exactly the result of the wrapped handler on the same writer, request and world, and the
wrapped handler is invoked exactly once, with that request. -/
theorem C4_auth_accepts (σ : Type) (expectedToken : String) (logger : Logger σ)
    (next : HandlerFunc σ) (w : ResponseWriter) (r : Request) (s : σ)
    (hspace : ' ' ∉ expectedToken.data)
    (hauth : r.Header.Get "Authorization" = "Bearer " ++ expectedToken) :
    AuthMiddleware expectedToken logger next w r s = next w r s
    ∧ (AuthMiddleware expectedToken logger.withTrace (traced next) w r (s, [])).s.2 = [r] := by
  have hacc := authRejects_bearer expectedToken hspace
  constructor
  · simp [AuthMiddleware, hauth, hacc]
  · simp [AuthMiddleware, hauth, hacc, traced]

theorem C4_witness :
    ' ' ∉ ("valid-token-123" : String).data
    ∧ (exRequestWith "Bearer valid-token-123").Header.Get "Authorization"
        = "Bearer " ++ "valid-token-123"
    ∧ AuthMiddleware "valid-token-123" stdoutLogger exHandler NewRecorder
          (exRequestWith "Bearer valid-token-123") exWorld
        = exHandler NewRecorder (exRequestWith "Bearer valid-token-123") exWorld
    ∧ (AuthMiddleware "valid-token-123" stdoutLogger.withTrace (traced exHandler) NewRecorder
          (exRequestWith "Bearer valid-token-123") (exWorld, [])).s.2
        = [exRequestWith "Bearer valid-token-123"] :=
  ⟨by decide, by decide,
    C4_auth_accepts World "valid-token-123" stdoutLogger exHandler NewRecorder
      (exRequestWith "Bearer valid-token-123") exWorld (by decide) (by decide)⟩

/-- C5: on the route `/metrics` of `main`, a request without an `Authorization` header
gets status 401 on a fresh response, no listing call is issued on the Cluster Reader, and
the gauge set is left as it was, whatever the cluster and the gauges are. -/
theorem C5_no_header_no_poll (expectedAuthToken : String) (w : ResponseWriter) (r : Request)
    (s : World) (hw : w.wroteHeader = false)
    (habs : List.lookup "Authorization" r.Header = none) :
    (metricsRoute expectedAuthToken w r s).w.Code = 401
    ∧ (metricsRoute expectedAuthToken w r s).s.calls = s.calls
    ∧ (metricsRoute expectedAuthToken w r s).s.m = s.m
    ∧ (metricsRoute expectedAuthToken w r s).s.cluster = s.cluster := by
  have hrej : authRejects expectedAuthToken (r.Header.Get "Authorization") = true := by
    rw [headerGet_absent _ _ habs]
    exact authRejects_of _ _ (Or.inl (by decide))
  have hE := httpError_fresh w "unauthorized" 401 hw
  refine ⟨?_, ?_, ?_, ?_⟩
  · simp only [metricsRoute, AuthMiddleware, hrej, if_true]; exact hE.1
  · simp only [metricsRoute, AuthMiddleware, hrej, if_true]; rfl
  · simp only [metricsRoute, AuthMiddleware, hrej, if_true]; rfl
  · simp only [metricsRoute, AuthMiddleware, hrej, if_true]; rfl

theorem C5_witness :
    NewRecorder.wroteHeader = false
    ∧ List.lookup "Authorization" exRequest.Header = none
    ∧ (metricsRoute "valid-token-123" NewRecorder exRequest exWorld).w.Code = 401
    ∧ (metricsRoute "valid-token-123" NewRecorder exRequest exWorld).s.calls = exWorld.calls
    ∧ (metricsRoute "valid-token-123" NewRecorder exRequest exWorld).s.m = exWorld.m
    ∧ (metricsRoute "valid-token-123" NewRecorder exRequest exWorld).s.cluster
        = exWorld.cluster :=
  ⟨rfl, rfl, C5_no_header_no_poll "valid-token-123" NewRecorder exRequest exWorld rfl rfl⟩

/-- C6: with every listed deployment having its replica field set, the handler answers a
fresh response with 200 and the JSON snapshot if and only if the five listings succeed;
otherwise the first failing listing in the order nodes, pods, namespaces, deployments,
services aborts the poll: status 500, a plain-text body holding the error text, no
snapshot in the body, and the listing calls issued are those up to the failing one. -/
theorem C6_first_failure_aborts (w : ResponseWriter) (r : Request) (s : World)
    (hw : w.wroteHeader = false) (hr : s.cluster.replicasSet) :
    (((Handler.MetricsJSONHandler w r s).w.Code = 200
        ∧ ∃ v, (Handler.MetricsJSONHandler w r s).w.Body = w.Body ++ [Chunk.jsonMetrics v])
      ↔ s.cluster.allSucceed = true)
    ∧ (s.cluster.allSucceed = true ∨ ∃ k e, s.cluster.firstFailure = some (k, e))
    ∧ (∀ k e, s.cluster.firstFailure = some (k, e) →
        (Handler.MetricsJSONHandler w r s).w.Code = 500
        ∧ (Handler.MetricsJSONHandler w r s).w.Body = w.Body ++ [Chunk.text (e ++ "\n")]
        ∧ List.lookup "Content-Type" (Handler.MetricsJSONHandler w r s).w.HeaderMap
            = some "text/plain; charset=utf-8"
        ∧ (Handler.MetricsJSONHandler w r s).s.calls = s.calls ++ k.upTo
        ∧ (Handler.MetricsJSONHandler w r s).panicked = false) := by
  have habort : ∀ k e, s.cluster.firstFailure = some (k, e) →
      (Handler.MetricsJSONHandler w r s).w.Code = 500
      ∧ (Handler.MetricsJSONHandler w r s).w.Body = w.Body ++ [Chunk.text (e ++ "\n")]
      ∧ List.lookup "Content-Type" (Handler.MetricsJSONHandler w r s).w.HeaderMap
          = some "text/plain; charset=utf-8"
      ∧ (Handler.MetricsJSONHandler w r s).s.calls = s.calls ++ k.upTo
      ∧ (Handler.MetricsJSONHandler w r s).panicked = false := by
    intro k e hf
    obtain ⟨h1, h2, h3⟩ := MetricsJSONHandler_abort w r s k e hr hf
    have hE := httpError_fresh w e 500 hw
    rw [h1]
    exact ⟨hE.1, hE.2.1, hE.2.2, h2, h3⟩
  refine ⟨?_, ?_, habort⟩
  · constructor
    · rintro ⟨hcode, -⟩
      rw [allSucceed_iff_firstFailure_none]
      cases hf : s.cluster.firstFailure with
      | none => rfl
      | some ke =>
        obtain ⟨k, e⟩ := ke
        have h500 := (habort k e hf).1
        rw [hcode] at h500
        exact absurd h500 (by decide)
    · intro hall
      obtain ⟨nodes, pods, namespaces, deployments, services, hn, hp, hns, hd, hs⟩ :=
        allSucceed_lists s.cluster hall
      rw [MetricsJSONHandler_success w r s nodes pods namespaces deployments services
        hn hp hns hd hs (hr deployments hd)]
      have hw' : (w.SetHeader "Content-Type" "application/json").wroteHeader = false := hw
      have hW := write_fresh (w.SetHeader "Content-Type" "application/json")
        (Chunk.jsonMetrics (snapshotOf nodes pods namespaces deployments services s.m s.now)) hw'
      exact ⟨hW.1, _, hW.2⟩
  · cases hf : s.cluster.firstFailure with
    | none => exact Or.inl ((allSucceed_iff_firstFailure_none _).2 hf)
    | some ke => exact Or.inr ⟨ke.1, ke.2, rfl⟩

theorem C6_witness :
    NewRecorder.wroteHeader = false
    ∧ (exWorldFailing Kind.services "context deadline exceeded").cluster.replicasSet
    ∧ ((((Handler.MetricsJSONHandler NewRecorder exRequest
            (exWorldFailing Kind.services "context deadline exceeded")).w.Code = 200
        ∧ ∃ v, (Handler.MetricsJSONHandler NewRecorder exRequest
            (exWorldFailing Kind.services "context deadline exceeded")).w.Body
              = NewRecorder.Body ++ [Chunk.jsonMetrics v])
      ↔ (exWorldFailing Kind.services "context deadline exceeded").cluster.allSucceed = true)
    ∧ ((exWorldFailing Kind.services "context deadline exceeded").cluster.allSucceed = true
      ∨ ∃ k e, (exWorldFailing Kind.services "context deadline exceeded").cluster.firstFailure
          = some (k, e))
    ∧ (∀ k e, (exWorldFailing Kind.services "context deadline exceeded").cluster.firstFailure
          = some (k, e) →
        (Handler.MetricsJSONHandler NewRecorder exRequest
          (exWorldFailing Kind.services "context deadline exceeded")).w.Code = 500
        ∧ (Handler.MetricsJSONHandler NewRecorder exRequest
            (exWorldFailing Kind.services "context deadline exceeded")).w.Body
              = NewRecorder.Body ++ [Chunk.text (e ++ "\n")]
        ∧ List.lookup "Content-Type" (Handler.MetricsJSONHandler NewRecorder exRequest
            (exWorldFailing Kind.services "context deadline exceeded")).w.HeaderMap
            = some "text/plain; charset=utf-8"
        ∧ (Handler.MetricsJSONHandler NewRecorder exRequest
            (exWorldFailing Kind.services "context deadline exceeded")).s.calls
              = (exWorldFailing Kind.services "context deadline exceeded").calls ++ k.upTo
        ∧ (Handler.MetricsJSONHandler NewRecorder exRequest
            (exWorldFailing Kind.services "context deadline exceeded")).panicked = false)) :=
  have hrep : (exWorldFailing Kind.services "context deadline exceeded").cluster.replicasSet := by
    intro ds hds d hd
    have hds' : ds = [exDeployment] := by
      simp only [exWorldFailing, Cluster.failAt, exCluster, Except.ok.injEq] at hds
      exact hds.symm
    subst hds'
    simp only [List.mem_singleton] at hd
    subst hd
    simp [exDeployment]
  ⟨rfl, hrep,
    C6_first_failure_aborts NewRecorder exRequest
      (exWorldFailing Kind.services "context deadline exceeded") rfl hrep⟩

/-- C7, the claim as stated fails: when the deployments listing fails with the text
"context deadline exceeded", the body is that text and a newline, without the word
"deployments", and the whole response is the one sent when the pods listing fails with
the same text; so no reading of the response tells which kind failed. -/
theorem C7_counterexample :
    (exWorldFailing Kind.deployments "context deadline exceeded").cluster.firstFailure
        = some (Kind.deployments, "context deadline exceeded")
    ∧ (exWorldFailing Kind.pods "context deadline exceeded").cluster.firstFailure
        = some (Kind.pods, "context deadline exceeded")
    ∧ (Handler.MetricsJSONHandler NewRecorder exRequest
        (exWorldFailing Kind.deployments "context deadline exceeded")).w.Body
        = [Chunk.text "context deadline exceeded\n"]
    ∧ (Handler.MetricsJSONHandler NewRecorder exRequest
        (exWorldFailing Kind.deployments "context deadline exceeded")).w
        = (Handler.MetricsJSONHandler NewRecorder exRequest
            (exWorldFailing Kind.pods "context deadline exceeded")).w
    ∧ ¬ ∃ label : ResponseWriter → Kind, ∀ (s : World) (k : Kind) (e : String),
        s.cluster.replicasSet → s.cluster.firstFailure = some (k, e) →
        label (Handler.MetricsJSONHandler NewRecorder exRequest s).w = k := by
  have hD : (exWorldFailing Kind.deployments "context deadline exceeded").cluster.firstFailure
      = some (Kind.deployments, "context deadline exceeded") := rfl
  have hP : (exWorldFailing Kind.pods "context deadline exceeded").cluster.firstFailure
      = some (Kind.pods, "context deadline exceeded") := rfl
  have hrD : (exWorldFailing Kind.deployments "context deadline exceeded").cluster.replicasSet := by
    intro ds hds
    simp [exWorldFailing, Cluster.failAt, exCluster] at hds
  have hrP : (exWorldFailing Kind.pods "context deadline exceeded").cluster.replicasSet := by
    intro ds hds d hd
    have hds' : ds = [exDeployment] := by
      simp only [exWorldFailing, Cluster.failAt, exCluster, Except.ok.injEq] at hds
      exact hds.symm
    subst hds'
    simp only [List.mem_singleton] at hd
    subst hd
    simp [exDeployment]
  have hwD := (MetricsJSONHandler_abort NewRecorder exRequest _ _ _ hrD hD).1
  have hwP := (MetricsJSONHandler_abort NewRecorder exRequest _ _ _ hrP hP).1
  refine ⟨hD, hP, ?_, ?_, ?_⟩
  · rw [hwD]; decide
  · rw [hwD, hwP]
  · rintro ⟨label, hl⟩
    have h1 := hl _ _ _ hrD hD
    have h2 := hl _ _ _ hrP hP
    rw [hwD] at h1
    rw [hwP, h1] at h2
    exact absurd h2 (by decide)

/-- C7, amended: when a listing fails, the response is `http.Error` of the text of the
underlying error with status 500: on a fresh response the body is that text followed by a
newline, and the response is the same whichever resource kind failed, so it names the
kind only if the underlying text does. -/
theorem C7_error_body_is_underlying_text (w : ResponseWriter) (r : Request) (s : World)
    (k : Kind) (e : String) (hw : w.wroteHeader = false) (hr : s.cluster.replicasSet)
    (hf : s.cluster.firstFailure = some (k, e)) :
    (Handler.MetricsJSONHandler w r s).w = httpError w e 500
    ∧ (Handler.MetricsJSONHandler w r s).w.Code = 500
    ∧ (Handler.MetricsJSONHandler w r s).w.Body = w.Body ++ [Chunk.text (e ++ "\n")]
    ∧ (∀ (r2 : Request) (s2 : World) (k2 : Kind), s2.cluster.replicasSet →
        s2.cluster.firstFailure = some (k2, e) →
        (Handler.MetricsJSONHandler w r2 s2).w = (Handler.MetricsJSONHandler w r s).w) := by
  have h1 := (MetricsJSONHandler_abort w r s k e hr hf).1
  have hE := httpError_fresh w e 500 hw
  refine ⟨h1, ?_, ?_, ?_⟩
  · rw [h1]; exact hE.1
  · rw [h1]; exact hE.2.1
  · intro r2 s2 k2 hr2 hf2
    rw [h1, (MetricsJSONHandler_abort w r2 s2 k2 e hr2 hf2).1]

theorem C7_witness :
    NewRecorder.wroteHeader = false
    ∧ (exWorldFailing Kind.deployments "context deadline exceeded").cluster.firstFailure
        = some (Kind.deployments, "context deadline exceeded")
    ∧ (Handler.MetricsJSONHandler NewRecorder exRequest
        (exWorldFailing Kind.deployments "context deadline exceeded")).w
        = httpError NewRecorder "context deadline exceeded" 500
    ∧ (Handler.MetricsJSONHandler NewRecorder exRequest
        (exWorldFailing Kind.deployments "context deadline exceeded")).w.Code = 500
    ∧ (Handler.MetricsJSONHandler NewRecorder exRequest
        (exWorldFailing Kind.deployments "context deadline exceeded")).w.Body
        = NewRecorder.Body ++ [Chunk.text ("context deadline exceeded" ++ "\n")]
    ∧ (∀ (r2 : Request) (s2 : World) (k2 : Kind), s2.cluster.replicasSet →
        s2.cluster.firstFailure = some (k2, "context deadline exceeded") →
        (Handler.MetricsJSONHandler NewRecorder r2 s2).w
          = (Handler.MetricsJSONHandler NewRecorder exRequest
              (exWorldFailing Kind.deployments "context deadline exceeded")).w) :=
  ⟨rfl, rfl,
    C7_error_body_is_underlying_text NewRecorder exRequest
      (exWorldFailing Kind.deployments "context deadline exceeded") Kind.deployments
      "context deadline exceeded" rfl
      (fun ds hds => by simp [exWorldFailing, Cluster.failAt, exCluster] at hds) rfl⟩

/-- C10: take two consecutive polls on the same gauge set whose listings all succeed. If
the pod listing of the first holds a Running pod of namespace `A`, the family
`pod_status_phase` holds the tuple of `A` and "Running" when the second starts; if the pod
listing of the second holds no pod of namespace `A`, then after the second poll the
family has no label tuple whose namespace is `A`. -/
theorem C10_pod_phase_pruning (A : String) (w1 w2 : ResponseWriter) (r1 r2 : Request)
    (s1 s2 : World) (pods1 pods2 : List Pod)
    (hall1 : s1.cluster.allSucceed = true) (hrep1 : s1.cluster.replicasSet)
    (hall2 : s2.cluster.allSucceed = true) (hrep2 : s2.cluster.replicasSet)
    (hp1 : s1.cluster.pods = .ok pods1) (hp2 : s2.cluster.pods = .ok pods2)
    (hsame : s2.m = (Handler.MetricsJSONHandler w1 r1 s1).s.m)
    (hA1 : ∃ p ∈ pods1, p.Namespace = A ∧ p.Phase = "Running")
    (hA2 : ∀ p ∈ pods2, p.Namespace ≠ A) :
    [A, "Running"] ∈ s2.m.PodStatus.labels
    ∧ ∀ lvs ∈ (Handler.MetricsJSONHandler w2 r2 s2).s.m.PodStatus.labels,
        lvs.head? ≠ some A := by
  obtain ⟨n1, p1, ns1, d1, sv1, hn1, hp1', hns1, hd1, hs1⟩ := allSucceed_lists s1.cluster hall1
  obtain ⟨n2, p2, ns2, d2, sv2, hn2, hp2', hns2, hd2, hs2⟩ := allSucceed_lists s2.cluster hall2
  rw [hp1, Except.ok.injEq] at hp1'
  rw [hp2, Except.ok.injEq] at hp2'
  subst hp1' hp2'
  have g1 := (MetricsJSONHandler_success_groups w1 r1 s1 n1 pods1 ns1 d1 sv1
    hn1 hp1 hns1 hd1 hs1 (hrep1 d1 hd1)).2.1
  have g2 := (MetricsJSONHandler_success_groups w2 r2 s2 n2 pods2 ns2 d2 sv2
    hn2 hp2 hns2 hd2 hs2 (hrep2 d2 hd2)).2.1
  simp only [podGauges, Prod.mk.injEq] at g1 g2
  constructor
  · rw [hsame, g1.2.1, mem_labels_podsUpdate_PodStatus]
    obtain ⟨p, hp, hns, hph⟩ := hA1
    exact ⟨p, hp, by rw [hns, hph]⟩
  · intro lvs hl
    rw [g2.2.1, mem_labels_podsUpdate_PodStatus] at hl
    obtain ⟨p, hp, rfl⟩ := hl
    simp only [List.head?_cons, ne_eq, Option.some.injEq]
    exact hA2 p hp

theorem C10_witness :
    exWorld.cluster.allSucceed = true ∧ exWorld.cluster.replicasSet
    ∧ (exWorldNext exClusterNoPod).cluster.allSucceed = true
    ∧ (exWorldNext exClusterNoPod).cluster.replicasSet
    ∧ exWorld.cluster.pods = .ok [exPod]
    ∧ (exWorldNext exClusterNoPod).cluster.pods = .ok []
    ∧ (exWorldNext exClusterNoPod).m
        = (Handler.MetricsJSONHandler NewRecorder exRequest exWorld).s.m
    ∧ (∃ p ∈ [exPod], p.Namespace = "default" ∧ p.Phase = "Running")
    ∧ (∀ p ∈ ([] : List Pod), p.Namespace ≠ "default")
    ∧ ["default", "Running"] ∈ (exWorldNext exClusterNoPod).m.PodStatus.labels
    ∧ ∀ lvs ∈ (Handler.MetricsJSONHandler NewRecorder exRequest
          (exWorldNext exClusterNoPod)).s.m.PodStatus.labels,
        lvs.head? ≠ some "default" :=
  have hrep : ∀ c : Cluster, c.deployments = .ok [exDeployment] → c.replicasSet := by
    intro c hc ds hds d hd
    rw [hc, Except.ok.injEq] at hds
    subst hds
    simp only [List.mem_singleton] at hd
    subst hd
    simp [exDeployment]
  have h := C10_pod_phase_pruning "default" NewRecorder NewRecorder exRequest exRequest
    exWorld (exWorldNext exClusterNoPod) [exPod] [] rfl (hrep _ rfl) rfl (hrep _ rfl) rfl rfl
    rfl ⟨exPod, List.mem_singleton.2 rfl, rfl, rfl⟩ (fun p hp => absurd hp (List.not_mem_nil p))
  ⟨rfl, hrep _ rfl, rfl, hrep _ rfl, rfl, rfl, rfl,
    ⟨exPod, List.mem_singleton.2 rfl, rfl, rfl⟩,
    fun p hp => absurd hp (List.not_mem_nil p), h.1, h.2⟩

/-- C9, the code at the failing input: the example cluster is polled, its node is deleted,
and the cluster is polled again with success. The second poll empties the family
`node_status_ready`, but the families `node_cpu_allocatable_cores` and
`node_memory_allocatable_bytes`, which the handler never resets, still hold the series of
the deleted node `node1`. -/
theorem C9_stale_node_series :
    (exWorldNext exClusterNoNode).cluster.nodes = .ok []
    ∧ (Handler.MetricsJSONHandler NewRecorder exRequest (exWorldNext exClusterNoNode)).w.Code
        = 200
    ∧ (Handler.MetricsJSONHandler NewRecorder exRequest
        (exWorldNext exClusterNoNode)).s.m.NodeReady.labels = []
    ∧ (Handler.MetricsJSONHandler NewRecorder exRequest
        (exWorldNext exClusterNoNode)).s.m.CPUAllocatable.labels = [["node1"]]
    ∧ (Handler.MetricsJSONHandler NewRecorder exRequest
        (exWorldNext exClusterNoNode)).s.m.MemoryAllocatable.labels = [["node1"]] := by
  refine ⟨rfl, ?_, ?_, ?_, ?_⟩ <;> decide

/-- C11, the claim as stated fails: the example cluster is polled when the clock reads 0
and polled again, with the same listings, when the clock reads 1; both polls answer 200
with a snapshot, and the two snapshots differ (in their timestamps). -/
theorem C11_counterexample :
    (exWorldAgainAt 1).cluster.nodes = exWorld.cluster.nodes
    ∧ (exWorldAgainAt 1).cluster.pods = exWorld.cluster.pods
    ∧ (exWorldAgainAt 1).cluster.namespaces = exWorld.cluster.namespaces
    ∧ (exWorldAgainAt 1).cluster.deployments = exWorld.cluster.deployments
    ∧ (exWorldAgainAt 1).cluster.services = exWorld.cluster.services
    ∧ (Handler.MetricsJSONHandler NewRecorder exRequest exWorld).w.Body
        = [Chunk.jsonMetrics ⟨1, 1, 1, 1, 1, [("Running", 1)], 0⟩]
    ∧ (Handler.MetricsJSONHandler NewRecorder exRequest (exWorldAgainAt 1)).w.Body
        = [Chunk.jsonMetrics ⟨1, 1, 1, 1, 1, [("Running", 1)], 1⟩]
    ∧ (Handler.MetricsJSONHandler NewRecorder exRequest exWorld).w.Body
        ≠ (Handler.MetricsJSONHandler NewRecorder exRequest (exWorldAgainAt 1)).w.Body := by
  refine ⟨rfl, rfl, rfl, rfl, rfl, ?_, ?_, ?_⟩ <;> decide

/-- C11, amended: two polls whose five listings are identical and succeed, from any prior
gauges, encode snapshots that agree in `nodeCount`, `podCount`, `deploymentCount`,
`serviceCount`, `namespaceCount` and `podPhases`; the timestamp of each snapshot is the
reading of the clock at its poll, so the snapshots are identical when the readings are. -/
theorem C11_snapshot_idempotent_up_to_timestamp (w1 w2 : ResponseWriter) (r1 r2 : Request)
    (s1 s2 : World)
    (hall : s1.cluster.allSucceed = true) (hrep : s1.cluster.replicasSet)
    (h1 : s2.cluster.nodes = s1.cluster.nodes) (h2 : s2.cluster.pods = s1.cluster.pods)
    (h3 : s2.cluster.namespaces = s1.cluster.namespaces)
    (h4 : s2.cluster.deployments = s1.cluster.deployments)
    (h5 : s2.cluster.services = s1.cluster.services) :
    ∃ v1 v2 : ClusterMetrics,
      (Handler.MetricsJSONHandler w1 r1 s1).w.Body = w1.Body ++ [Chunk.jsonMetrics v1]
      ∧ (Handler.MetricsJSONHandler w2 r2 s2).w.Body = w2.Body ++ [Chunk.jsonMetrics v2]
      ∧ v1.NodeCount = v2.NodeCount ∧ v1.PodCount = v2.PodCount
      ∧ v1.DeploymentCount = v2.DeploymentCount ∧ v1.ServiceCount = v2.ServiceCount
      ∧ v1.NamespaceCount = v2.NamespaceCount ∧ v1.PodPhases = v2.PodPhases
      ∧ v1.Timestamp = s1.now ∧ v2.Timestamp = s2.now
      ∧ (s1.now = s2.now → v1 = v2) := by
  obtain ⟨nodes, pods, nss, ds, svcs, hn, hp, hns, hd, hs⟩ := allSucceed_lists s1.cluster hall
  have hr1 := hrep ds hd
  rw [hn] at h1; rw [hp] at h2; rw [hns] at h3; rw [hd] at h4; rw [hs] at h5
  refine ⟨snapshotOf nodes pods nss ds svcs s1.m s1.now,
    snapshotOf nodes pods nss ds svcs s2.m s2.now, ?_, ?_, rfl, rfl, rfl, rfl, rfl, ?_,
    rfl, rfl, ?_⟩
  · rw [MetricsJSONHandler_success w1 r1 s1 nodes pods nss ds svcs hn hp hns hd hs hr1]
    simp only [ResponseWriter.Write, ResponseWriter.WriteHeader, ResponseWriter.SetHeader]
    split <;> rfl
  · rw [MetricsJSONHandler_success w2 r2 s2 nodes pods nss ds svcs h1 h2 h3 h4 h5 hr1]
    simp only [ResponseWriter.Write, ResponseWriter.WriteHeader, ResponseWriter.SetHeader]
    split <;> rfl
  · simp only [snapshotOf, podsUpdate_podPhases_eq]
  · intro hnow
    simp only [snapshotOf, podsUpdate_podPhases_eq, hnow]

theorem C11_witness :
    exWorld.cluster.allSucceed = true ∧ exWorld.cluster.replicasSet
    ∧ ∃ v1 v2 : ClusterMetrics,
      (Handler.MetricsJSONHandler NewRecorder exRequest exWorld).w.Body
        = NewRecorder.Body ++ [Chunk.jsonMetrics v1]
      ∧ (Handler.MetricsJSONHandler NewRecorder exRequest (exWorldAgainAt 1)).w.Body
        = NewRecorder.Body ++ [Chunk.jsonMetrics v2]
      ∧ v1.NodeCount = v2.NodeCount ∧ v1.PodCount = v2.PodCount
      ∧ v1.DeploymentCount = v2.DeploymentCount ∧ v1.ServiceCount = v2.ServiceCount
      ∧ v1.NamespaceCount = v2.NamespaceCount ∧ v1.PodPhases = v2.PodPhases
      ∧ v1.Timestamp = exWorld.now ∧ v2.Timestamp = (exWorldAgainAt 1).now
      ∧ (exWorld.now = (exWorldAgainAt 1).now → v1 = v2) :=
  have hrep : exWorld.cluster.replicasSet := by
    intro ds hds d hd
    have hds2 : ds = [exDeployment] := by
      simp only [exWorld, exCluster, Except.ok.injEq] at hds
      exact hds.symm
    subst hds2
    simp only [List.mem_singleton] at hd
    subst hd
    simp [exDeployment]
  ⟨rfl, hrep,
    C11_snapshot_idempotent_up_to_timestamp NewRecorder NewRecorder exRequest exRequest
      exWorld (exWorldAgainAt 1) rfl hrep rfl rfl rfl rfl rfl⟩

/-- C12: after a poll whose five listings succeed, the five counts of the encoded
snapshot are the lengths of the five listings, and the five scalar gauges hold those same
lengths, whatever the gauges held before. -/
theorem C12_counts_and_scalar_gauges (w : ResponseWriter) (r : Request) (s : World)
    (nodes : List Node) (pods : List Pod) (namespaces : List Namespace)
    (deployments : List Deployment) (services : List Service)
    (hn : s.cluster.nodes = .ok nodes) (hp : s.cluster.pods = .ok pods)
    (hns : s.cluster.namespaces = .ok namespaces)
    (hd : s.cluster.deployments = .ok deployments)
    (hs : s.cluster.services = .ok services)
    (hr : ∀ d ∈ deployments, d.Replicas ≠ none) :
    (∃ v : ClusterMetrics,
      (Handler.MetricsJSONHandler w r s).w.Body = w.Body ++ [Chunk.jsonMetrics v]
      ∧ v.NodeCount = nodes.length ∧ v.PodCount = pods.length
      ∧ v.NamespaceCount = namespaces.length ∧ v.DeploymentCount = deployments.length
      ∧ v.ServiceCount = services.length)
    ∧ (Handler.MetricsJSONHandler w r s).s.m.NodeCount = (nodes.length : ℚ)
    ∧ (Handler.MetricsJSONHandler w r s).s.m.PodCount = (pods.length : ℚ)
    ∧ (Handler.MetricsJSONHandler w r s).s.m.NamespaceCount = (namespaces.length : ℚ)
    ∧ (Handler.MetricsJSONHandler w r s).s.m.DeploymentCount = (deployments.length : ℚ)
    ∧ (Handler.MetricsJSONHandler w r s).s.m.ServiceCount = (services.length : ℚ) := by
  obtain ⟨g1, g2, g3, g4⟩ := MetricsJSONHandler_success_groups w r s nodes pods namespaces
    deployments services hn hp hns hd hs hr
  simp only [nodeGauges, podGauges, namespaceGauges, deploymentGauges, Prod.mk.injEq]
    at g1 g2 g3 g4
  refine ⟨⟨snapshotOf nodes pods namespaces deployments services s.m s.now,
    ?_, rfl, rfl, rfl, rfl, rfl⟩, ?_, ?_, ?_, ?_, ?_⟩
  · rw [MetricsJSONHandler_success w r s nodes pods namespaces deployments services
      hn hp hns hd hs hr]
    simp only [ResponseWriter.Write, ResponseWriter.WriteHeader, ResponseWriter.SetHeader]
    split <;> rfl
  · rw [g1.1, nodesUpdate_NodeCount]
  · rw [g2.1, podsUpdate_PodCount]
  · rw [g3]; rfl
  · rw [g4.1, deploymentsUpdate_DeploymentCount]
  · rw [MetricsJSONHandler_success w r s nodes pods namespaces deployments services
      hn hp hns hd hs hr]
    rfl

theorem C12_witness :
    (∀ d ∈ [exDeployment], d.Replicas ≠ none)
    ∧ (∃ v : ClusterMetrics,
      (Handler.MetricsJSONHandler NewRecorder exRequest exWorld).w.Body
        = NewRecorder.Body ++ [Chunk.jsonMetrics v]
      ∧ v.NodeCount = [exNode].length ∧ v.PodCount = [exPod].length
      ∧ v.NamespaceCount = [(⟨"default"⟩ : Namespace)].length
      ∧ v.DeploymentCount = [exDeployment].length
      ∧ v.ServiceCount = [(⟨"default", "svc1"⟩ : Service)].length)
    ∧ (Handler.MetricsJSONHandler NewRecorder exRequest exWorld).s.m.NodeCount
        = ([exNode].length : ℚ)
    ∧ (Handler.MetricsJSONHandler NewRecorder exRequest exWorld).s.m.PodCount
        = ([exPod].length : ℚ)
    ∧ (Handler.MetricsJSONHandler NewRecorder exRequest exWorld).s.m.NamespaceCount
        = ([(⟨"default"⟩ : Namespace)].length : ℚ)
    ∧ (Handler.MetricsJSONHandler NewRecorder exRequest exWorld).s.m.DeploymentCount
        = ([exDeployment].length : ℚ)
    ∧ (Handler.MetricsJSONHandler NewRecorder exRequest exWorld).s.m.ServiceCount
        = ([(⟨"default", "svc1"⟩ : Service)].length : ℚ) :=
  ⟨by simp [exDeployment],
    C12_counts_and_scalar_gauges NewRecorder exRequest exWorld [exNode] [exPod]
      [⟨"default"⟩] [exDeployment] [⟨"default", "svc1"⟩] rfl rfl rfl rfl rfl
      (by simp [exDeployment])⟩

/-- C15: on the cluster of the end-to-end scenario, from any prior gauges and at any
clock reading, the handler answers a fresh response with 200 and the snapshot with
nodeCount 1, podCount 1, deploymentCount 0, serviceCount 1, namespaceCount 1 and podPhases
holding "Running" with 1 and nothing else, and the CPU requests gauge of namespace
"default" holds one half. -/
theorem C15_end_to_end_scenario (r : Request) (m : PrometheusMetrics) (calls : List Kind)
    (now : Int) (out : List LogRecord) :
    (Handler.MetricsJSONHandler NewRecorder r ⟨e2eCluster, m, calls, now, out⟩).w.Code = 200
    ∧ (Handler.MetricsJSONHandler NewRecorder r ⟨e2eCluster, m, calls, now, out⟩).w.Body
        = [Chunk.jsonMetrics ⟨1, 1, 0, 1, 1, [("Running", 1)], now⟩]
    ∧ (Handler.MetricsJSONHandler NewRecorder r
        ⟨e2eCluster, m, calls, now, out⟩).s.m.CPURequests.value? ["default"] = some (1 / 2)
    ∧ (Handler.MetricsJSONHandler NewRecorder r
        ⟨e2eCluster, m, calls, now, out⟩).s.m.CPURequests.labels = [["default"]] := by
  have hresp := MetricsJSONHandler_success_response NewRecorder r
    ⟨e2eCluster, m, calls, now, out⟩ [e2eNode] [e2ePod] [⟨"default"⟩] []
    [⟨"default", "svc1"⟩] rfl rfl rfl rfl rfl (by simp) rfl
  have hg := (MetricsJSONHandler_success_groups NewRecorder r
    ⟨e2eCluster, m, calls, now, out⟩ [e2eNode] [e2ePod] [⟨"default"⟩] []
    [⟨"default", "svc1"⟩] rfl rfl rfl rfl rfl (by simp)).2.1
  simp only [podGauges, Prod.mk.injEq] at hg
  refine ⟨hresp.1, ?_, ?_, ?_⟩
  · rw [hresp.2.1]
    simp [snapshotOf, podsUpdate_podPhases_eq, e2ePod, mapModify, NewRecorder]
  · rw [hg.2.2.2.1, podsUpdate_CPURequests]
    have hd : declaredIn cpuRequestOf "default" [e2ePod] :=
      ⟨e2ePod, List.mem_singleton.2 rfl, rfl, _, List.mem_singleton.2 rfl, rfl⟩
    rw [(namespaceFamily_spec cpuRequestOf [e2ePod] "default").2.1 hd, namespaceTotal_e2e.1]
  · rw [hg.2.2.2.1]
    simp [podsUpdate, podStep, containerStep, containerStatusStep, e2ePod, setAll, addTo,
      mapModify, GaugeVec.labels, GaugeVec.Set, GaugeVec.Reset, ResourceCPU, ResourceMemory,
      List.lookup, mapKeys]

/-- C16, the code at the failing input: the example cluster is polled and then the empty
cluster is polled on the same gauge set. The second poll answers 200 with all counts 0 and
an empty `podPhases`, and nine families are empty, but `node_cpu_allocatable_cores` and
`node_memory_allocatable_bytes`, which the handler never resets, still hold the series
of `node1`. -/
theorem C16_empty_cluster_keeps_node_series :
    (exWorldNext emptyCluster).m.CPUAllocatable.labels = [["node1"]]
    ∧ (Handler.MetricsJSONHandler NewRecorder exRequest (exWorldNext emptyCluster)).w.Code = 200
    ∧ (Handler.MetricsJSONHandler NewRecorder exRequest (exWorldNext emptyCluster)).w.Body
        = [Chunk.jsonMetrics ⟨0, 0, 0, 0, 0, [], 0⟩]
    ∧ (Handler.MetricsJSONHandler NewRecorder exRequest
        (exWorldNext emptyCluster)).s.m.NodeReady.labels = []
    ∧ (Handler.MetricsJSONHandler NewRecorder exRequest
        (exWorldNext emptyCluster)).s.m.PodStatus.labels = []
    ∧ (Handler.MetricsJSONHandler NewRecorder exRequest
        (exWorldNext emptyCluster)).s.m.ContainerRestarts.labels = []
    ∧ (Handler.MetricsJSONHandler NewRecorder exRequest
        (exWorldNext emptyCluster)).s.m.CPURequests.labels = []
    ∧ (Handler.MetricsJSONHandler NewRecorder exRequest
        (exWorldNext emptyCluster)).s.m.MemoryRequests.labels = []
    ∧ (Handler.MetricsJSONHandler NewRecorder exRequest
        (exWorldNext emptyCluster)).s.m.CPULimits.labels = []
    ∧ (Handler.MetricsJSONHandler NewRecorder exRequest
        (exWorldNext emptyCluster)).s.m.MemoryLimits.labels = []
    ∧ (Handler.MetricsJSONHandler NewRecorder exRequest
        (exWorldNext emptyCluster)).s.m.DeploymentDesired.labels = []
    ∧ (Handler.MetricsJSONHandler NewRecorder exRequest
        (exWorldNext emptyCluster)).s.m.DeploymentAvailable.labels = []
    ∧ (Handler.MetricsJSONHandler NewRecorder exRequest
        (exWorldNext emptyCluster)).s.m.CPUAllocatable.labels = [["node1"]]
    ∧ (Handler.MetricsJSONHandler NewRecorder exRequest
        (exWorldNext emptyCluster)).s.m.MemoryAllocatable.labels = [["node1"]] := by
  refine ⟨?_, ?_, ?_, ?_, ?_, ?_, ?_, ?_, ?_, ?_, ?_, ?_, ?_, ?_⟩ <;> decide

/-- C18, the claim as stated fails: the example cluster lists the deployment `web` with
3 desired replicas and the deployment `broken` whose replica field is unset. The poll
panics and writes no response, yet the desired-replicas family is left with a series for
`broken` that holds zero: `WithLabelValues` created it before the dereference panicked. -/
theorem C18_counterexample :
    exWorldNilReplicas.cluster.deployments = .ok [exDeployment, exDeploymentNil]
    ∧ exDeploymentNil.Replicas = none
    ∧ (Handler.MetricsJSONHandler NewRecorder exRequest exWorldNilReplicas).panicked = true
    ∧ (Handler.MetricsJSONHandler NewRecorder exRequest exWorldNilReplicas).w = NewRecorder
    ∧ (Handler.MetricsJSONHandler NewRecorder exRequest
        exWorldNilReplicas).s.m.DeploymentDesired.labels
        = [["default", "web"], ["default", "broken"]]
    ∧ (Handler.MetricsJSONHandler NewRecorder exRequest
        exWorldNilReplicas).s.m.DeploymentDesired.value? ["default", "broken"] = some 0 := by
  refine ⟨rfl, rfl, ?_, ?_, ?_, ?_⟩
  · decide
  · decide
  · decide
  · have hflag : (deploymentsUpdate [exDeployment, exDeploymentNil]
        (namespacesUpdate [⟨"default"⟩]
          (podsUpdate [exPod] (nodesUpdate [exNode] exWorldNilReplicas.m)).m)).2 = true :=
      deploymentsLoop_panic _ _ ⟨exDeploymentNil, by simp, rfl⟩
    rw [MetricsJSONHandler_deployments_panic NewRecorder exRequest exWorldNilReplicas [exNode]
      [exPod] [⟨"default"⟩] [exDeployment, exDeploymentNil] rfl rfl rfl rfl hflag]
    exact deploymentsLoop_nil_value [exDeployment, exDeploymentNil] _ exDeploymentNil rfl
      (by simp [GaugeVec.Reset, GaugeVec.labels, mapKeys]) (by decide)

/-- C18, amended: when the node, pod and namespace listings succeed and the deployment
listing succeeds with the items `ds`: if every deployment has its replica field set, the
deployment loop completes and the handler does not panic, whatever the service listing
answers; if some deployment has the field unset, the handler panics: nothing is written
to the response, the service listing is never issued, the available-replicas family holds
series only for the deployments that precede the first one without the field, and the
desired-replicas family holds those series and one more, for that first deployment, which
holds zero when no earlier deployment has its namespace and name. -/
theorem C18_nil_replicas_panics (w : ResponseWriter) (r : Request) (s : World)
    (nodes : List Node) (pods : List Pod) (namespaces : List Namespace)
    (ds : List Deployment)
    (hn : s.cluster.nodes = .ok nodes) (hp : s.cluster.pods = .ok pods)
    (hns : s.cluster.namespaces = .ok namespaces) (hd : s.cluster.deployments = .ok ds) :
    ((∀ d ∈ ds, d.Replicas ≠ none) →
        (deploymentsUpdate ds
          (namespacesUpdate namespaces (podsUpdate pods (nodesUpdate nodes s.m)).m)).2 = false
        ∧ (Handler.MetricsJSONHandler w r s).panicked = false)
    ∧ ((∃ d ∈ ds, d.Replicas = none) →
        (Handler.MetricsJSONHandler w r s).panicked = true
        ∧ (Handler.MetricsJSONHandler w r s).w = w
        ∧ (Handler.MetricsJSONHandler w r s).s.calls
            = s.calls ++ [Kind.nodes, Kind.pods, Kind.namespaces, Kind.deployments]
        ∧ (Handler.MetricsJSONHandler w r s).s.m.DeploymentCount = (ds.length : ℚ)
        ∧ (∀ lvs : List String,
            lvs ∈ (Handler.MetricsJSONHandler w r s).s.m.DeploymentDesired.labels
              ↔ (∃ d ∈ ds.takeWhile (fun d => d.Replicas.isSome),
                  lvs = [d.Namespace, d.Name])
                ∨ ∃ d, (ds.dropWhile (fun d => d.Replicas.isSome)).head? = some d
                    ∧ lvs = [d.Namespace, d.Name])
        ∧ (∀ lvs : List String,
            lvs ∈ (Handler.MetricsJSONHandler w r s).s.m.DeploymentAvailable.labels
              ↔ ∃ d ∈ ds.takeWhile (fun d => d.Replicas.isSome),
                  lvs = [d.Namespace, d.Name])
        ∧ ∀ d0 : Deployment,
            (ds.dropWhile (fun d => d.Replicas.isSome)).head? = some d0 →
            (∀ d ∈ ds.takeWhile (fun d => d.Replicas.isSome),
              [d.Namespace, d.Name] ≠ [d0.Namespace, d0.Name]) →
            (Handler.MetricsJSONHandler w r s).s.m.DeploymentDesired.value?
              [d0.Namespace, d0.Name] = some 0) := by
  constructor
  · intro hset
    have hflag := deploymentsUpdate_no_panic ds
      (namespacesUpdate namespaces (podsUpdate pods (nodesUpdate nodes s.m)).m) hset
    refine ⟨hflag, ?_⟩
    cases hs : s.cluster.services with
    | error e =>
      rw [MetricsJSONHandler_services_fail w r s nodes pods namespaces ds e hn hp hns hd hs
        hflag]
    | ok services =>
      rw [MetricsJSONHandler_success w r s nodes pods namespaces ds services hn hp hns hd hs
        hset]
  · intro hnil
    have hflag : (deploymentsUpdate ds
        (namespacesUpdate namespaces (podsUpdate pods (nodesUpdate nodes s.m)).m)).2 = true :=
      deploymentsLoop_panic ds _ hnil
    rw [MetricsJSONHandler_deployments_panic w r s nodes pods namespaces ds hn hp hns hd hflag]
    refine ⟨rfl, rfl, by simp, ?_, ?_, ?_, ?_⟩
    · exact deploymentsUpdate_DeploymentCount ds _
    · intro lvs
      exact mem_labels_deploymentsUpdate ds _ lvs
    · intro lvs
      show lvs ∈ (deploymentsLoop ds _).1.DeploymentAvailable.labels ↔ _
      rw [mem_labels_deploymentsLoop_available]
      simp [GaugeVec.Reset, GaugeVec.labels, mapKeys]
    · intro d0 h0 hnot
      exact deploymentsLoop_nil_value ds _ d0 h0
        (by simp [GaugeVec.Reset, GaugeVec.labels, mapKeys]) hnot

/-- C18 at the example cluster with the deployments `web` and `broken`. -/
theorem C18_witness :
    exWorldNilReplicas.cluster.nodes = .ok [exNode]
    ∧ exWorldNilReplicas.cluster.pods = .ok [exPod]
    ∧ exWorldNilReplicas.cluster.namespaces = .ok [⟨"default"⟩]
    ∧ exWorldNilReplicas.cluster.deployments = .ok [exDeployment, exDeploymentNil]
    ∧ (∃ d ∈ [exDeployment, exDeploymentNil], d.Replicas = none)
    ∧ (Handler.MetricsJSONHandler NewRecorder exRequest exWorldNilReplicas).panicked = true
    ∧ (Handler.MetricsJSONHandler NewRecorder exRequest exWorldNilReplicas).w = NewRecorder
    ∧ (Handler.MetricsJSONHandler NewRecorder exRequest exWorldNilReplicas).s.calls
        = exWorldNilReplicas.calls
          ++ [Kind.nodes, Kind.pods, Kind.namespaces, Kind.deployments]
    ∧ (Handler.MetricsJSONHandler NewRecorder exRequest
        exWorldNilReplicas).s.m.DeploymentCount
          = ([exDeployment, exDeploymentNil].length : ℚ)
    ∧ (∀ lvs : List String,
        lvs ∈ (Handler.MetricsJSONHandler NewRecorder exRequest
            exWorldNilReplicas).s.m.DeploymentAvailable.labels
          ↔ ∃ d ∈ [exDeployment, exDeploymentNil].takeWhile (fun d => d.Replicas.isSome),
              lvs = [d.Namespace, d.Name])
    ∧ (Handler.MetricsJSONHandler NewRecorder exRequest
        exWorldNilReplicas).s.m.DeploymentDesired.value?
          [exDeploymentNil.Namespace, exDeploymentNil.Name] = some 0 :=
  have hnil : ∃ d ∈ [exDeployment, exDeploymentNil], d.Replicas = none :=
    ⟨exDeploymentNil, List.mem_cons_of_mem _ (List.mem_singleton.2 rfl), rfl⟩
  have h := (C18_nil_replicas_panics NewRecorder exRequest exWorldNilReplicas [exNode] [exPod]
    [⟨"default"⟩] [exDeployment, exDeploymentNil] rfl rfl rfl rfl).2 hnil
  ⟨rfl, rfl, rfl, rfl, hnil, h.1, h.2.1, h.2.2.1, h.2.2.2.1, h.2.2.2.2.2.1,
    h.2.2.2.2.2.2 exDeploymentNil rfl (by decide)⟩

/-- C13, the claim as stated fails: the example cluster lists a pod of namespace
"default" whose only container declares a CPU request and nothing else; the poll answers
200 and the CPU requests family has the series of "default", but the memory requests, CPU
limits and memory limits families have no series for "default", nor any other. -/
theorem C13_counterexample :
    exWorld.cluster.pods = .ok [exPod] ∧ exPod.Namespace = "default"
    ∧ (Handler.MetricsJSONHandler NewRecorder exRequest exWorld).w.Code = 200
    ∧ (Handler.MetricsJSONHandler NewRecorder exRequest exWorld).s.m.CPURequests.labels
        = [["default"]]
    ∧ (Handler.MetricsJSONHandler NewRecorder exRequest exWorld).s.m.MemoryRequests.labels = []
    ∧ (Handler.MetricsJSONHandler NewRecorder exRequest exWorld).s.m.CPULimits.labels = []
    ∧ (Handler.MetricsJSONHandler NewRecorder exRequest exWorld).s.m.MemoryLimits.labels = []
    ∧ (Handler.MetricsJSONHandler NewRecorder exRequest exWorld).s.m.MemoryRequests.value?
        ["default"] = none := by
  refine ⟨rfl, rfl, ?_, ?_, ?_, ?_, ?_, ?_⟩ <;> decide

/-- C13, amended: after a poll whose five listings succeed, each of the four namespace
families (CPU requests, memory requests, CPU limits, memory limits) has a series for a
namespace exactly when some container of a listed pod of that namespace declares the
quantity; the series is then the only one of the namespace and holds the sum of the
quantity over the containers of the pods of the namespace that declare it, taken in
`float64` in the order of the listing, every partial sum being rounded; a namespace in
which no container declares the quantity has no series in that family. The sum is the
exact one when the declared values are whole multiples of a power of two and their exact
sum stays within 53 bits of that unit. -/
theorem C13_namespace_totals (w : ResponseWriter) (r : Request) (s : World)
    (nodes : List Node) (pods : List Pod) (namespaces : List Namespace)
    (deployments : List Deployment) (services : List Service) (ns : String)
    (hn : s.cluster.nodes = .ok nodes) (hp : s.cluster.pods = .ok pods)
    (hns : s.cluster.namespaces = .ok namespaces)
    (hd : s.cluster.deployments = .ok deployments)
    (hs : s.cluster.services = .ok services)
    (hr : ∀ d ∈ deployments, d.Replicas ≠ none) :
    holdsNamespaceTotal (Handler.MetricsJSONHandler w r s).s.m.CPURequests cpuRequestOf pods ns
    ∧ holdsNamespaceTotal (Handler.MetricsJSONHandler w r s).s.m.MemoryRequests memRequestOf
        pods ns
    ∧ holdsNamespaceTotal (Handler.MetricsJSONHandler w r s).s.m.CPULimits cpuLimitOf pods ns
    ∧ holdsNamespaceTotal (Handler.MetricsJSONHandler w r s).s.m.MemoryLimits memLimitOf
        pods ns
    ∧ ∀ (quantity : Container → Option ℚ) (q : ℤ), onGrid quantity ns pods q →
        namespaceTotal quantity ns pods = exactTotal quantity ns pods := by
  have g := (MetricsJSONHandler_success_groups w r s nodes pods namespaces deployments
    services hn hp hns hd hs hr).2.1
  simp only [podGauges, Prod.mk.injEq] at g
  obtain ⟨-, -, -, g1, g2, g3, g4⟩ := g
  rw [g1, g2, g3, g4, podsUpdate_CPURequests, podsUpdate_MemoryRequests, podsUpdate_CPULimits,
    podsUpdate_MemoryLimits]
  exact ⟨holdsNamespaceTotal_setAll _ _ _, holdsNamespaceTotal_setAll _ _ _,
    holdsNamespaceTotal_setAll _ _ _, holdsNamespaceTotal_setAll _ _ _,
    fun quantity q hg => namespaceTotal_exact quantity ns pods q hg⟩

/-- C13 at the end-to-end scenario: the CPU requests of "default" total one half. -/
theorem C13_witness :
    (∀ d ∈ ([] : List Deployment), d.Replicas ≠ none)
    ∧ holdsNamespaceTotal (Handler.MetricsJSONHandler NewRecorder exRequest
        ⟨e2eCluster, emptyGauges, [], 0, []⟩).s.m.CPURequests cpuRequestOf [e2ePod] "default"
    ∧ holdsNamespaceTotal (Handler.MetricsJSONHandler NewRecorder exRequest
        ⟨e2eCluster, emptyGauges, [], 0, []⟩).s.m.MemoryRequests memRequestOf [e2ePod] "default"
    ∧ holdsNamespaceTotal (Handler.MetricsJSONHandler NewRecorder exRequest
        ⟨e2eCluster, emptyGauges, [], 0, []⟩).s.m.CPULimits cpuLimitOf [e2ePod] "default"
    ∧ holdsNamespaceTotal (Handler.MetricsJSONHandler NewRecorder exRequest
        ⟨e2eCluster, emptyGauges, [], 0, []⟩).s.m.MemoryLimits memLimitOf [e2ePod] "default"
    ∧ (∀ (quantity : Container → Option ℚ) (q : ℤ), onGrid quantity "default" [e2ePod] q →
        namespaceTotal quantity "default" [e2ePod] = exactTotal quantity "default" [e2ePod])
    ∧ declaredIn cpuRequestOf "default" [e2ePod]
    ∧ namespaceTotal cpuRequestOf "default" [e2ePod] = 1 / 2 :=
  have h := C13_namespace_totals NewRecorder exRequest ⟨e2eCluster, emptyGauges, [], 0, []⟩
    [e2eNode] [e2ePod] [⟨"default"⟩] [] [⟨"default", "svc1"⟩] "default" rfl rfl rfl rfl rfl
    (fun d hd => absurd hd (List.not_mem_nil d))
  ⟨fun d hd => absurd hd (List.not_mem_nil d), h.1, h.2.1, h.2.2.1, h.2.2.2.1, h.2.2.2.2,
    ⟨e2ePod, List.mem_singleton.2 rfl, rfl, ⟨"container1", [("cpu", ⟨500, 1⟩),
      ("memory", ⟨536870912000, 536870912⟩)], []⟩, List.mem_singleton.2 rfl, rfl⟩,
    namespaceTotal_e2e.1⟩

/-- C14, the claim as stated fails: three pods of namespace "default" request 100, 200
and 300 milli-units of CPU. Listed in that order the poll leaves 0.6000000000000001 in the
CPU requests family, listed in the reverse order it leaves 0.6: the running sum in
`float64` depends on the order of the listing. -/
theorem C14_counterexample :
    sameUpToOrder exPodsAscending exPodsDescending
    ∧ (Handler.MetricsJSONHandler NewRecorder exRequest (podsWorld exPodsAscending)).w.Code
        = 200
    ∧ (Handler.MetricsJSONHandler NewRecorder exRequest (podsWorld exPodsDescending)).w.Code
        = 200
    ∧ (Handler.MetricsJSONHandler NewRecorder exRequest
        (podsWorld exPodsAscending)).s.m.CPURequests.value? ["default"]
        = some (1351079888211149 / 2251799813685248)
    ∧ (Handler.MetricsJSONHandler NewRecorder exRequest
        (podsWorld exPodsDescending)).s.m.CPURequests.value? ["default"]
        = some (5404319552844595 / 9007199254740992)
    ∧ (Handler.MetricsJSONHandler NewRecorder exRequest
        (podsWorld exPodsAscending)).s.m.CPURequests.value? ["default"]
        ≠ (Handler.MetricsJSONHandler NewRecorder exRequest
            (podsWorld exPodsDescending)).s.m.CPURequests.value? ["default"] := by
  have hrep : ∀ pods : List Pod, (podsWorld pods).cluster.replicasSet := by
    intro pods ds hds d hd
    have e : ds = [] := by
      simp only [podsWorld, podsCluster, Except.ok.injEq] at hds
      exact hds.symm
    subst e
    cases hd
  have hdecl : ∀ pods : List Pod, (∃ p ∈ pods, p = cpuPod p.Name 100) →
      declaredIn cpuRequestOf "default" pods := by
    rintro pods ⟨p, hp, e⟩
    exact ⟨p, hp, by rw [e]; rfl, ⟨"c", [("cpu", ⟨100, 1⟩)], []⟩, by rw [e]; simp [cpuPod], rfl⟩
  have v1 : (Handler.MetricsJSONHandler NewRecorder exRequest
      (podsWorld exPodsAscending)).s.m.CPURequests.value? ["default"]
      = some (1351079888211149 / 2251799813685248) := by
    rw [(MetricsJSONHandler_success_totals NewRecorder exRequest (podsWorld exPodsAscending)
      exPodsAscending rfl (hrep _) rfl).1,
      (namespaceFamily_spec cpuRequestOf exPodsAscending "default").2.1
        (hdecl _ ⟨cpuPod "a" 100, by simp [exPodsAscending], rfl⟩),
      namespaceTotal_examples.1]
  have v2 : (Handler.MetricsJSONHandler NewRecorder exRequest
      (podsWorld exPodsDescending)).s.m.CPURequests.value? ["default"]
      = some (5404319552844595 / 9007199254740992) := by
    rw [(MetricsJSONHandler_success_totals NewRecorder exRequest (podsWorld exPodsDescending)
      exPodsDescending rfl (hrep _) rfl).1,
      (namespaceFamily_spec cpuRequestOf exPodsDescending "default").2.1
        (hdecl _ ⟨cpuPod "a" 100, by simp [exPodsDescending], rfl⟩),
      namespaceTotal_examples.2]
  refine ⟨?_, by decide, by decide, v1, v2, ?_⟩
  · refine ⟨exPodsDescending, ?_, ?_⟩
    · exact ((List.Perm.swap _ _ _).trans
        ((List.Perm.cons _ (List.Perm.swap _ _ _)).trans (List.Perm.swap _ _ _)))
    · refine List.Forall₂.cons ⟨_, List.Perm.refl _, rfl⟩
        (List.Forall₂.cons ⟨_, List.Perm.refl _, rfl⟩
          (List.Forall₂.cons ⟨_, List.Perm.refl _, rfl⟩ List.Forall₂.nil))
  · rw [v1, v2]
    norm_num

/-- C14, amended: take two polls whose five listings succeed, the pod listing of the
second holding the pods of the first in another order, each with its containers in
another order. In each of the four namespace families the same namespaces have a series
after both polls, and the series of a namespace holds the same value after both whenever
the values that its containers declare are whole multiples of a power of two, none
negative, whose exact sum stays within 53 bits of that unit, so that no partial sum is
rounded. -/
theorem C14_totals_order_independent_when_exact (w w2 : ResponseWriter) (r r2 : Request)
    (s s2 : World) (pods pods2 : List Pod) (ns : String)
    (hall : s.cluster.allSucceed = true) (hrep : s.cluster.replicasSet)
    (hall2 : s2.cluster.allSucceed = true) (hrep2 : s2.cluster.replicasSet)
    (hp : s.cluster.pods = .ok pods) (hp2 : s2.cluster.pods = .ok pods2)
    (hord : sameUpToOrder pods pods2) :
    agreeOn (Handler.MetricsJSONHandler w r s).s.m.CPURequests
        (Handler.MetricsJSONHandler w2 r2 s2).s.m.CPURequests cpuRequestOf pods ns
    ∧ agreeOn (Handler.MetricsJSONHandler w r s).s.m.MemoryRequests
        (Handler.MetricsJSONHandler w2 r2 s2).s.m.MemoryRequests memRequestOf pods ns
    ∧ agreeOn (Handler.MetricsJSONHandler w r s).s.m.CPULimits
        (Handler.MetricsJSONHandler w2 r2 s2).s.m.CPULimits cpuLimitOf pods ns
    ∧ agreeOn (Handler.MetricsJSONHandler w r s).s.m.MemoryLimits
        (Handler.MetricsJSONHandler w2 r2 s2).s.m.MemoryLimits memLimitOf pods ns := by
  obtain ⟨a1, a2, a3, a4⟩ := MetricsJSONHandler_success_totals w r s pods hall hrep hp
  obtain ⟨b1, b2, b3, b4⟩ := MetricsJSONHandler_success_totals w2 r2 s2 pods2 hall2 hrep2 hp2
  rw [a1, a2, a3, a4, b1, b2, b3, b4]
  exact ⟨agreeOn_setAll _ pods pods2 ns hord, agreeOn_setAll _ pods pods2 ns hord,
    agreeOn_setAll _ pods pods2 ns hord, agreeOn_setAll _ pods pods2 ns hord⟩

/-- C14 at two pods that request 500 and 250 milli-units of CPU, listed in the two
orders: both values are quarters of a core, the totals need no rounding and both polls
leave the same value, three quarters. -/
theorem C14_witness :
    (podsWorld exPodsHalves).cluster.allSucceed = true
    ∧ (podsWorld exPodsHalves).cluster.replicasSet
    ∧ (podsWorld exPodsHalvesReversed).cluster.allSucceed = true
    ∧ (podsWorld exPodsHalvesReversed).cluster.replicasSet
    ∧ (podsWorld exPodsHalves).cluster.pods = .ok exPodsHalves
    ∧ (podsWorld exPodsHalvesReversed).cluster.pods = .ok exPodsHalvesReversed
    ∧ sameUpToOrder exPodsHalves exPodsHalvesReversed
    ∧ agreeOn (Handler.MetricsJSONHandler NewRecorder exRequest
          (podsWorld exPodsHalves)).s.m.CPURequests
        (Handler.MetricsJSONHandler NewRecorder exRequest
          (podsWorld exPodsHalvesReversed)).s.m.CPURequests cpuRequestOf exPodsHalves "default"
    ∧ agreeOn (Handler.MetricsJSONHandler NewRecorder exRequest
          (podsWorld exPodsHalves)).s.m.MemoryRequests
        (Handler.MetricsJSONHandler NewRecorder exRequest
          (podsWorld exPodsHalvesReversed)).s.m.MemoryRequests memRequestOf exPodsHalves
        "default"
    ∧ agreeOn (Handler.MetricsJSONHandler NewRecorder exRequest
          (podsWorld exPodsHalves)).s.m.CPULimits
        (Handler.MetricsJSONHandler NewRecorder exRequest
          (podsWorld exPodsHalvesReversed)).s.m.CPULimits cpuLimitOf exPodsHalves "default"
    ∧ agreeOn (Handler.MetricsJSONHandler NewRecorder exRequest
          (podsWorld exPodsHalves)).s.m.MemoryLimits
        (Handler.MetricsJSONHandler NewRecorder exRequest
          (podsWorld exPodsHalvesReversed)).s.m.MemoryLimits memLimitOf exPodsHalves "default"
    ∧ onGrid cpuRequestOf "default" exPodsHalves (-2)
    ∧ (Handler.MetricsJSONHandler NewRecorder exRequest
          (podsWorld exPodsHalves)).s.m.CPURequests.value? ["default"]
        = (Handler.MetricsJSONHandler NewRecorder exRequest
          (podsWorld exPodsHalvesReversed)).s.m.CPURequests.value? ["default"] :=
  have hrep : ∀ pods : List Pod, (podsWorld pods).cluster.replicasSet := by
    intro pods ds hds d hd
    have e : ds = [] := by
      simp only [podsWorld, podsCluster, Except.ok.injEq] at hds
      exact hds.symm
    subst e
    cases hd
  have hord : sameUpToOrder exPodsHalves exPodsHalvesReversed :=
    ⟨exPodsHalvesReversed, List.Perm.swap _ _ _,
      List.Forall₂.cons ⟨_, List.Perm.refl _, rfl⟩
        (List.Forall₂.cons ⟨_, List.Perm.refl _, rfl⟩ List.Forall₂.nil)⟩
  have hgrid : onGrid cpuRequestOf "default" exPodsHalves (-2) := by
    have h500 : float64Div (float64 500) 1000 = 1 / 2 := float64Div_examples.2.2.2.1
    have h250 : float64Div (float64 250) 1000 = 1 / 4 := by
      have e1 : float64 250 = 250 := by
        have := float64_eq_self 250 (by norm_num)
        simpa using this
      have e2 := roundFloat64_exact 1 (-2) (by norm_num) (by norm_num)
      rw [e1]
      unfold float64Div
      norm_num at e2 ⊢
      exact e2
    have hc : contributions cpuRequestOf "default" exPodsHalves
        = [float64Div (float64 500) 1000, float64Div (float64 250) 1000] := rfl
    refine ⟨by norm_num, ?_, ?_⟩
    · intro v hv
      rw [hc, h500, h250] at hv
      simp only [List.mem_cons, List.mem_singleton, List.not_mem_nil, or_false] at hv
      rcases hv with rfl | rfl
      · exact ⟨2, by norm_num⟩
      · exact ⟨1, by norm_num⟩
    · unfold exactTotal
      rw [hc, h500, h250]
      norm_num
  have h := C14_totals_order_independent_when_exact NewRecorder NewRecorder exRequest exRequest
    (podsWorld exPodsHalves) (podsWorld exPodsHalvesReversed) exPodsHalves exPodsHalvesReversed
    "default" rfl (hrep _) rfl (hrep _) rfl rfl hord
  ⟨rfl, hrep _, rfl, hrep _, rfl, rfl, hord, h.1, h.2.1, h.2.2.1, h.2.2.2, hgrid,
    h.1.2 (-2) hgrid⟩

/-- C17, the claim as stated fails: a node with 100 milli-units of CPU and `2 ^ 53 + 1`
bytes of memory allocatable is polled. The CPU gauge of the node then holds the `float64`
nearest to one tenth, which is not one tenth, and the memory gauge holds `2 ^ 53`, which
is not the byte count. -/
theorem C17_counterexample :
    exWorldTenth.cluster.nodes = .ok [exNodeTenth]
    ∧ exNodeTenth.Allocatable.Cpu.MilliValue = 100
    ∧ exNodeTenth.Allocatable.Memory.Value = 9007199254740993
    ∧ (Handler.MetricsJSONHandler NewRecorder exRequest exWorldTenth).w.Code = 200
    ∧ (Handler.MetricsJSONHandler NewRecorder exRequest exWorldTenth).s.m.CPUAllocatable.value?
        ["node1"] = some (3602879701896397 / 36028797018963968)
    ∧ (3602879701896397 / 36028797018963968 : ℚ) ≠ 100 / 1000
    ∧ (Handler.MetricsJSONHandler NewRecorder exRequest
        exWorldTenth).s.m.MemoryAllocatable.value? ["node1"] = some 9007199254740992
    ∧ (9007199254740992 : ℚ) ≠ 9007199254740993 := by
  have hN := holdsNodes_congr [exNodeTenth] _ _
    (MetricsJSONHandler_nodeGauges NewRecorder exRequest exWorldTenth [exNodeTenth] rfl)
    (holdsNodes_nodesUpdate [exNodeTenth] exWorldTenth.m (by simp))
  have hv := hN.2.2 exNodeTenth (List.mem_singleton.2 rfl)
  have e1 : exNodeTenth.Allocatable.Cpu.MilliValue = 100 := by decide
  have e2 : exNodeTenth.Allocatable.Memory.Value = 9007199254740993 := by decide
  rw [e1, e2, float64Div_examples.1, float64_examples.1] at hv
  exact ⟨rfl, e1, e2, by decide, hv.2.1, by norm_num, hv.2.2, by norm_num⟩

/-- C17, amended: for a node of a successful node listing (node names being distinct),
the CPU allocatable gauge of the node holds the `float64` quotient by 1000 of its
allocatable CPU in milli-units, and the memory allocatable gauge the `float64` of its
allocatable memory in bytes, whatever the later listings answer, with no other factor.
For magnitudes up to `2 ^ 53` the memory gauge is the byte count itself and the CPU gauge
is the exact quotient rounded once to `float64`, within the fraction `2 ^ (-53)` of it.
After a poll whose five listings succeed the CPU request and limit totals of a namespace
are the running `float64` sums of such quotients and the memory request and limit totals
the running `float64` sums of byte counts. -/
theorem C17_units (w : ResponseWriter) (r : Request) (s : World) (nodes : List Node)
    (n : Node) (hn : s.cluster.nodes = .ok nodes) (hnd : (nodes.map Node.Name).Nodup)
    (hmem : n ∈ nodes) :
    (Handler.MetricsJSONHandler w r s).s.m.CPUAllocatable.value? [n.Name]
        = some (float64Div (float64 n.Allocatable.Cpu.MilliValue) 1000)
    ∧ (|n.Allocatable.Cpu.MilliValue| ≤ 2 ^ 53 →
        float64Div (float64 n.Allocatable.Cpu.MilliValue) 1000
          = roundFloat64 ((n.Allocatable.Cpu.MilliValue : ℚ) / 1000)
        ∧ |float64Div (float64 n.Allocatable.Cpu.MilliValue) 1000
            - (n.Allocatable.Cpu.MilliValue : ℚ) / 1000|
          ≤ |(n.Allocatable.Cpu.MilliValue : ℚ) / 1000| / 2 ^ 53)
    ∧ (Handler.MetricsJSONHandler w r s).s.m.MemoryAllocatable.value? [n.Name]
        = some (float64 n.Allocatable.Memory.Value)
    ∧ (|n.Allocatable.Memory.Value| ≤ 2 ^ 53 →
        float64 n.Allocatable.Memory.Value = (n.Allocatable.Memory.Value : ℚ))
    ∧ (∀ (pods : List Pod) (ns : String), s.cluster.pods = .ok pods →
        s.cluster.allSucceed = true → s.cluster.replicasSet →
        (declaredIn cpuRequestOf ns pods →
          (Handler.MetricsJSONHandler w r s).s.m.CPURequests.value? [ns]
            = some ((contributions (fun c => (List.lookup "cpu" c.Requests).map
                (fun q => float64Div (float64 q.MilliValue) 1000)) ns pods).foldl
                float64Add 0))
        ∧ (declaredIn memRequestOf ns pods →
          (Handler.MetricsJSONHandler w r s).s.m.MemoryRequests.value? [ns]
            = some ((contributions (fun c => (List.lookup "memory" c.Requests).map
                (fun q => float64 q.Value)) ns pods).foldl float64Add 0))
        ∧ (declaredIn cpuLimitOf ns pods →
          (Handler.MetricsJSONHandler w r s).s.m.CPULimits.value? [ns]
            = some ((contributions (fun c => (List.lookup "cpu" c.Limits).map
                (fun q => float64Div (float64 q.MilliValue) 1000)) ns pods).foldl
                float64Add 0))
        ∧ (declaredIn memLimitOf ns pods →
          (Handler.MetricsJSONHandler w r s).s.m.MemoryLimits.value? [ns]
            = some ((contributions (fun c => (List.lookup "memory" c.Limits).map
                (fun q => float64 q.Value)) ns pods).foldl float64Add 0))) := by
  have hN := holdsNodes_congr nodes _ _ (MetricsJSONHandler_nodeGauges w r s nodes hn)
    (holdsNodes_nodesUpdate nodes s.m hnd)
  have hv := hN.2.2 n hmem
  refine ⟨hv.2.1, fun h => float64Div_milli _ h, hv.2.2, fun h => float64_eq_self _ h, ?_⟩
  intro pods ns hp hall hrep
  obtain ⟨t1, t2, t3, t4⟩ := MetricsJSONHandler_success_totals w r s pods hall hrep hp
  rw [t1, t2, t3, t4]
  exact ⟨(namespaceFamily_spec cpuRequestOf pods ns).2.1,
    (namespaceFamily_spec memRequestOf pods ns).2.1,
    (namespaceFamily_spec cpuLimitOf pods ns).2.1,
    (namespaceFamily_spec memLimitOf pods ns).2.1⟩

/-- C17 at the end-to-end scenario: 2000 milli-units give 2 cores, 4Gi gives 4294967296
bytes, the requests of 500 milli-units and 512Mi give one half and 536870912. -/
theorem C17_witness :
    e2eWorld.cluster.nodes = .ok [e2eNode] ∧ ([e2eNode].map Node.Name).Nodup
    ∧ e2eNode ∈ [e2eNode]
    ∧ (Handler.MetricsJSONHandler NewRecorder exRequest e2eWorld).s.m.CPUAllocatable.value?
        [e2eNode.Name] = some (float64Div (float64 e2eNode.Allocatable.Cpu.MilliValue) 1000)
    ∧ (Handler.MetricsJSONHandler NewRecorder exRequest e2eWorld).s.m.MemoryAllocatable.value?
        [e2eNode.Name] = some (float64 e2eNode.Allocatable.Memory.Value)
    ∧ (Handler.MetricsJSONHandler NewRecorder exRequest e2eWorld).s.m.CPUAllocatable.value?
        ["node1"] = some 2
    ∧ (Handler.MetricsJSONHandler NewRecorder exRequest e2eWorld).s.m.MemoryAllocatable.value?
        ["node1"] = some 4294967296
    ∧ (Handler.MetricsJSONHandler NewRecorder exRequest e2eWorld).s.m.CPURequests.value?
        ["default"] = some (1 / 2)
    ∧ (Handler.MetricsJSONHandler NewRecorder exRequest e2eWorld).s.m.MemoryRequests.value?
        ["default"] = some 536870912 := by
  have h := C17_units NewRecorder exRequest e2eWorld [e2eNode] e2eNode rfl (by simp) (by simp)
  have hrep : e2eWorld.cluster.replicasSet := by
    intro ds hds d hd
    have e : ds = [] := by
      simp only [e2eWorld, e2eCluster, Except.ok.injEq] at hds
      exact hds.symm
    subst e
    cases hd
  have hq := h.2.2.2.2 [e2ePod] "default" rfl rfl hrep
  have hc : declaredIn cpuRequestOf "default" [e2ePod] :=
    ⟨e2ePod, List.mem_singleton.2 rfl, rfl, _, List.mem_singleton.2 rfl, rfl⟩
  have hm : declaredIn memRequestOf "default" [e2ePod] :=
    ⟨e2ePod, List.mem_singleton.2 rfl, rfl, _, List.mem_singleton.2 rfl, rfl⟩
  refine ⟨rfl, by simp, by simp, h.1, h.2.2.1, ?_, ?_, ?_, ?_⟩
  · refine h.1.trans ?_
    have e : e2eNode.Allocatable.Cpu.MilliValue = 2000 := by decide
    rw [e, float64Div_examples.2.2.2.2]
  · refine h.2.2.1.trans ?_
    have e : e2eNode.Allocatable.Memory.Value = 4294967296 := by decide
    rw [e, float64_examples.2.1]
  · exact (hq.1 hc).trans (congrArg some namespaceTotal_e2e.1)
  · exact (hq.2.1 hm).trans (congrArg some namespaceTotal_e2e.2)

/-- C19: when the registry already holds a collector under each of the sixteen metric
names, `NewPrometheusMetrics` returns a metric set none of whose sixteen fields is nil and
leaves the collectors held by the registry as they were: every `Register` call is refused
and its error discarded. The function has no failing path. The logger is any logger that
does not touch the registry. -/
theorem C19_reregistration_is_noop (logger : Logger MetricsWorld) (s : MetricsWorld)
    (hlog : ∀ (rec : LogRecord) (s2 : MetricsWorld), (logger.write rec s2).registry = s2.registry)
    (hreg : ∀ n ∈ metricNames, ∃ c ∈ s.registry, c.fqName = n) :
    (∀ f ∈ (NewPrometheusMetrics logger s).1.fields, f ≠ none)
    ∧ (NewPrometheusMetrics logger s).2.registry = s.registry := by
  constructor
  · intro f hf
    simp only [NewPrometheusMetrics, PrometheusMetricsPtrs.fields, List.mem_cons,
      List.mem_singleton, List.not_mem_nil, or_false] at hf
    rcases hf with h | h | h | h | h | h | h | h | h | h | h | h | h | h | h | h <;>
      (rw [h]; exact Option.some_ne_none _)
  · simp only [NewPrometheusMetrics, Logger.Info, hlog]
    rw [foldl_registerIgnoringError_refused]
    intro c hc
    simp only [List.mem_cons, List.mem_singleton, List.not_mem_nil, or_false] at hc
    rcases hc with h | h | h | h | h | h | h | h | h | h | h | h | h | h | h | h <;>
      (subst h; exact hreg _ (by simp [metricNames]))

theorem C19_witness :
    (∀ (rec : LogRecord) (s2 : MetricsWorld),
        (stdoutLoggerM.write rec s2).registry = s2.registry)
    ∧ (∀ n ∈ metricNames, ∃ c ∈ onceRegistered.registry, c.fqName = n)
    ∧ (∀ f ∈ (NewPrometheusMetrics stdoutLoggerM onceRegistered).1.fields, f ≠ none)
    ∧ (NewPrometheusMetrics stdoutLoggerM onceRegistered).2.registry = onceRegistered.registry
    ∧ onceRegistered.registry.length = 16 :=
  have hreg : ∀ n ∈ metricNames, ∃ c ∈ onceRegistered.registry, c.fqName = n := by decide
  ⟨fun _ _ => rfl, hreg,
    (C19_reregistration_is_noop stdoutLoggerM onceRegistered (fun _ _ => rfl) hreg).1,
    (C19_reregistration_is_noop stdoutLoggerM onceRegistered (fun _ _ => rfl) hreg).2,
    by decide⟩

/-- C20, the code at the failing input: a handler that calls `WriteHeader(404)` and then
`WriteHeader(500)` gets the response committed with 404, and the middleware logs the
status 500; a handler that writes its body and then calls `WriteHeader(500)` gets the
response committed with 200, and the middleware logs 500. For a handler that never calls
`WriteHeader` the logged status is 200, as the response. -/
theorem C20_logged_status_is_last_WriteHeader :
    (LoggingMiddleware stdoutLogger World.now exTwoHeaders NewRecorder exRequest exWorld).w.Code
        = 404
    ∧ loggedStatus (LoggingMiddleware stdoutLogger World.now exTwoHeaders NewRecorder
        exRequest exWorld).s = some "500"
    ∧ (LoggingMiddleware stdoutLogger World.now exLateHeader NewRecorder exRequest
        exWorld).w.Code = 200
    ∧ loggedStatus (LoggingMiddleware stdoutLogger World.now exLateHeader NewRecorder
        exRequest exWorld).s = some "500"
    ∧ (LoggingMiddleware stdoutLogger World.now exNoHeader NewRecorder exRequest
        exWorld).w.Code = 200
    ∧ loggedStatus (LoggingMiddleware stdoutLogger World.now exNoHeader NewRecorder
        exRequest exWorld).s = some "200" := by
  refine ⟨?_, ?_, ?_, ?_, ?_, ?_⟩ <;> decide

/-- C26: for every expected token and every request, the legacy `authMiddleware` of
`main.go` and `middleware.AuthMiddleware` decide alike: the records of the invocations of
the wrapped handler are equal, holding the request once or nothing; when the handler is
not invoked both answer a fresh response with status 401, with different bodies. -/
theorem C26_legacy_auth_same_decision (σ : Type) (expectedToken : String)
    (logger1 logger2 : Logger σ) (next : HandlerFunc σ) (w : ResponseWriter) (r : Request)
    (s : σ) (hw : w.wroteHeader = false) :
    (authMiddleware expectedToken logger1.withTrace (traced next) w r (s, [])).s.2
        = (AuthMiddleware expectedToken logger2.withTrace (traced next) w r (s, [])).s.2
    ∧ ((AuthMiddleware expectedToken logger2.withTrace (traced next) w r (s, [])).s.2 = [r]
      ∨ ((AuthMiddleware expectedToken logger2.withTrace (traced next) w r (s, [])).s.2 = []
        ∧ (authMiddleware expectedToken logger1 next w r s).w.Code = 401
        ∧ (AuthMiddleware expectedToken logger2 next w r s).w.Code = 401
        ∧ (authMiddleware expectedToken logger1 next w r s).w.Body
            ≠ (AuthMiddleware expectedToken logger2 next w r s).w.Body)) := by
  rcases authMiddleware_eq expectedToken logger1.withTrace (traced next) w r (s, []) with
    ⟨hrej, msg, logMsg, -, ht⟩ | ⟨hacc, ht⟩
  · obtain ⟨-, msg2, logMsg2, hne, hl⟩ :
        authRejects expectedToken (r.Header.Get "Authorization") = true
        ∧ ∃ msg : String, ∃ logMsg : String, msg ≠ "unauthorized"
          ∧ authMiddleware expectedToken logger1 next w r s
              = ⟨httpError w msg 401, logger1.Warn logMsg [("path", r.Path)] s, false⟩ := by
      rcases authMiddleware_eq expectedToken logger1 next w r s with h | h
      · exact h
      · rw [hrej] at h; exact absurd h.1 (by decide)
    have hnew : ∀ (τ : Type) (lg : Logger τ) (nx : HandlerFunc τ) (t : τ),
        AuthMiddleware expectedToken lg nx w r t
          = ⟨httpError w "unauthorized" 401,
              lg.Warn "Acesso não autorizado" [("path", r.Path)] t, false⟩ := by
      intro τ lg nx t
      simp only [AuthMiddleware, hrej, if_true]
    have htr : (authMiddleware expectedToken logger1.withTrace (traced next) w r (s, [])).s.2
        = [] := by
      rw [ht]; rfl
    refine ⟨?_, Or.inr ⟨?_, ?_, ?_, ?_⟩⟩
    · rw [htr, hnew]; rfl
    · rw [hnew]; rfl
    · rw [hl]; exact (httpError_fresh w msg2 401 hw).1
    · rw [hnew]; exact (httpError_fresh w "unauthorized" 401 hw).1
    · rw [hl, hnew, (httpError_fresh w msg2 401 hw).2.1,
        (httpError_fresh w "unauthorized" 401 hw).2.1]
      intro he
      have he2 := List.append_cancel_left he
      simp only [List.cons.injEq, Chunk.text.injEq, and_true] at he2
      have he3 := congrArg String.data he2
      simp only [String.data_append] at he3
      exact hne (String.ext (List.append_cancel_right he3))
  · have hnew : AuthMiddleware expectedToken logger2.withTrace (traced next) w r (s, [])
        = traced next w r (s, []) := by
      simp only [AuthMiddleware, hacc, Bool.false_eq_true, if_false]
    refine ⟨?_, Or.inl ?_⟩
    · rw [ht, hnew]; rfl
    · rw [hnew]; rfl

theorem C26_witness :
    NewRecorder.wroteHeader = false
    ∧ (authMiddleware "valid-token-123" stdoutLogger.withTrace (traced exHandler) NewRecorder
          (exRequestWith "Bearer invalid-token") (exWorld, [])).s.2
        = (AuthMiddleware "valid-token-123" stdoutLogger.withTrace (traced exHandler)
            NewRecorder (exRequestWith "Bearer invalid-token") (exWorld, [])).s.2
    ∧ ((AuthMiddleware "valid-token-123" stdoutLogger.withTrace (traced exHandler) NewRecorder
          (exRequestWith "Bearer invalid-token") (exWorld, [])).s.2
            = [exRequestWith "Bearer invalid-token"]
      ∨ ((AuthMiddleware "valid-token-123" stdoutLogger.withTrace (traced exHandler)
            NewRecorder (exRequestWith "Bearer invalid-token") (exWorld, [])).s.2 = []
        ∧ (authMiddleware "valid-token-123" stdoutLogger exHandler NewRecorder
            (exRequestWith "Bearer invalid-token") exWorld).w.Code = 401
        ∧ (AuthMiddleware "valid-token-123" stdoutLogger exHandler NewRecorder
            (exRequestWith "Bearer invalid-token") exWorld).w.Code = 401
        ∧ (authMiddleware "valid-token-123" stdoutLogger exHandler NewRecorder
            (exRequestWith "Bearer invalid-token") exWorld).w.Body
            ≠ (AuthMiddleware "valid-token-123" stdoutLogger exHandler NewRecorder
                (exRequestWith "Bearer invalid-token") exWorld).w.Body))
    ∧ (authMiddleware "valid-token-123" stdoutLogger exHandler NewRecorder
        (exRequestWith "Bearer invalid-token") exWorld).w.Body
        = [Chunk.text "Acesso não autorizado: token inválido\n"]
    ∧ (authMiddleware "valid-token-123" stdoutLogger exHandler NewRecorder
        (exRequestWith "Bearer valid-token-123") exWorld).w.Body = [Chunk.text "OK"] :=
  ⟨rfl,
    (C26_legacy_auth_same_decision World "valid-token-123" stdoutLogger stdoutLogger exHandler
      NewRecorder (exRequestWith "Bearer invalid-token") exWorld rfl).1,
    (C26_legacy_auth_same_decision World "valid-token-123" stdoutLogger stdoutLogger exHandler
      NewRecorder (exRequestWith "Bearer invalid-token") exWorld rfl).2,
    by decide, by decide⟩

/-- C25: `config.New` returns `ErrMissingAuthToken`, and no other error, exactly when
`EXPECTED_AUTH_TOKEN` is unset or holds only white space (the empty value included);
otherwise it returns a `Config` whose `ExpectedAuthToken` is the value without its leading
and trailing white space, which is not empty and neither starts nor ends with white space,
and whose `Port` is the value of `PORT`, or "8080" when `PORT` is unset or empty. -/
theorem C25_config_new (env : Env) :
    (configNew env = .error ErrMissingAuthToken
      ↔ (List.lookup "EXPECTED_AUTH_TOKEN" env = none
        ∨ ∃ v, List.lookup "EXPECTED_AUTH_TOKEN" env = some v
            ∧ ∀ c ∈ v.data, unicodeIsSpace c = true))
    ∧ (∀ e, configNew env = .error e → e = ErrMissingAuthToken)
    ∧ (∀ v, List.lookup "EXPECTED_AUTH_TOKEN" env = some v →
        (∃ c ∈ v.data, unicodeIsSpace c = false) →
        ∃ cfg : Config, configNew env = .ok cfg
          ∧ cfg.ExpectedAuthToken = stringsTrimSpace v
          ∧ cfg.ExpectedAuthToken ≠ ""
          ∧ (∃ pre post : List Char, v.data = pre ++ cfg.ExpectedAuthToken.data ++ post
              ∧ (∀ c ∈ pre, unicodeIsSpace c = true) ∧ (∀ c ∈ post, unicodeIsSpace c = true)
              ∧ (∀ c, cfg.ExpectedAuthToken.data.head? = some c → unicodeIsSpace c = false)
              ∧ (∀ c, cfg.ExpectedAuthToken.data.getLast? = some c → unicodeIsSpace c = false))
          ∧ (List.lookup "PORT" env = none → cfg.Port = "8080")
          ∧ (List.lookup "PORT" env = some "" → cfg.Port = "8080")
          ∧ (∀ p, List.lookup "PORT" env = some p → p ≠ "" → cfg.Port = p)) := by
  have herr : ∀ e, configNew env = .error e →
      e = ErrMissingAuthToken ∧ stringsTrimSpace (Getenv env "EXPECTED_AUTH_TOKEN") = "" := by
    intro e he
    unfold configNew at he
    simp only at he
    split at he
    · rename_i h
      exact ⟨(Except.error.inj he).symm, h⟩
    · cases he
  have hempty : stringsTrimSpace (Getenv env "EXPECTED_AUTH_TOKEN") = ""
      ↔ (List.lookup "EXPECTED_AUTH_TOKEN" env = none
        ∨ ∃ v, List.lookup "EXPECTED_AUTH_TOKEN" env = some v
            ∧ ∀ c ∈ v.data, unicodeIsSpace c = true) := by
    rw [stringsTrimSpace_eq_empty_iff]
    cases hl : List.lookup "EXPECTED_AUTH_TOKEN" env with
    | none => simp [Getenv, hl]
    | some v => simp [Getenv, hl]
  refine ⟨?_, fun e he => (herr e he).1, ?_⟩
  · constructor
    · intro h
      exact hempty.1 (herr _ h).2
    · intro h
      have h2 := hempty.2 h
      simp only [configNew, h2, if_true]
  · intro v hv ⟨c, hc, hns⟩
    have hget : Getenv env "EXPECTED_AUTH_TOKEN" = v := by simp [Getenv, hv]
    have hne : stringsTrimSpace v ≠ "" := by
      rw [Ne, stringsTrimSpace_eq_empty_iff]
      intro hall
      rw [hall c hc] at hns
      cases hns
    refine ⟨⟨if Getenv env "PORT" = "" then "8080" else Getenv env "PORT",
      stringsTrimSpace v⟩, ?_, rfl, hne, stringsTrimSpace_spec v, ?_, ?_, ?_⟩
    · simp only [configNew, hget, hne, if_false]
    · intro hp
      simp [Getenv, hp]
    · intro hp
      simp [Getenv, hp]
    · intro p hp hpne
      simp [Getenv, hp, hpne]

theorem C25_witness :
    List.lookup "EXPECTED_AUTH_TOKEN" exEnv = some "  valid-token-123\n"
    ∧ (∃ c ∈ ("  valid-token-123\n" : String).data, unicodeIsSpace c = false)
    ∧ configNew exEnv = .ok ⟨"8080", "valid-token-123"⟩
    ∧ configNew [] = .error ErrMissingAuthToken
    ∧ configNew [("EXPECTED_AUTH_TOKEN", " \t "), ("PORT", "9090")] = .error ErrMissingAuthToken
    ∧ (∃ cfg : Config, configNew exEnv = .ok cfg
          ∧ cfg.ExpectedAuthToken = stringsTrimSpace "  valid-token-123\n"
          ∧ cfg.ExpectedAuthToken ≠ ""
          ∧ (∃ pre post : List Char,
              ("  valid-token-123\n" : String).data = pre ++ cfg.ExpectedAuthToken.data ++ post
              ∧ (∀ c ∈ pre, unicodeIsSpace c = true) ∧ (∀ c ∈ post, unicodeIsSpace c = true)
              ∧ (∀ c, cfg.ExpectedAuthToken.data.head? = some c → unicodeIsSpace c = false)
              ∧ (∀ c, cfg.ExpectedAuthToken.data.getLast? = some c → unicodeIsSpace c = false))
          ∧ (List.lookup "PORT" exEnv = none → cfg.Port = "8080")
          ∧ (List.lookup "PORT" exEnv = some "" → cfg.Port = "8080")
          ∧ (∀ p, List.lookup "PORT" exEnv = some p → p ≠ "" → cfg.Port = p)) :=
  ⟨by decide, ⟨'v', by decide, by decide⟩, by rfl, by rfl, by rfl,
    (C25_config_new exEnv).2.2 "  valid-token-123\n" (by decide) ⟨'v', by decide, by decide⟩⟩

/-- C23: after a poll whose five listings succeed, every listed deployment having its
replica field set and the pairs of namespace and name being distinct, the desired-replicas
family holds for each listed deployment the replica count of its spec, the
available-replicas family holds the available count of its status, and the label tuples
of both families are those of the listed deployments, one per deployment. -/
theorem C23_deployment_families (w : ResponseWriter) (r : Request) (s : World)
    (nodes : List Node) (pods : List Pod) (namespaces : List Namespace)
    (ds : List Deployment) (services : List Service)
    (hn : s.cluster.nodes = .ok nodes) (hp : s.cluster.pods = .ok pods)
    (hns : s.cluster.namespaces = .ok namespaces) (hd : s.cluster.deployments = .ok ds)
    (hs : s.cluster.services = .ok services)
    (hr : ∀ d ∈ ds, d.Replicas ≠ none)
    (hnd : (ds.map (fun d => [d.Namespace, d.Name])).Nodup) :
    (∀ d ∈ ds, ∀ n : Int, d.Replicas = some n →
        (Handler.MetricsJSONHandler w r s).s.m.DeploymentDesired.value? [d.Namespace, d.Name]
          = some (n : ℚ))
    ∧ (∀ d ∈ ds,
        (Handler.MetricsJSONHandler w r s).s.m.DeploymentAvailable.value? [d.Namespace, d.Name]
          = some (d.AvailableReplicas : ℚ))
    ∧ (Handler.MetricsJSONHandler w r s).s.m.DeploymentDesired.labels
        = ds.map (fun d => [d.Namespace, d.Name])
    ∧ (Handler.MetricsJSONHandler w r s).s.m.DeploymentAvailable.labels
        = ds.map (fun d => [d.Namespace, d.Name]) := by
  have g := (MetricsJSONHandler_success_groups w r s nodes pods namespaces ds services
    hn hp hns hd hs hr).2.2.2
  simp only [deploymentGauges, Prod.mk.injEq] at g
  obtain ⟨-, g1, g2⟩ := g
  rw [g1, g2, deploymentsUpdate_DeploymentDesired ds _ hr,
    deploymentsUpdate_DeploymentAvailable ds _ hr]
  refine ⟨?_, ?_, ?_, ?_⟩
  · intro d hdm n hrep
    have h := lookup_foldl_set_of_nodup (fun d : Deployment => [d.Namespace, d.Name])
      (fun d => ((d.Replicas.getD 0 : Int) : ℚ)) 0 ds [] hnd d hdm
    simp only [hrep, Option.getD_some] at h
    exact h
  · intro d hdm
    exact lookup_foldl_set_of_nodup (fun d : Deployment => [d.Namespace, d.Name])
      (fun d => (d.AvailableReplicas : ℚ)) 0 ds [] hnd d hdm
  · have h := mapKeys_foldl_mapModify_of_nodup (fun d : Deployment => [d.Namespace, d.Name])
      (fun d _ => ((d.Replicas.getD 0 : Int) : ℚ)) 0 ds [] hnd (fun _ _ h => by cases h)
    simpa [GaugeVec.labels, mapKeys] using h
  · have h := mapKeys_foldl_mapModify_of_nodup (fun d : Deployment => [d.Namespace, d.Name])
      (fun d _ => (d.AvailableReplicas : ℚ)) 0 ds [] hnd (fun _ _ h => by cases h)
    simpa [GaugeVec.labels, mapKeys] using h

theorem C23_witness :
    (∀ d ∈ [exDeployment], d.Replicas ≠ none)
    ∧ ([exDeployment].map (fun d => [d.Namespace, d.Name])).Nodup
    ∧ (∀ d ∈ [exDeployment], ∀ n : Int, d.Replicas = some n →
        (Handler.MetricsJSONHandler NewRecorder exRequest exWorld).s.m.DeploymentDesired.value?
          [d.Namespace, d.Name] = some (n : ℚ))
    ∧ (∀ d ∈ [exDeployment],
        (Handler.MetricsJSONHandler NewRecorder exRequest exWorld).s.m.DeploymentAvailable.value?
          [d.Namespace, d.Name] = some (d.AvailableReplicas : ℚ))
    ∧ (Handler.MetricsJSONHandler NewRecorder exRequest exWorld).s.m.DeploymentDesired.labels
        = [exDeployment].map (fun d => [d.Namespace, d.Name])
    ∧ (Handler.MetricsJSONHandler NewRecorder exRequest exWorld).s.m.DeploymentAvailable.labels
        = [exDeployment].map (fun d => [d.Namespace, d.Name])
    ∧ (Handler.MetricsJSONHandler NewRecorder exRequest exWorld).s.m.DeploymentDesired.value?
        ["default", "web"] = some 3
    ∧ (Handler.MetricsJSONHandler NewRecorder exRequest exWorld).s.m.DeploymentAvailable.value?
        ["default", "web"] = some 2 := by
  have h := C23_deployment_families NewRecorder exRequest exWorld [exNode] [exPod]
    [⟨"default"⟩] [exDeployment] [⟨"default", "svc1"⟩] rfl rfl rfl rfl rfl
    (by simp [exDeployment]) (by simp)
  refine ⟨by simp [exDeployment], by simp, h.1, h.2.1, h.2.2.1, h.2.2.2, ?_, ?_⟩
  · have h1 := h.1 exDeployment (List.mem_singleton.2 rfl) 3 rfl
    simpa [exDeployment] using h1
  · have h2 := h.2.1 exDeployment (List.mem_singleton.2 rfl)
    simpa [exDeployment] using h2

/-- C22: after a poll whose five listings succeed, from any prior gauges, the family
`pod_status_phase` holds for each pair of namespace and phase the number of listed pods of
that namespace and phase, a pair without pod having no series; its label tuples are
distinct; and for every phase the sum of its values over all namespaces is the entry of
the phase in `podPhases` of the encoded snapshot (zero when the phase has no entry). -/
theorem C22_pod_phase_family (w : ResponseWriter) (r : Request) (s : World)
    (nodes : List Node) (pods : List Pod) (namespaces : List Namespace)
    (deployments : List Deployment) (services : List Service)
    (hn : s.cluster.nodes = .ok nodes) (hp : s.cluster.pods = .ok pods)
    (hns : s.cluster.namespaces = .ok namespaces)
    (hd : s.cluster.deployments = .ok deployments)
    (hs : s.cluster.services = .ok services)
    (hr : ∀ d ∈ deployments, d.Replicas ≠ none) :
    (∀ ns phase : String, 0 < podsIn ns phase pods →
        (Handler.MetricsJSONHandler w r s).s.m.PodStatus.value? [ns, phase]
          = some (podsIn ns phase pods : ℚ))
    ∧ (∀ ns phase : String, podsIn ns phase pods = 0 →
        [ns, phase] ∉ (Handler.MetricsJSONHandler w r s).s.m.PodStatus.labels)
    ∧ (∀ lvs ∈ (Handler.MetricsJSONHandler w r s).s.m.PodStatus.labels,
        ∃ p ∈ pods, lvs = [p.Namespace, p.Phase])
    ∧ (Handler.MetricsJSONHandler w r s).s.m.PodStatus.labels.Nodup
    ∧ ∃ v : ClusterMetrics,
        (Handler.MetricsJSONHandler w r s).w.Body = w.Body ++ [Chunk.jsonMetrics v]
        ∧ ∀ phase : String,
            phaseTotal (Handler.MetricsJSONHandler w r s).s.m.PodStatus phase
              = (((List.lookup phase v.PodPhases).getD 0 : Nat) : ℚ) := by
  have g := (MetricsJSONHandler_success_groups w r s nodes pods namespaces deployments
    services hn hp hns hd hs hr).2.1
  simp only [podGauges, Prod.mk.injEq] at g
  have gP := g.2.1
  have hmem : ∀ lvs : List String,
      lvs ∈ (Handler.MetricsJSONHandler w r s).s.m.PodStatus.labels
        ↔ ∃ p ∈ pods, lvs = [p.Namespace, p.Phase] := by
    intro lvs
    rw [gP]
    exact mem_labels_podsUpdate_PodStatus pods _ lvs
  have hcount : ∀ ns phase : String,
      (pods.filter (fun p => decide ([p.Namespace, p.Phase] = [ns, phase]))).length
        = podsIn ns phase pods := by
    intro ns phase
    unfold podsIn
    congr 1
    apply List.filter_congr
    intro p _
    simp
  have hval : ∀ ns phase : String,
      (List.lookup [ns, phase] (Handler.MetricsJSONHandler w r s).s.m.PodStatus).getD 0
        = (podsIn ns phase pods : ℚ) := by
    intro ns phase
    rw [gP, podsUpdate_PodStatus,
      lookup_foldl_inc (fun p : Pod => [p.Namespace, p.Phase]) pods [] [ns, phase], hcount]
    simp
  refine ⟨?_, ?_, fun lvs hl => (hmem lvs).1 hl, ?_, ?_⟩
  · intro ns phase hpos
    have hex : ∃ p ∈ pods, [ns, phase] = [p.Namespace, p.Phase] := by
      unfold podsIn at hpos
      obtain ⟨p, hp2⟩ := List.exists_mem_of_length_pos hpos
      rw [List.mem_filter] at hp2
      have hp3 : p.Namespace = ns ∧ p.Phase = phase := by simpa using hp2.2
      exact ⟨p, hp2.1, by rw [hp3.1, hp3.2]⟩
    obtain ⟨v, hv, -⟩ := lookup_isSome_of_mem [ns, phase] _ ((hmem [ns, phase]).2 hex)
    have h := hval ns phase
    rw [hv] at h
    rw [GaugeVec.value?, hv]
    exact congrArg some h
  · intro ns phase hzero hl
    obtain ⟨p, hp2, he⟩ := (hmem [ns, phase]).1 hl
    simp only [List.cons.injEq, and_true] at he
    have hin : p ∈ pods.filter (fun p => p.Namespace = ns ∧ p.Phase = phase) := by
      rw [List.mem_filter]
      exact ⟨hp2, by simp [he.1, he.2]⟩
    unfold podsIn at hzero
    rw [List.length_eq_zero] at hzero
    rw [hzero] at hin
    cases hin
  · rw [gP, podsUpdate_PodStatus]
    exact nodup_mapKeys_foldl_mapModify (fun p : Pod => [p.Namespace, p.Phase])
      (fun _ v => v + 1) 0 pods [] List.nodup_nil
  · refine ⟨snapshotOf nodes pods namespaces deployments services s.m s.now, ?_, ?_⟩
    · rw [MetricsJSONHandler_success w r s nodes pods namespaces deployments services
        hn hp hns hd hs hr]
      simp only [ResponseWriter.Write, ResponseWriter.WriteHeader, ResponseWriter.SetHeader]
      split <;> rfl
    · intro phase
      have h1 := sum_filter_foldl_inc (fun k : List String => decide (k.getD 1 "" = phase))
        (fun p : Pod => [p.Namespace, p.Phase]) pods []
      have h2 := lookup_foldl_inc (ν := Nat) (fun p : Pod => p.Phase) pods [] phase
      simp only [phaseTotal, gP, podsUpdate_PodStatus, snapshotOf, podsUpdate_podPhases_eq]
      rw [h1, h2]
      simp

theorem C22_witness :
    (∀ d ∈ [exDeployment], d.Replicas ≠ none)
    ∧ (∀ ns phase : String, 0 < podsIn ns phase [exPod] →
        (Handler.MetricsJSONHandler NewRecorder exRequest exWorld).s.m.PodStatus.value? [ns, phase] = some (podsIn ns phase [exPod] : ℚ))
    ∧ (∀ ns phase : String, podsIn ns phase [exPod] = 0 →
        [ns, phase] ∉ (Handler.MetricsJSONHandler NewRecorder exRequest exWorld).s.m.PodStatus.labels)
    ∧ (∀ lvs ∈ (Handler.MetricsJSONHandler NewRecorder exRequest exWorld).s.m.PodStatus.labels, ∃ p ∈ [exPod], lvs = [p.Namespace, p.Phase])
    ∧ (Handler.MetricsJSONHandler NewRecorder exRequest exWorld).s.m.PodStatus.labels.Nodup
    ∧ (∃ v : ClusterMetrics,
        (Handler.MetricsJSONHandler NewRecorder exRequest exWorld).w.Body = NewRecorder.Body ++ [Chunk.jsonMetrics v]
        ∧ ∀ phase : String,
            phaseTotal (Handler.MetricsJSONHandler NewRecorder exRequest exWorld).s.m.PodStatus phase
              = (((List.lookup phase v.PodPhases).getD 0 : Nat) : ℚ))
    ∧ (Handler.MetricsJSONHandler NewRecorder exRequest exWorld).s.m.PodStatus.value? ["default", "Running"] = some 1 := by
  have h := C22_pod_phase_family NewRecorder exRequest exWorld [exNode] [exPod] [⟨"default"⟩]
    [exDeployment] [⟨"default", "svc1"⟩] rfl rfl rfl rfl rfl (by simp [exDeployment])
  refine ⟨by simp [exDeployment], h.1, h.2.1, h.2.2.1, h.2.2.2.1, h.2.2.2.2, ?_⟩
  have h1 := h.1 "default" "Running" (by decide)
  have e : podsIn "default" "Running" [exPod] = 1 := by decide
  rw [e] at h1
  simpa using h1

/-- C24: `NewPrometheusMetrics` is called in a process where none of the sixteen names is
registered, and called again. Every `Register` call of the second call is refused as
already registered, so the registry after the second call is the one after the first and
holds the collectors of the first metric set. Gauge contents written through the second
set change nothing in the exposition of the registry, while contents written through the
first set are exposed, each series under its metric name. The logger is any logger that
touches neither the registry nor the object identities. -/
theorem C24_second_metric_set_is_not_exposed (logger : Logger MetricsWorld)
    (s0 : MetricsWorld) (contents : PrometheusMetrics) (heap : Heap)
    (hlogR : ∀ (rec : LogRecord) (s2 : MetricsWorld), (logger.write rec s2).registry = s2.registry)
    (hlogP : ∀ (rec : LogRecord) (s2 : MetricsWorld), (logger.write rec s2).nextPtr = s2.nextPtr)
    (hwf : ∀ c ∈ s0.registry, c.ptr < s0.nextPtr)
    (hfresh : ∀ c ∈ s0.registry, c.fqName ∉ metricNames) :
    (∀ c, some c ∈ (NewPrometheusMetrics logger (NewPrometheusMetrics logger s0).2).1.fields →
        Register c (NewPrometheusMetrics logger s0).2.registry = .error .alreadyRegistered)
    ∧ (NewPrometheusMetrics logger (NewPrometheusMetrics logger s0).2).2.registry
        = (NewPrometheusMetrics logger s0).2.registry
    ∧ (∀ c, some c ∈ (NewPrometheusMetrics logger s0).1.fields →
        c ∈ (NewPrometheusMetrics logger (NewPrometheusMetrics logger s0).2).2.registry)
    ∧ exposition (NewPrometheusMetrics logger (NewPrometheusMetrics logger s0).2).2.registry
          (storeThrough (NewPrometheusMetrics logger (NewPrometheusMetrics logger s0).2).1
            contents heap)
        = exposition (NewPrometheusMetrics logger (NewPrometheusMetrics logger s0).2).2.registry
            heap
    ∧ (∀ e ∈ metricNames.zip (seriesOf contents),
        e ∈ exposition
          (NewPrometheusMetrics logger (NewPrometheusMetrics logger s0).2).2.registry
          (storeThrough (NewPrometheusMetrics logger s0).1 contents heap)) := by
  obtain ⟨hR1, hP1⟩ := NewPrometheusMetrics_first logger s0 hlogR hlogP hfresh
  have hsame : ∀ c ∈ newCollectors (s0.nextPtr + 16),
      ∃ c2 ∈ newCollectors s0.nextPtr, c2.desc = c.desc := by
    intro c hc
    have h : c.desc ∈ (newCollectors s0.nextPtr).map Collector.desc := by
      rw [newCollectors_desc s0.nextPtr (s0.nextPtr + 16)]
      exact List.mem_map_of_mem _ hc
    obtain ⟨c2, hc2, he⟩ := List.mem_map.1 h
    exact ⟨c2, hc2, he⟩
  have hreg : ∀ n ∈ metricNames,
      ∃ c ∈ (NewPrometheusMetrics logger s0).2.registry, c.fqName = n := by
    intro n hn
    rw [← newCollectors_names s0.nextPtr] at hn
    obtain ⟨c, hc, he⟩ := List.mem_map.1 hn
    exact ⟨c, by rw [hR1]; exact List.mem_append_right _ hc, he⟩
  have hR2 := NewPrometheusMetrics_again logger (NewPrometheusMetrics logger s0).2 hlogR hreg
  have hold : ∀ c ∈ s0.registry ++ newCollectors s0.nextPtr, c.ptr < s0.nextPtr + 16 := by
    intro c hc
    rcases List.mem_append.1 hc with h | h
    · exact Nat.lt_add_right 16 (hwf c h)
    · exact (mem_newCollectors_ptr _ c h).2
  refine ⟨?_, hR2, ?_, ?_, ?_⟩
  · intro c hc
    rw [NewPrometheusMetrics_fields, hP1, List.mem_map] at hc
    obtain ⟨c', hc', he⟩ := hc
    rw [Option.some.injEq] at he
    subst he
    obtain ⟨c2, hc2, hd⟩ := hsame c' hc'
    exact Register_alreadyRegistered c' _ ⟨c2, by rw [hR1]; exact List.mem_append_right _ hc2, hd⟩
  · intro c hc
    rw [NewPrometheusMetrics_fields, List.mem_map] at hc
    obtain ⟨c', hc', he⟩ := hc
    rw [Option.some.injEq] at he
    subst he
    rw [hR2, hR1]
    exact List.mem_append_right _ hc'
  · apply exposition_congr
    intro c hc
    rw [hR2, hR1] at hc
    rw [storeThrough, NewPrometheusMetrics_fields, hP1]
    apply puts_other
    intro c' hc' e
    have h1 := (mem_newCollectors_ptr _ c' hc').1
    have h2 := hold c hc
    omega
  · intro e he
    obtain ⟨name, g⟩ := e
    rw [← newCollectors_names s0.nextPtr] at he
    obtain ⟨c, hc, hn⟩ := mem_zip_names _ _ name g he
    have hnd : ((newCollectors s0.nextPtr).map Collector.ptr).Nodup := by
      rw [newCollectors_ptr]; exact List.nodup_range' _ _
    have hval := puts_mem (newCollectors s0.nextPtr) (seriesOf contents) heap hnd c g hc
    rw [hR2, hR1, storeThrough, NewPrometheusMetrics_fields, exposition, List.mem_map]
    refine ⟨c, List.mem_append_right _ (List.of_mem_zip hc).1, ?_⟩
    rw [hval, hn]

theorem C24_witness :
    (∀ (rec : LogRecord) (s2 : MetricsWorld),
        (stdoutLoggerM.write rec s2).registry = s2.registry)
    ∧ (∀ (rec : LogRecord) (s2 : MetricsWorld),
        (stdoutLoggerM.write rec s2).nextPtr = s2.nextPtr)
    ∧ (∀ c ∈ exLegacyWorld.registry, c.ptr < exLegacyWorld.nextPtr)
    ∧ (∀ c ∈ exLegacyWorld.registry, c.fqName ∉ metricNames)
    ∧ (∀ c, some c ∈ (NewPrometheusMetrics stdoutLoggerM (NewPrometheusMetrics stdoutLoggerM exLegacyWorld).2).1.fields →
        Register c (NewPrometheusMetrics stdoutLoggerM exLegacyWorld).2.registry = .error .alreadyRegistered)
    ∧ (NewPrometheusMetrics stdoutLoggerM (NewPrometheusMetrics stdoutLoggerM exLegacyWorld).2).2.registry
        = (NewPrometheusMetrics stdoutLoggerM exLegacyWorld).2.registry
    ∧ (∀ c, some c ∈ (NewPrometheusMetrics stdoutLoggerM exLegacyWorld).1.fields →
        c ∈ (NewPrometheusMetrics stdoutLoggerM (NewPrometheusMetrics stdoutLoggerM exLegacyWorld).2).2.registry)
    ∧ exposition (NewPrometheusMetrics stdoutLoggerM (NewPrometheusMetrics stdoutLoggerM exLegacyWorld).2).2.registry
          (storeThrough (NewPrometheusMetrics stdoutLoggerM (NewPrometheusMetrics stdoutLoggerM exLegacyWorld).2).1
            exContents exHeap)
        = exposition (NewPrometheusMetrics stdoutLoggerM (NewPrometheusMetrics stdoutLoggerM exLegacyWorld).2).2.registry
            exHeap
    ∧ (∀ e ∈ metricNames.zip (seriesOf exContents),
        e ∈ exposition
          (NewPrometheusMetrics stdoutLoggerM (NewPrometheusMetrics stdoutLoggerM exLegacyWorld).2).2.registry
          (storeThrough (NewPrometheusMetrics stdoutLoggerM exLegacyWorld).1 exContents exHeap))
    ∧ ("k8s_nodes_total", [([], exContents.NodeCount)])
        ∈ exposition
          (NewPrometheusMetrics stdoutLoggerM
            (NewPrometheusMetrics stdoutLoggerM exLegacyWorld).2).2.registry
          (storeThrough (NewPrometheusMetrics stdoutLoggerM exLegacyWorld).1 exContents
            exHeap) :=
  have h := C24_second_metric_set_is_not_exposed stdoutLoggerM exLegacyWorld exContents
    exHeap (fun _ _ => rfl) (fun _ _ => rfl) (by decide) (by decide)
  ⟨fun _ _ => rfl, fun _ _ => rfl, by decide, by decide, h.1, h.2.1, h.2.2.1, h.2.2.2.1, h.2.2.2.2,
    h.2.2.2.2 _ (List.mem_cons_self _ _)⟩

/-- C21: whatever the cluster answers to listings, `HealthCheckHandler`, run on a writer
whose header is not written yet while the clock reads an instant of the years 1 to 9999,
answers status 200 with the content type `application/json` and one JSON object of
exactly the two fields `status`, equal to `ok`, and `ts`, a text that `time.Parse`
accepts for the layout RFC 3339; it does not panic, issues no listing call and leaves
every gauge, and the whole world, as it was. -/
theorem C21_health_check (w : ResponseWriter) (r : Request) (s : World)
    (hw : w.wroteHeader = false)
    (h1 : -62135596800000000000 ≤ s.now) (h2 : s.now < 253402300800000000000) :
    (Handler.HealthCheckHandler w r s).w.Code = 200
    ∧ List.lookup "Content-Type" (Handler.HealthCheckHandler w r s).w.HeaderMap
        = some "application/json"
    ∧ (Handler.HealthCheckHandler w r s).w.Body
        = w.Body ++ [Chunk.jsonMap [("status", "ok"), ("ts", formatRFC3339 s.now)]]
    ∧ parseRFC3339 (formatRFC3339 s.now) = true
    ∧ (Handler.HealthCheckHandler w r s).panicked = false
    ∧ (Handler.HealthCheckHandler w r s).s.calls = s.calls
    ∧ (Handler.HealthCheckHandler w r s).s.m = s.m
    ∧ (Handler.HealthCheckHandler w r s).s = s := by
  have hW := write_fresh (w.SetHeader "Content-Type" "application/json")
    (Chunk.jsonMap [("status", "ok"), ("ts", formatRFC3339 s.now)]) hw
  refine ⟨hW.1, ?_, hW.2, parseRFC3339_formatRFC3339 s.now h1 h2, rfl, rfl, rfl, rfl⟩
  simp [Handler.HealthCheckHandler, ResponseWriter.Write, ResponseWriter.WriteHeader, hw,
    ResponseWriter.SetHeader, lookup_mapModify_self]

/-- C21 at a world whose API server answers no listing. -/
theorem C21_witness :
    NewRecorder.wroteHeader = false
    ∧ -62135596800000000000 ≤ exUnreachableWorld.now
    ∧ exUnreachableWorld.now < 253402300800000000000
    ∧ (Handler.HealthCheckHandler NewRecorder exHealthRequest exUnreachableWorld).w.Code = 200
    ∧ List.lookup "Content-Type"
        (Handler.HealthCheckHandler NewRecorder exHealthRequest exUnreachableWorld).w.HeaderMap
        = some "application/json"
    ∧ (Handler.HealthCheckHandler NewRecorder exHealthRequest exUnreachableWorld).w.Body
        = NewRecorder.Body
          ++ [Chunk.jsonMap [("status", "ok"), ("ts", formatRFC3339 exUnreachableWorld.now)]]
    ∧ parseRFC3339 (formatRFC3339 exUnreachableWorld.now) = true
    ∧ (Handler.HealthCheckHandler NewRecorder exHealthRequest exUnreachableWorld).panicked
        = false
    ∧ (Handler.HealthCheckHandler NewRecorder exHealthRequest exUnreachableWorld).s.calls
        = exUnreachableWorld.calls
    ∧ (Handler.HealthCheckHandler NewRecorder exHealthRequest exUnreachableWorld).s.m
        = exUnreachableWorld.m
    ∧ (Handler.HealthCheckHandler NewRecorder exHealthRequest exUnreachableWorld).s
        = exUnreachableWorld :=
  ⟨by decide, by decide, by decide,
    C21_health_check NewRecorder exHealthRequest exUnreachableWorld (by decide) (by decide)
      (by decide)⟩

end K8sMetricsAPI
